import Mathlib

/-!
# Multi-path generation (QuantLib, `ql/MonteCarlo/multipathgenerator.hpp`)

A shallow embedding of the two `MultiPathGenerator` class templates
(`QuantLib::Old`, the decomposed drift/diffusion scheme, and `QuantLib::New`,
the fused `evolve` scheme) together with the collaborators they use.

Conventions of the embedding.

* `Real`/`Time` are an arbitrary scalar type `R` carrying the operations the
  source uses (`+`, `-`, `*`, unary `-`, the literals `0` and `1`).
* `Size` is `std::size_t`; the arithmetic of the constructor checks is taken modulo
  `2 ^ 64`.  Loop counters and offsets are natural numbers: they are bounded by the
  size of the arrays they index.
* A C++ exception (`QL_REQUIRE`, `QL_FAIL`) is an `Except.error`.  An access
  outside an array (undefined behaviour in the source) is reported as
  `Error.outOfRange`, so that its absence can be stated and proved.
* A member function of the generator returns a `Call`: the object after the
  call together with the returned sample or the error raised.
-/

namespace QuantLib

/-! ## Errors and checked array access -/

/-- The failures of the embedding: the two `QL_REQUIRE`s of the constructors,
the `QL_FAIL` of `next(bool)`, and out-of-range accesses. -/
inductive Error where
  | dimensionMismatch
  | noTimesGiven
  | brownianBridgeNotSupported
  | outOfRange
  deriving DecidableEq, Repr

/-- The two construction-time failures ("ConfigurationError"). -/
def Error.isConfiguration : Error → Bool
  | .dimensionMismatch => true
  | .noTimesGiven => true
  | _ => false

/-- Read `xs[i]`, checked. -/
def getAt {α : Type} (xs : List α) (i : Nat) : Except Error α :=
  match xs[i]? with
  | some x => .ok x
  | none => .error .outOfRange

/-- Write `xs[i] = x`, checked. -/
def setAt {α : Type} (xs : List α) (i : Nat) (x : α) : Except Error (List α) :=
  if i < xs.length then .ok (xs.set i x) else .error .outOfRange

/-- The loop `for (Size i = lo; count-- > 0; i++) s = body(i, s)`, stopping at the first failure. -/
def forLoop {σ : Type} (body : Nat → σ → Except Error σ) : Nat → Nat → σ → Except Error σ
  | 0, _, s => .ok s
  | k + 1, i, s =>
    match body i s with
    | .ok s1 => forLoop body k (i + 1) s1
    | .error e => .error e

/-! ## `Size` arithmetic -/

/-- Number of values of `Size` (`std::size_t`, 64 bits). -/
def sizeModulus : Nat := 2 ^ 64

/-- The unsigned `a - 1`. -/
def sizePred (a : Nat) : Nat := (a + (sizeModulus - 1)) % sizeModulus

/-- The unsigned `a * b`. -/
def sizeMul (a b : Nat) : Nat := (a * b) % sizeModulus

/-! ## Collaborators -/

/-- A `Sample<T>`: a value and its weight. -/
structure Sample (α R : Type) where
  value : α
  weight : R
  deriving DecidableEq, Repr

/-- Modelled from the spec: `TimeGrid` (its header is not part of the sources).
An ordered sequence of instants providing its count, the instant at an index
and the inter-step duration `dt(i) = t_{i+1} - t_i`. -/
structure TimeGrid (R : Type) where
  times_ : List R
  deriving DecidableEq, Repr

namespace TimeGrid
variable {R : Type}

/-- The member `size()`. -/
def size (g : TimeGrid R) : Nat := g.times_.length

/-- The member `operator[]`. -/
def get (g : TimeGrid R) (i : Nat) : Except Error R := getAt g.times_ i

/-- The member `dt(i)`, defined for `i + 1 < size()`. -/
def dt [Sub R] (g : TimeGrid R) (i : Nat) : Except Error R :=
  match g.times_[i]?, g.times_[i + 1]? with
  | some a, some b => .ok (b - a)
  | _, _ => .error .outOfRange

end TimeGrid

/-- Modelled from the spec: the `GenericStochasticProcess` interface (its header
is not part of the sources): factor count, initial state, the decomposed
primitives `drift`, `stdDeviation`, `apply` and the fused primitive `evolve`.
`stdDeviation` yields a vector of diffusion scaling factors. -/
structure GenericStochasticProcess (R : Type) where
  size : Nat
  initialValues : List R
  drift : R → List R → List R
  stdDeviation : R → List R → R → List R
  apply : List R → List R → List R
  evolve : R → List R → R → List R → List R

/-- The process keeps the vector sizes of its interface: every vector it returns
has `size` components when its vector arguments do. -/
structure GenericStochasticProcess.WellFormed {R : Type} (P : GenericStochasticProcess R) : Prop where
  size_pos : 0 < P.size
  initialValues_length : P.initialValues.length = P.size
  drift_length : ∀ t x, x.length = P.size → (P.drift t x).length = P.size
  stdDeviation_length : ∀ t x dt, x.length = P.size → (P.stdDeviation t x dt).length = P.size
  apply_length : ∀ x c, x.length = P.size → c.length = P.size → (P.apply x c).length = P.size
  evolve_length : ∀ t x dt z, x.length = P.size → z.length = P.size →
    (P.evolve t x dt z).length = P.size

/-- The random sequence source `GSG` as an interface over its internal state `σ`:
`dimension()`, `nextSequence()` (advances the state and returns a fresh draw) and
`lastSequence()` (returns a draw without advancing the state). -/
structure GSG (σ R : Type) where
  dimension : σ → Nat
  nextSequence : σ → σ × Sample (List R) R
  lastSequence : σ → Sample (List R) R

/-- The contract of `lastSequence()`: right after `nextSequence()` it returns the same draw. -/
def GSG.Lawful {σ R : Type} (G : GSG σ R) : Prop :=
  ∀ s, G.lastSequence (G.nextSequence s).1 = (G.nextSequence s).2

/-- Modelled from the spec: `Path` (its header is not part of the sources): one value
per grid instant, and a drift and a diffusion record per time step. -/
structure Path (R : Type) where
  timeGrid_ : TimeGrid R
  values_ : List R
  drift_ : List R
  diffusion_ : List R
  deriving DecidableEq, Repr

namespace Path
variable {R : Type}

/-- Modelled from the spec: the constructor `Path(timeGrid)`: `m` values and `m - 1`
drift and diffusion records.  The source leaves the contents of the fresh arrays
unspecified; they are filled with `0` here. -/
def ofGrid [Zero R] (g : TimeGrid R) : Path R :=
  { timeGrid_ := g
    values_ := List.replicate g.size 0
    drift_ := List.replicate (g.size - 1) 0
    diffusion_ := List.replicate (g.size - 1) 0 }

/-- Modelled from the spec: the member `length()`, the number of grid instants. -/
def length (p : Path R) : Nat := p.values_.length

/-- Modelled from the spec: the member `size()` used as the bound of the decomposed
loop, which runs over the time steps `0 .. m-2`: the number of drift records. -/
def size (p : Path R) : Nat := p.drift_.length

/-- Modelled from the spec: the member `operator[]` read by the decomposed strategy,
the increment of step `i`: drift record plus diffusion record. -/
def increment [Add R] (p : Path R) (i : Nat) : Except Error R :=
  match p.drift_[i]?, p.diffusion_[i]? with
  | some a, some b => .ok (a + b)
  | _, _ => .error .outOfRange

/-- The assignment `drift()[i] = x`. -/
def setDrift (p : Path R) (i : Nat) (x : R) : Except Error (Path R) :=
  match setAt p.drift_ i x with
  | .ok d => .ok { p with drift_ := d }
  | .error e => .error e

/-- The assignment `diffusion()[i] = x`. -/
def setDiffusion (p : Path R) (i : Nat) (x : R) : Except Error (Path R) :=
  match setAt p.diffusion_ i x with
  | .ok d => .ok { p with diffusion_ := d }
  | .error e => .error e

/-- The Path after `drift()[i] = a; diffusion()[i] = b`, both in range. -/
def record (p : Path R) (i : Nat) (a b : R) : Path R :=
  { p with drift_ := p.drift_.set i a, diffusion_ := p.diffusion_.set i b }

/-- The assignment `value(i) = x`. -/
def setValue (p : Path R) (i : Nat) (x : R) : Except Error (Path R) :=
  match setAt p.values_ i x with
  | .ok d => .ok { p with values_ := d }
  | .error e => .error e

end Path

/-- Modelled from the spec: `MultiPath` (its header is not part of the sources):
a collection of Paths sharing one time grid. -/
structure MultiPath (R : Type) where
  multiPath_ : List (Path R)
  deriving DecidableEq, Repr

namespace MultiPath
variable {R : Type}

/-- Modelled from the spec: the constructor `MultiPath(nAsset, timeGrid)`: `nAsset`
copies of `Path(timeGrid)`. -/
def ofGrid [Zero R] (nAsset : Nat) (g : TimeGrid R) : MultiPath R :=
  { multiPath_ := List.replicate nAsset (Path.ofGrid g) }

/-- The member `assetNumber()`. -/
def assetNumber (mp : MultiPath R) : Nat := mp.multiPath_.length

/-- The member `operator[]` (read). -/
def get (mp : MultiPath R) (j : Nat) : Except Error (Path R) := getAt mp.multiPath_ j

/-- Modelled from the spec: the member `pathSize()`, the bound of the fused loop,
which runs over the grid indices `1 .. m-1`: the length of the first Path. -/
def pathSize (mp : MultiPath R) : Except Error Nat :=
  match mp.get 0 with
  | .ok p => .ok p.length
  | .error e => .error e

/-- Apply the in-place update `f` to `operator[](j)`. -/
def modify (mp : MultiPath R) (j : Nat) (f : Path R → Except Error (Path R)) :
    Except Error (MultiPath R) :=
  match mp.multiPath_[j]? with
  | some p =>
    match f p with
    | .ok q => .ok { multiPath_ := mp.multiPath_.set j q }
    | .error e => .error e
  | none => .error .outOfRange

/-- The record `drift()[i]` of Path `j`, when both indices are in range. -/
def driftAt (mp : MultiPath R) (j i : Nat) : Option R :=
  match mp.multiPath_[j]? with
  | some p => p.drift_[i]?
  | none => none

/-- The record `diffusion()[i]` of Path `j`, when both indices are in range. -/
def diffusionAt (mp : MultiPath R) (j i : Nat) : Option R :=
  match mp.multiPath_[j]? with
  | some p => p.diffusion_[i]?
  | none => none

/-- The value `value(i)` of Path `j`, when both indices are in range. -/
def valueAt (mp : MultiPath R) (j i : Nat) : Option R :=
  match mp.multiPath_[j]? with
  | some p => p.values_[i]?
  | none => none

/-- The vector of the values of all Paths at grid index `i`. -/
def column [Zero R] (mp : MultiPath R) (i : Nat) : List R :=
  mp.multiPath_.map (fun p => p.values_.getD i 0)

/-- The vector of the increments of all Paths at step `i`: drift record plus diffusion
record of each Path. -/
def increments [Zero R] [Add R] (mp : MultiPath R) (i : Nat) : List R :=
  mp.multiPath_.map (fun p => p.drift_.getD i 0 + p.diffusion_.getD i 0)

/-- The buffer has the shape given by the constructors: `n` Paths over `grid`, each with
one value per instant and one drift and one diffusion record per step. -/
def Shaped (mp : MultiPath R) (grid : TimeGrid R) (n : Nat) : Prop :=
  mp.multiPath_.length = n ∧
  ∀ p ∈ mp.multiPath_, p.timeGrid_ = grid ∧ p.values_.length = grid.size ∧
    p.drift_.length = grid.size - 1 ∧ p.diffusion_.length = grid.size - 1

end MultiPath

/-! ## Array helpers -/

/-- The range `[begin()+offset, begin()+offset+n)` of a sequence, read by `std::copy`. -/
def slice {R : Type} (xs : List R) (offset n : Nat) : Except Error (List R) :=
  if offset + n ≤ xs.length then .ok ((xs.drop offset).take n) else .error .outOfRange

/-- The unary minus of `Array`, also `std::transform` with `std::negate`. -/
def arrayNeg {R : Type} [Neg R] (xs : List R) : List R := xs.map (fun x => -x)

/-- The component-wise product of two `Array`s. -/
def arrayMul {R : Type} [Mul R] (xs ys : List R) : List R := List.zipWith (fun x y => x * y) xs ys

/-! ## The generator objects -/

/-- The data members shared by `Old::MultiPathGenerator` and `New::MultiPathGenerator`. -/
structure MultiPathGenerator (σ R : Type) where
  brownianBridge_ : Bool
  process_ : GenericStochasticProcess R
  generator_ : σ
  next_ : Sample (MultiPath R) R

/-- The outcome of a member call: the object afterwards, and the returned sample
(a copy of `next_`) or the error raised. -/
structure Call (σ R : Type) where
  self : MultiPathGenerator σ R
  result : Except Error (Sample (MultiPath R) R)

/-- The two `QL_REQUIRE`s shared by the three constructors, in source order;
`nAssets` is the factor count used in the dimension check. -/
def checkDimensions (dimension nAssets timesSize : Nat) : Except Error Unit :=
  if dimension ≠ sizeMul nAssets (sizePred timesSize) then .error .dimensionMismatch
  else if ¬ (timesSize > 1) then .error .noTimesGiven
  else .ok ()

/-! ## `QuantLib::Old`: the decomposed drift/diffusion strategy -/

namespace Old
variable {σ R : Type}

/-- The constructor `Old::MultiPathGenerator(process, times, generator, brownianBridge)`:
the members are initialised, then the two requirements are checked. -/
def construct [Zero R] [One R] (G : GSG σ R) (process : GenericStochasticProcess R)
    (times : TimeGrid R) (generator : σ) (brownianBridge : Bool) :
    Except Error (MultiPathGenerator σ R) :=
  let self : MultiPathGenerator σ R :=
    { brownianBridge_ := brownianBridge
      process_ := process
      generator_ := generator
      next_ := ⟨MultiPath.ofGrid process.size times, 1⟩ }
  match checkDimensions (G.dimension self.generator_) process.size times.size with
  | .ok _ => .ok self
  | .error e => .error e

/-- The constructor `Old::MultiPathGenerator(diffusionProcs, correlation, times, generator,
brownianBridge)`.  `makeArray` is the constructor of `StochasticProcessArray` (not part of
the sources), which may fail; `placeholder` stands for the empty `process_` pointer held
while the requirements are checked. -/
def constructFromList {P1 : Type} [Zero R] [One R] (G : GSG σ R)
    (makeArray : List P1 → List (List R) → Except Error (GenericStochasticProcess R))
    (placeholder : GenericStochasticProcess R)
    (diffusionProcs : List P1) (correlation : List (List R))
    (times : TimeGrid R) (generator : σ) (brownianBridge : Bool) :
    Except Error (MultiPathGenerator σ R) :=
  let self : MultiPathGenerator σ R :=
    { brownianBridge_ := brownianBridge
      process_ := placeholder
      generator_ := generator
      next_ := ⟨MultiPath.ofGrid correlation.length times, 1⟩ }
  match checkDimensions (G.dimension self.generator_) diffusionProcs.length times.size with
  | .ok _ =>
    match makeArray diffusionProcs correlation with
    | .ok process => .ok { self with process_ := process }
    | .error e => .error e
  | .error e => .error e

/-- The body of the loop over the factors `j` at time step `i`: record the drift and the
diffusion of Path `j`, and read its increment into `change[j]`. -/
def factorBody [Add R] [Mul R] (i : Nat) (dt : R) (drift diffusion : List R) (j : Nat)
    (st : MultiPath R × List R) : Except Error (MultiPath R × List R) := do
  let dj ← getAt drift j
  let mp1 ← st.1.modify j (fun p => p.setDrift i (dt * dj))
  let fj ← getAt diffusion j
  let mp2 ← mp1.modify j (fun p => p.setDiffusion i fj)
  let pj ← mp2.get j
  let c ← pj.increment i
  let change ← setAt st.2 j c
  pure (mp2, change)

/-- The body of the loop over the time steps `i`; the loop state is `(asset, next_.value)`. -/
def stepBody [Zero R] [Add R] [Sub R] [Mul R] [Neg R] (P : GenericStochasticProcess R)
    (timeGrid : TimeGrid R) (sequence : List R) (antithetic : Bool) (i : Nat)
    (st : List R × MultiPath R) : Except Error (List R × MultiPath R) := do
  let n := P.size
  let offset := i * n
  let t ← timeGrid.get i
  let dt ← timeGrid.dt i
  let temp ← slice sequence offset n
  let drift := P.drift t st.1
  let diffusion :=
    if antithetic then arrayMul (P.stdDeviation t st.1 dt) (arrayNeg temp)
    else arrayMul (P.stdDeviation t st.1 dt) temp
  let r ← forLoop (factorBody i dt drift diffusion) n 0 (st.2, List.replicate n 0)
  pure (P.apply st.1 r.2, r.1)

/-- The `else` branch of `next(bool)` once the draw `sequence_` is at hand: the new
contents of `next_`.  The loop bound `next_.value[0].size()` does not change during
the loop and is read once. -/
def generate [Zero R] [Add R] [Sub R] [Mul R] [Neg R] (P : GenericStochasticProcess R)
    (buffer : MultiPath R) (sequence_ : Sample (List R) R) (antithetic : Bool) :
    Except Error (Sample (MultiPath R) R) := do
  let asset := P.initialValues
  let p0 ← buffer.get 0
  let timeGrid := p0.timeGrid_
  let r ← forLoop (stepBody P timeGrid sequence_.value antithetic) p0.size 0 (asset, buffer)
  pure ⟨r.2, sequence_.weight⟩

/-- The private member `next(bool antithetic)`.  When an out-of-range access is reported
the buffer of the returned object is the one before the call. -/
def nextWith [Zero R] [Add R] [Sub R] [Mul R] [Neg R] (G : GSG σ R)
    (g : MultiPathGenerator σ R) (antithetic : Bool) : Call σ R :=
  if g.brownianBridge_ then
    ⟨g, .error .brownianBridgeNotSupported⟩
  else
    let drawn : σ × Sample (List R) R :=
      if antithetic then (g.generator_, G.lastSequence g.generator_)
      else G.nextSequence g.generator_
    match generate g.process_ g.next_.value drawn.2 antithetic with
    | .ok s => ⟨{ g with generator_ := drawn.1, next_ := s }, .ok s⟩
    | .error e => ⟨{ g with generator_ := drawn.1 }, .error e⟩

/-- The member `next()`. -/
def next [Zero R] [Add R] [Sub R] [Mul R] [Neg R] (G : GSG σ R)
    (g : MultiPathGenerator σ R) : Call σ R := nextWith G g false

/-- The member `antithetic()`. -/
def antithetic [Zero R] [Add R] [Sub R] [Mul R] [Neg R] (G : GSG σ R)
    (g : MultiPathGenerator σ R) : Call σ R := nextWith G g true

/-- The object after a sequence of calls, `false` standing for `next()` and `true` for
`antithetic()`. -/
def run [Zero R] [Add R] [Sub R] [Mul R] [Neg R] (G : GSG σ R) :
    List Bool → MultiPathGenerator σ R → MultiPathGenerator σ R
  | [], g => g
  | a :: calls, g => run G calls (nextWith G g a).self

end Old

/-! ## `QuantLib::New`: the fused `evolve` strategy -/

namespace New
variable {σ R : Type}

/-- The constructor `New::MultiPathGenerator(process, times, generator, brownianBridge)`. -/
def construct [Zero R] [One R] (G : GSG σ R) (process : GenericStochasticProcess R)
    (times : TimeGrid R) (generator : σ) (brownianBridge : Bool) :
    Except Error (MultiPathGenerator σ R) :=
  let self : MultiPathGenerator σ R :=
    { brownianBridge_ := brownianBridge
      process_ := process
      generator_ := generator
      next_ := ⟨MultiPath.ofGrid process.size times, 1⟩ }
  match checkDimensions (G.dimension self.generator_) process.size times.size with
  | .ok _ => .ok self
  | .error e => .error e

/-- The body of `for (j...) path[j].value(i) = asset[j]`. -/
def writeBody (i : Nat) (asset : List R) (j : Nat) (path : MultiPath R) :
    Except Error (MultiPath R) := do
  let a ← getAt asset j
  path.modify j (fun p => p.setValue i a)

/-- The body of the loop over the grid indices `i = 1 ..`; the loop state is `(asset, path)`. -/
def stepBody [Sub R] [Neg R] (P : GenericStochasticProcess R)
    (timeGrid : TimeGrid R) (sequence : List R) (antithetic : Bool) (i : Nat)
    (st : List R × MultiPath R) : Except Error (List R × MultiPath R) := do
  let n := P.size
  let offset := (i - 1) * n
  let t ← timeGrid.get (i - 1)
  let dt ← timeGrid.dt (i - 1)
  let src ← slice sequence offset n
  let temp := if antithetic then arrayNeg src else src
  let asset := P.evolve t st.1 dt temp
  let path ← forLoop (writeBody i asset) n 0 st.2
  pure (asset, path)

/-- The `else` branch of `next(bool)` once the draw `sequence_` is at hand: the new
contents of `next_`.  The loop bound `path.pathSize()` does not change during the loop
and is read once. -/
def generate [Sub R] [Neg R] (P : GenericStochasticProcess R)
    (buffer : MultiPath R) (sequence_ : Sample (List R) R) (antithetic : Bool) :
    Except Error (Sample (MultiPath R) R) := do
  let n := P.size
  let asset := P.initialValues
  let path ← forLoop (writeBody 0 asset) n 0 buffer
  let p0 ← path.get 0
  let timeGrid := p0.timeGrid_
  let pathSize ← path.pathSize
  let r ← forLoop (stepBody P timeGrid sequence_.value antithetic) (pathSize - 1) 1 (asset, path)
  pure ⟨r.2, sequence_.weight⟩

/-- The private member `next(bool antithetic)`.  When an out-of-range access is reported
the buffer of the returned object is the one before the call. -/
def nextWith [Sub R] [Neg R] (G : GSG σ R)
    (g : MultiPathGenerator σ R) (antithetic : Bool) : Call σ R :=
  if g.brownianBridge_ then
    ⟨g, .error .brownianBridgeNotSupported⟩
  else
    let drawn : σ × Sample (List R) R :=
      if antithetic then (g.generator_, G.lastSequence g.generator_)
      else G.nextSequence g.generator_
    match generate g.process_ g.next_.value drawn.2 antithetic with
    | .ok s => ⟨{ g with generator_ := drawn.1, next_ := s }, .ok s⟩
    | .error e => ⟨{ g with generator_ := drawn.1 }, .error e⟩

/-- The member `next()`. -/
def next [Sub R] [Neg R] (G : GSG σ R) (g : MultiPathGenerator σ R) : Call σ R :=
  nextWith G g false

/-- The member `antithetic()`. -/
def antithetic [Sub R] [Neg R] (G : GSG σ R) (g : MultiPathGenerator σ R) : Call σ R :=
  nextWith G g true

/-- The object after a sequence of calls, `false` standing for `next()` and `true` for
`antithetic()`. -/
def run [Sub R] [Neg R] (G : GSG σ R) :
    List Bool → MultiPathGenerator σ R → MultiPathGenerator σ R
  | [], g => g
  | a :: calls, g => run G calls (nextWith G g a).self

end New

/-- The `i`-th factor-sized slice of a draw, sign-negated for the antithetic path. -/
def signedSlice {R : Type} [Neg R] (antithetic : Bool) (z : List R) (i n : Nat) : List R :=
  if antithetic then arrayNeg ((z.drop (i * n)).take n) else (z.drop (i * n)).take n

/-- The state sequence of the decomposed strategy read off the records of a MultiPath:
`s_0 = initialValues()` and `s_{i+1} = apply(s_i, c_i)` with `c_i[j]` the sum of the
drift record and the diffusion record of Path `j` at step `i`. -/
def Old.recordedState {R : Type} [Zero R] [Add R] (P : GenericStochasticProcess R)
    (mp : MultiPath R) : Nat → List R
  | 0 => P.initialValues
  | i + 1 => P.apply (Old.recordedState P mp i) (mp.increments i)

/-- Every call of the sequence returns a sample. -/
def Old.Succeeds {σ R : Type} [Zero R] [Add R] [Sub R] [Mul R] [Neg R] (G : GSG σ R) :
    List Bool → MultiPathGenerator σ R → Prop
  | [], _ => True
  | a :: calls, g =>
    (Old.nextWith G g a).result.isOk = true ∧ Old.Succeeds G calls (Old.nextWith G g a).self

/-- Every call of the sequence returns a sample. -/
def New.Succeeds {σ R : Type} [Sub R] [Neg R] (G : GSG σ R) :
    List Bool → MultiPathGenerator σ R → Prop
  | [], _ => True
  | a :: calls, g =>
    (New.nextWith G g a).result.isOk = true ∧ New.Succeeds G calls (New.nextWith G g a).self

/-- What the decomposed strategy never changes in a Path: its grid, its values and the
sizes of its record arrays. -/
def Old.frameKey {R : Type} (p : Path R) : TimeGrid R × List R × Nat × Nat :=
  (p.timeGrid_, p.values_, p.drift_.length, p.diffusion_.length)

/-- What the fused strategy never changes in a Path: its grid, the number of its values
and its record arrays. -/
def New.frameKey {R : Type} (p : Path R) : TimeGrid R × Nat × List R × List R :=
  (p.timeGrid_, p.values_.length, p.drift_, p.diffusion_)

/-- The state of a generator built for the process `P` over `grid` with the
Brownian-bridge flag off: the members set by the constructor, and a buffer of the shape
the constructor allocates. -/
structure MultiPathGenerator.Valid {σ R : Type} (g : MultiPathGenerator σ R)
    (P : GenericStochasticProcess R) (grid : TimeGrid R) : Prop where
  flag : g.brownianBridge_ = false
  process : g.process_ = P
  shaped : g.next_.value.Shaped grid P.size

/-- The values of a MultiPath below grid index `i` follow the fused recursion on the
draw `z`: index `0` holds the initial state, and the vector of values at every index
`k` in `1 .. i-1` is `evolve(t_{k-1}, values at k-1, dt_{k-1}, slice_{k-1})`, the slice
being sign-negated for the antithetic path. -/
def New.Evolved {R : Type} [Zero R] [Sub R] [Neg R] (P : GenericStochasticProcess R)
    (grid : TimeGrid R) (z : List R) (a : Bool) (mp : MultiPath R) (i : Nat) : Prop :=
  mp.column 0 = P.initialValues ∧
  ∀ k, 1 ≤ k → k < i → ∃ t dt, grid.get (k - 1) = .ok t ∧ grid.dt (k - 1) = .ok dt ∧
    mp.column k = P.evolve t (mp.column (k - 1)) dt (signedSlice a z (k - 1) P.size)

/-- The records of a MultiPath below step `i` follow the decomposed recursion on the draw
`z`: at every step `k < i` and for every factor `j`, the drift record of Path `j` is
`dt_k * drift(t_k, s_k)[j]` and its diffusion record is
`(stdDeviation(t_k, s_k, dt_k) * slice_k)[j]`, where `s_k` is the state read off the
records and the slice is sign-negated for the antithetic path. -/
def Old.Recorded {R : Type} [Zero R] [Add R] [Sub R] [Mul R] [Neg R]
    (P : GenericStochasticProcess R) (grid : TimeGrid R) (z : List R) (a : Bool)
    (mp : MultiPath R) (i : Nat) : Prop :=
  ∀ k, k < i → ∃ t dt, grid.get k = .ok t ∧ grid.dt k = .ok dt ∧
    ∀ j, j < P.size → ∃ d f,
      (P.drift t (Old.recordedState P mp k))[j]? = some d ∧
      (arrayMul (P.stdDeviation t (Old.recordedState P mp k) dt)
        (signedSlice a z k P.size))[j]? = some f ∧
      mp.driftAt j k = some (dt * d) ∧ mp.diffusionAt j k = some f

/-- The computation raises no error other than an out-of-range access. -/
def FailsOnlyOutOfRange {α : Type} (x : Except Error α) : Prop :=
  ∀ e : Error, x = Except.error e → e = Error.outOfRange

/-- The state of the source after `k` calls of `nextSequence()`. -/
def GSG.stateAfter {σ R : Type} (G : GSG σ R) : Nat → σ → σ
  | 0, s => s
  | k + 1, s => GSG.stateAfter G k (G.nextSequence s).1

/-- The draw delivered by the call of `nextSequence()` that follows `k` earlier ones. -/
def GSG.drawAt {σ R : Type} (G : GSG σ R) (s : σ) (k : Nat) : Sample (List R) R :=
  (G.nextSequence (G.stateAfter k s)).2

/-- A member call made on the random sequence source. -/
inductive SourceCall where
  | nextSequence
  | lastSequence
  deriving DecidableEq, Repr

/-- The member `Old::next(bool)` paired with the member calls it makes on the source, in
order.  The only place where the source is touched is the conditional expression that
binds `sequence_`; `generate` has no access to the source. -/
def Old.nextWithTraced {σ R : Type} [Zero R] [Add R] [Sub R] [Mul R] [Neg R] (G : GSG σ R)
    (g : MultiPathGenerator σ R) (antithetic : Bool) : Call σ R × List SourceCall :=
  if g.brownianBridge_ then
    (⟨g, .error .brownianBridgeNotSupported⟩, [])
  else
    let drawn : (σ × Sample (List R) R) × List SourceCall :=
      if antithetic then
        ((g.generator_, G.lastSequence g.generator_), [SourceCall.lastSequence])
      else (G.nextSequence g.generator_, [SourceCall.nextSequence])
    match Old.generate g.process_ g.next_.value drawn.1.2 antithetic with
    | .ok s => (⟨{ g with generator_ := drawn.1.1, next_ := s }, .ok s⟩, drawn.2)
    | .error e => (⟨{ g with generator_ := drawn.1.1 }, .error e⟩, drawn.2)

/-- The member `New::next(bool)` paired with the member calls it makes on the source, in
order.  The only place where the source is touched is the conditional expression that
binds `sequence_`; `generate` has no access to the source. -/
def New.nextWithTraced {σ R : Type} [Sub R] [Neg R] (G : GSG σ R)
    (g : MultiPathGenerator σ R) (antithetic : Bool) : Call σ R × List SourceCall :=
  if g.brownianBridge_ then
    (⟨g, .error .brownianBridgeNotSupported⟩, [])
  else
    let drawn : (σ × Sample (List R) R) × List SourceCall :=
      if antithetic then
        ((g.generator_, G.lastSequence g.generator_), [SourceCall.lastSequence])
      else (G.nextSequence g.generator_, [SourceCall.nextSequence])
    match New.generate g.process_ g.next_.value drawn.1.2 antithetic with
    | .ok s => (⟨{ g with generator_ := drawn.1.1, next_ := s }, .ok s⟩, drawn.2)
    | .error e => (⟨{ g with generator_ := drawn.1.1 }, .error e⟩, drawn.2)

/-- The indices at which `forLoop` runs its body, in order. -/
def forLoopVisited {σ : Type} (body : Nat → σ → Except Error σ) : Nat → Nat → σ → List Nat
  | 0, _, _ => []
  | k + 1, i, s =>
    i :: (match body i s with
      | .ok s1 => forLoopVisited body k (i + 1) s1
      | .error _ => [])

/-- The time steps `i` at which the loop of `Old::next(bool)` runs its body. -/
def Old.visitedSteps {R : Type} [Zero R] [Add R] [Sub R] [Mul R] [Neg R]
    (P : GenericStochasticProcess R) (buffer : MultiPath R) (z : List R) (antithetic : Bool) :
    List Nat :=
  match buffer.get 0 with
  | .ok p0 =>
    forLoopVisited (Old.stepBody P p0.timeGrid_ z antithetic) p0.size 0
      (P.initialValues, buffer)
  | .error _ => []

/-- The grid indices `i` at which the loop of `New::next(bool)` runs its body. -/
def New.visitedSteps {R : Type} [Sub R] [Neg R]
    (P : GenericStochasticProcess R) (buffer : MultiPath R) (z : List R) (antithetic : Bool) :
    List Nat :=
  match forLoop (New.writeBody 0 P.initialValues) P.size 0 buffer with
  | .ok path =>
    match path.get 0, path.pathSize with
    | .ok p0, .ok pathSize =>
      forLoopVisited (New.stepBody P p0.timeGrid_ z antithetic) (pathSize - 1) 1
        (P.initialValues, path)
    | _, _ => []
  | .error _ => []

/-- The draw `sequence_` bound by `next(bool antithetic)`: the last draw of the source for
the antithetic path, a fresh one otherwise. -/
def GSG.drawFor {σ R : Type} (G : GSG σ R) (s : σ) (antithetic : Bool) : Sample (List R) R :=
  if antithetic then G.lastSequence s else (G.nextSequence s).2

/-- The process is Euler-consistent: its fused transition is its decomposed one,
`evolve(t, x, dt, z) = apply(x, drift(t, x) * dt + stdDeviation(t, x, dt) * z)`. -/
def GenericStochasticProcess.EulerConsistent {R : Type} [Add R] [Mul R]
    (P : GenericStochasticProcess R) : Prop :=
  ∀ t x dt z, P.evolve t x dt z =
    P.apply x (List.zipWith (fun u v => u + v) ((P.drift t x).map (fun d => d * dt))
      (arrayMul (P.stdDeviation t x dt) z))

/-! ## The composite process of the list-based constructor -/

namespace Pricers

/-- The members of `SingleAssetOption` declared `mutable`, the only ones a `const` member
function such as `value()` can change, together with the state `derived` that a concrete
pricer adds to the class. -/
structure MutableMembers (D R : Type) where
  hasBeenCalculated_ : Bool
  rho_ : R
  dividendRho_ : R
  vega_ : R
  rhoComputed_ : Bool
  dividendRhoComputed_ : Bool
  vegaComputed_ : Bool
  derived : D

/-- The data members of the class `SingleAssetOption`, in the order of the header; `T` is
`Option::Type` and `D` the state added by the concrete pricer. -/
structure SingleAssetOption (T D R : Type) where
  type_ : T
  underlying_ : R
  strike_ : R
  dividendYield_ : R
  residualTime_ : R
  hasBeenCalculated_ : Bool
  rho_ : R
  dividendRho_ : R
  vega_ : R
  rhoComputed_ : Bool
  dividendRhoComputed_ : Bool
  vegaComputed_ : Bool
  volatility_ : R
  riskFreeRate_ : R
  derived : D

/-- The option after a `const` member function has left `c` in its mutable members. -/
def SingleAssetOption.setMutable {T D R : Type} (o : SingleAssetOption T D R)
    (c : MutableMembers D R) : SingleAssetOption T D R :=
  { o with
    hasBeenCalculated_ := c.hasBeenCalculated_
    rho_ := c.rho_
    dividendRho_ := c.dividendRho_
    vega_ := c.vega_
    rhoComputed_ := c.rhoComputed_
    dividendRhoComputed_ := c.dividendRhoComputed_
    vegaComputed_ := c.vegaComputed_
    derived := c.derived }

/-- Modelled from the spec: `SingleAssetOption::setVolatility(newVolatility)`, declared in
the header, its body not being part of the sources: it "mutates a shared option model's
volatility parameter", that is, assigns `volatility_`. -/
def SingleAssetOption.setVolatility {T D R : Type} (o : SingleAssetOption T D R)
    (newVolatility : R) : SingleAssetOption T D R :=
  { o with volatility_ := newVolatility }

/-- The pure virtual `value() const` of a concrete pricer: from the option it yields the
mutable members it leaves behind and either the value or the error it raises. -/
abbrev ValueFunction (T D R : Type) : Type :=
  SingleAssetOption T D R → MutableMembers D R × Except Error R

/-- The class `SingleAssetOption::VolatilityFunction`; `bsm` stands for the option shared
through the handle. -/
structure VolatilityFunction (T D R : Type) where
  bsm : SingleAssetOption T D R
  targetPrice_ : R

/-- The object after a call of `operator()` together with what the call returned. -/
structure VolatilityFunction.Call (T D R : Type) where
  self : VolatilityFunction T D R
  result : Except Error R

/-- The constructor `VolatilityFunction(tempBSM, targetPrice)`. -/
def VolatilityFunction.construct {T D R : Type} (tempBSM : SingleAssetOption T D R)
    (targetPrice : R) : VolatilityFunction T D R :=
  { bsm := tempBSM
    targetPrice_ := targetPrice }

/-- The member `operator()(x)`: `bsm->setVolatility(x)`, then
`bsm->value() - targetPrice_`. -/
def VolatilityFunction.call {T D R : Type} [Sub R] (value : ValueFunction T D R)
    (f : VolatilityFunction T D R) (x : R) : VolatilityFunction.Call T D R :=
  let bsm := f.bsm.setVolatility x
  let evaluated := value bsm
  { self := { f with bsm := bsm.setMutable evaluated.1 }
    result := evaluated.2.map (fun v => v - f.targetPrice_) }

end Pricers

/-! ## The content of the freshly allocated buffer -/

/-- The constructor `Old::MultiPathGenerator(process, times, generator, brownianBridge)`
with the constructor `MultiPath(nAsset, timeGrid)`, which is not part of the sources,
taken as the parameter `alloc`; `Old.construct` is the case of `MultiPath.ofGrid`, which
fills the fresh arrays with `0`. -/
def Old.constructWith {σ R : Type} [One R] (alloc : Nat → TimeGrid R → MultiPath R)
    (G : GSG σ R) (process : GenericStochasticProcess R)
    (times : TimeGrid R) (generator : σ) (brownianBridge : Bool) :
    Except Error (MultiPathGenerator σ R) :=
  let self : MultiPathGenerator σ R :=
    { brownianBridge_ := brownianBridge
      process_ := process
      generator_ := generator
      next_ := ⟨alloc process.size times, 1⟩ }
  match checkDimensions (G.dimension self.generator_) process.size times.size with
  | .ok _ => .ok self
  | .error e => .error e

/-- The constructor `New::MultiPathGenerator(process, times, generator, brownianBridge)`
with the constructor `MultiPath(nAsset, timeGrid)` taken as the parameter `alloc`;
`New.construct` is the case of `MultiPath.ofGrid`. -/
def New.constructWith {σ R : Type} [One R] (alloc : Nat → TimeGrid R → MultiPath R)
    (G : GSG σ R) (process : GenericStochasticProcess R)
    (times : TimeGrid R) (generator : σ) (brownianBridge : Bool) :
    Except Error (MultiPathGenerator σ R) :=
  let self : MultiPathGenerator σ R :=
    { brownianBridge_ := brownianBridge
      process_ := process
      generator_ := generator
      next_ := ⟨alloc process.size times, 1⟩ }
  match checkDimensions (G.dimension self.generator_) process.size times.size with
  | .ok _ => .ok self
  | .error e => .error e

/-! ## Concrete collaborators used to exercise the definitions -/

namespace Example

/-- A source replaying a fixed list of draws in a cycle; its state is the number of
draws delivered so far.  `lastSequence()` re-reads the latest one. -/
def replay {R : Type} [One R] (dim : Nat) (draws : List (Sample (List R) R)) : GSG Nat R :=
  { dimension := fun _ => dim
    nextSequence := fun k => (k + 1, draws.getD (k % draws.length) ⟨[], 1⟩)
    lastSequence := fun k => draws.getD ((k - 1) % draws.length) ⟨[], 1⟩ }

/-- A process with `n` factors started at `1`, whose drift and diffusion scale are the
current state itself and whose `apply` is additive; `evolve` is its Euler step. -/
def linear (n : Nat) : GenericStochasticProcess Int :=
  { size := n
    initialValues := List.replicate n 1
    drift := fun _ x => x
    stdDeviation := fun _ x _ => x
    apply := fun x c => List.zipWith (fun a b => a + b) x c
    evolve := fun _ x dt z =>
      List.zipWith (fun a b => a + b) x
        (List.zipWith (fun a b => a + b) (x.map (fun a => a * dt)) (arrayMul x z)) }

/-- A one-factor process started at `x0` with zero drift, the diffusion scale `c(dt)`
and additive `apply`; `evolve` is its Euler step. -/
def scaled {R : Type} [Zero R] [Add R] [Mul R] (c : R → R) (x0 : R) :
    GenericStochasticProcess R :=
  { size := 1
    initialValues := [x0]
    drift := fun _ _ => [0]
    stdDeviation := fun _ _ dt => [c dt]
    apply := fun x d => List.zipWith (fun a b => a + b) x d
    evolve := fun _ x dt z => List.zipWith (fun a b => a + b) x (arrayMul [c dt] z) }

/-- The grid `0, 1/2, 1`. -/
def gridHalf : TimeGrid Rat := ⟨[0, 1 / 2, 1]⟩

/-- A source emitting the fixed draw `[1, -1]` with weight `1`. -/
def sourceHalf : GSG Nat Rat := replay 2 [⟨[1, -1], 1⟩]

/-- The generator built for `scaled c x0` over `gridHalf` with the flag off. -/
def generatorHalf (c : Rat → Rat) (x0 : Rat) : MultiPathGenerator Nat Rat :=
  ⟨false, scaled c x0, 0, ⟨MultiPath.ofGrid 1 gridHalf, 1⟩⟩

/-- The grid `0, 1, 2`. -/
def grid3 : TimeGrid Int := ⟨[0, 1, 2]⟩

/-- A source of dimension 2 replaying two draws. -/
def source2 : GSG Nat Int := replay 2 [⟨[1, 1], 5⟩, ⟨[2, 0], 7⟩]

/-- The generator built for `linear 1` over `grid3` with the flag off. -/
def generator2 : MultiPathGenerator Nat Int :=
  ⟨false, linear 1, 0, ⟨MultiPath.ofGrid 1 grid3, 1⟩⟩

/-- The sample returned by `next()` on `generator2` with `source2`. -/
def sampleNext : Sample (MultiPath Int) Int :=
  ⟨⟨[⟨grid3, [0, 0, 0], [1, 3], [1, 3]⟩]⟩, 5⟩

/-- The sample returned by `antithetic()` right after that `next()`. -/
def sample2 : Sample (MultiPath Int) Int :=
  ⟨⟨[⟨grid3, [0, 0, 0], [1, 1], [-1, -1]⟩]⟩, 5⟩

/-- The generator `generator2` after its first `next()` with `source2`. -/
def generator2After : MultiPathGenerator Nat Int :=
  ⟨false, linear 1, 1, sampleNext⟩

/-- A source of dimension 4 replaying two draws. -/
def source4 : GSG Nat Int := replay 4 [⟨[1, 1, 2, 3], 5⟩, ⟨[0, 1, 0, 2], 7⟩]

/-- The generator built for `linear 2` over `grid3` with the flag off. -/
def generator4 : MultiPathGenerator Nat Int :=
  ⟨false, linear 2, 0, ⟨MultiPath.ofGrid 2 grid3, 1⟩⟩

/-- The generator built for `linear 1` over `grid3` with the flag off from `source2` in
its state `2`, where the cycle of draws starts again. -/
def generator2Shifted : MultiPathGenerator Nat Int :=
  ⟨false, linear 1, 2, ⟨MultiPath.ofGrid 1 grid3, 1⟩⟩

/-- The generator built for `linear 1` over `grid3` with the Brownian-bridge flag set. -/
def generatorBridge : MultiPathGenerator Nat Int :=
  ⟨true, linear 1, 0, ⟨MultiPath.ofGrid 1 grid3, 1⟩⟩

/-- A pricer whose value is `underlying * volatility - strike` and which records that it
has been calculated. -/
def optionValue : Pricers.ValueFunction Unit Unit Int := fun o =>
  (⟨true, o.rho_, o.dividendRho_, o.vega_, o.rhoComputed_, o.dividendRhoComputed_,
    o.vegaComputed_, o.derived⟩, .ok (o.underlying_ * o.volatility_ - o.strike_))

/-- An option on an underlying of `10` struck at `4`, with volatility `2`. -/
def option10 : Pricers.SingleAssetOption Unit Unit Int :=
  { type_ := ()
    underlying_ := 10
    strike_ := 4
    dividendYield_ := 0
    residualTime_ := 1
    hasBeenCalculated_ := false
    rho_ := 0
    dividendRho_ := 0
    vega_ := 0
    rhoComputed_ := false
    dividendRhoComputed_ := false
    vegaComputed_ := false
    volatility_ := 2
    riskFreeRate_ := 0
    derived := () }

end Example

end QuantLib

/-! # Verification -/

namespace QuantLib

/-! ## Checked access and loops -/

theorem getAt_of_getElem? {α : Type} {xs : List α} {i : Nat} {x : α} (h : xs[i]? = some x) :
    getAt xs i = .ok x := by
  simp [getAt, h]

theorem getAt_ok_iff {α : Type} {xs : List α} {i : Nat} {x : α} :
    getAt xs i = .ok x ↔ xs[i]? = some x := by
  unfold getAt
  cases h : xs[i]? <;> simp

theorem setAt_of_lt {α : Type} {xs : List α} {i : Nat} (x : α) (h : i < xs.length) :
    setAt xs i x = .ok (xs.set i x) := by
  simp [setAt, h]

theorem setAt_ok_iff {α : Type} {xs ys : List α} {i : Nat} {x : α} :
    setAt xs i x = .ok ys ↔ i < xs.length ∧ ys = xs.set i x := by
  unfold setAt
  by_cases h : i < xs.length <;> simp [h, eq_comm]

/-- A loop whose body keeps an indexed invariant, and succeeds under it, succeeds
and ends in the invariant. -/
theorem forLoop_ok {σ : Type} (body : Nat → σ → Except Error σ) (Inv : Nat → σ → Prop) :
    ∀ (k i : Nat) (s : σ), Inv i s →
      (∀ j s, i ≤ j → j < i + k → Inv j s → ∃ s1, body j s = .ok s1 ∧ Inv (j + 1) s1) →
      ∃ s1, forLoop body k i s = .ok s1 ∧ Inv (i + k) s1 := by
  intro k
  induction k with
  | zero => intro i s h _; exact ⟨s, rfl, by simpa using h⟩
  | succ k ih =>
    intro i s h hstep
    obtain ⟨s1, hb, h1⟩ := hstep i s (Nat.le_refl i) (by omega) h
    obtain ⟨s2, hl, h2⟩ := ih (i + 1) s1 h1 (fun j t hj hlt => hstep j t (by omega) (by omega))
    refine ⟨s2, ?_, ?_⟩
    · simp [forLoop, hb, hl]
    · have e : i + (k + 1) = i + 1 + k := by omega
      rw [e]; exact h2

/-- A property kept by every successful run of the body is kept by a successful loop. -/
theorem forLoop_preserves {σ : Type} (body : Nat → σ → Except Error σ) (Inv : σ → Prop)
    (hstep : ∀ j s s1, Inv s → body j s = .ok s1 → Inv s1) :
    ∀ (k i : Nat) (s s1 : σ), Inv s → forLoop body k i s = .ok s1 → Inv s1 := by
  intro k
  induction k with
  | zero =>
    intro i s s1 h hl
    simp only [forLoop, Except.ok.injEq] at hl
    exact hl ▸ h
  | succ k ih =>
    intro i s s1 h hl
    simp only [forLoop] at hl
    cases hb : body i s with
    | error e => simp [hb] at hl
    | ok s2 =>
      simp only [hb] at hl
      exact ih (i + 1) s2 s1 (hstep i s s2 h hb) hl

/-- A failing loop fails with an error of its body. -/
theorem forLoop_error {σ : Type} (body : Nat → σ → Except Error σ) :
    ∀ (k i : Nat) (s : σ) (e : Error), forLoop body k i s = .error e →
      ∃ j t, body j t = .error e := by
  intro k
  induction k with
  | zero => intro i s e h; simp [forLoop] at h
  | succ k ih =>
    intro i s e h
    simp only [forLoop] at h
    cases hb : body i s with
    | error e1 =>
      simp only [hb, Except.error.injEq] at h
      exact ⟨i, s, h ▸ hb⟩
    | ok s2 =>
      simp only [hb] at h
      exact ih (i + 1) s2 e h

/-! ## `Size` arithmetic without wrap-around -/

theorem sizeMul_sizePred (n m : Nat) (hm : 1 ≤ m) (h : n * (m - 1) < sizeModulus) :
    sizeMul n (sizePred m) = n * (m - 1) := by
  unfold sizeMul sizePred
  have e : m + (sizeModulus - 1) = (m - 1) + sizeModulus := by
    have : 0 < sizeModulus := by unfold sizeModulus; positivity
    omega
  rw [e, Nat.mul_mod, Nat.add_mod_right, Nat.mod_mod, ← Nat.mul_mod]
  exact Nat.mod_eq_of_lt h

/-! ## Construction -/

theorem checkDimensions_ok_iff (d n m : Nat) :
    checkDimensions d n m = .ok () ↔ 2 ≤ m ∧ d = sizeMul n (sizePred m) := by
  unfold checkDimensions
  by_cases h1 : d = sizeMul n (sizePred m) <;> by_cases h2 : m > 1 <;> simp [h1, h2] <;> omega

theorem checkDimensions_error (d n m : Nat) (e : Error)
    (h : checkDimensions d n m = .error e) : e.isConfiguration = true := by
  unfold checkDimensions at h
  by_cases h1 : d = sizeMul n (sizePred m) <;> by_cases h2 : m > 1 <;>
    simp [h1, h2] at h <;> subst h <;> rfl

theorem checkDimensions_cases (d n m : Nat) :
    (checkDimensions d n m = .ok () ∧ 2 ≤ m ∧ d = sizeMul n (sizePred m)) ∨
    (∃ e, checkDimensions d n m = .error e ∧ e.isConfiguration = true ∧
      ¬ (2 ≤ m ∧ d = sizeMul n (sizePred m))) := by
  cases h : checkDimensions d n m with
  | ok u =>
    left
    exact ⟨rfl, (checkDimensions_ok_iff d n m).1 h⟩
  | error e =>
    right
    refine ⟨e, rfl, checkDimensions_error d n m e h, ?_⟩
    intro hc
    rw [(checkDimensions_ok_iff d n m).2 hc] at h
    cases h

theorem Old.decomposed_construct_of_check {σ R : Type} [Zero R] [One R] (G : GSG σ R)
    (process : GenericStochasticProcess R) (times : TimeGrid R) (generator : σ) (bb : Bool)
    (h : checkDimensions (G.dimension generator) process.size times.size = .ok ()) :
    Old.construct G process times generator bb =
      .ok ⟨bb, process, generator, ⟨MultiPath.ofGrid process.size times, 1⟩⟩ := by
  simp only [Old.construct, h]

theorem New.fused_construct_of_check {σ R : Type} [Zero R] [One R] (G : GSG σ R)
    (process : GenericStochasticProcess R) (times : TimeGrid R) (generator : σ) (bb : Bool)
    (h : checkDimensions (G.dimension generator) process.size times.size = .ok ()) :
    New.construct G process times generator bb =
      .ok ⟨bb, process, generator, ⟨MultiPath.ofGrid process.size times, 1⟩⟩ := by
  simp only [New.construct, h]

theorem Old.decomposed_construct_ok {σ R : Type} [Zero R] [One R] (G : GSG σ R)
    (process : GenericStochasticProcess R) (times : TimeGrid R) (generator : σ) (bb : Bool)
    (g : MultiPathGenerator σ R) (h : Old.construct G process times generator bb = .ok g) :
    (2 ≤ times.size ∧ G.dimension generator = sizeMul process.size (sizePred times.size)) ∧
    g = ⟨bb, process, generator, ⟨MultiPath.ofGrid process.size times, 1⟩⟩ := by
  rcases checkDimensions_cases (G.dimension generator) process.size times.size with
    ⟨hc, hv⟩ | ⟨e, hc, _, _⟩
  · rw [Old.decomposed_construct_of_check G process times generator bb hc] at h
    cases h
    exact ⟨hv, rfl⟩
  · simp [Old.construct, hc] at h

theorem New.fused_construct_ok {σ R : Type} [Zero R] [One R] (G : GSG σ R)
    (process : GenericStochasticProcess R) (times : TimeGrid R) (generator : σ) (bb : Bool)
    (g : MultiPathGenerator σ R) (h : New.construct G process times generator bb = .ok g) :
    (2 ≤ times.size ∧ G.dimension generator = sizeMul process.size (sizePred times.size)) ∧
    g = ⟨bb, process, generator, ⟨MultiPath.ofGrid process.size times, 1⟩⟩ := by
  rcases checkDimensions_cases (G.dimension generator) process.size times.size with
    ⟨hc, hv⟩ | ⟨e, hc, _, _⟩
  · rw [New.fused_construct_of_check G process times generator bb hc] at h
    cases h
    exact ⟨hv, rfl⟩
  · simp [New.construct, hc] at h

/-- C1. Construction of a MultiPathGenerator fails with a configuration error whenever
`source.dimension() != process.size() * (grid.length - 1)` (the product being the
unsigned one of the source) or `grid.length <= 1`; this holds for the Old process-based,
the Old list-based and the New constructor.  The two process-based constructors succeed
in every other case: they succeed if and only if `grid.length >= 2` and the dimension
equals the product, whatever the Brownian-bridge flag.  When the grid is not empty and
`process.size() * (grid.length - 1)` fits in a `Size`, the unsigned product is the
mathematical one. -/
theorem construct_succeeds_iff {σ R P1 : Type} [Zero R] [One R] (G : GSG σ R)
    (process : GenericStochasticProcess R) (times : TimeGrid R) (generator : σ)
    (brownianBridge : Bool)
    (makeArray : List P1 → List (List R) → Except Error (GenericStochasticProcess R))
    (placeholder : GenericStochasticProcess R) (diffusionProcs : List P1)
    (correlation : List (List R)) :
    ((∃ g, Old.construct G process times generator brownianBridge = .ok g) ↔
        (2 ≤ times.size ∧
          G.dimension generator = sizeMul process.size (sizePred times.size))) ∧
    ((∃ g, New.construct G process times generator brownianBridge = .ok g) ↔
        (2 ≤ times.size ∧
          G.dimension generator = sizeMul process.size (sizePred times.size))) ∧
    ((G.dimension generator ≠ sizeMul process.size (sizePred times.size) ∨ times.size ≤ 1) →
        (∃ e, Old.construct G process times generator brownianBridge = .error e ∧
            e.isConfiguration = true) ∧
        (∃ e, New.construct G process times generator brownianBridge = .error e ∧
            e.isConfiguration = true)) ∧
    ((G.dimension generator ≠ sizeMul diffusionProcs.length (sizePred times.size) ∨
        times.size ≤ 1) →
        ∃ e, Old.constructFromList G makeArray placeholder diffusionProcs correlation times
            generator brownianBridge = .error e ∧ e.isConfiguration = true) ∧
    (1 ≤ times.size → process.size * (times.size - 1) < sizeModulus →
        sizeMul process.size (sizePred times.size) = process.size * (times.size - 1)) := by
  refine ⟨?_, ?_, ?_, ?_, ?_⟩
  · unfold Old.construct
    rcases checkDimensions_cases (G.dimension generator) process.size times.size with
      ⟨h, hc⟩ | ⟨e, h, _, hc⟩
    · simp only [h]
      exact ⟨fun _ => hc, fun _ => ⟨_, rfl⟩⟩
    · simp only [h]
      constructor
      · rintro ⟨g, hg⟩; cases hg
      · intro hc2; exact absurd hc2 hc
  · unfold New.construct
    rcases checkDimensions_cases (G.dimension generator) process.size times.size with
      ⟨h, hc⟩ | ⟨e, h, _, hc⟩
    · simp only [h]
      exact ⟨fun _ => hc, fun _ => ⟨_, rfl⟩⟩
    · simp only [h]
      constructor
      · rintro ⟨g, hg⟩; cases hg
      · intro hc2; exact absurd hc2 hc
  · intro hbad
    rcases checkDimensions_cases (G.dimension generator) process.size times.size with
      ⟨_, h2, hd⟩ | ⟨e, h, he, _⟩
    · rcases hbad with hbad | hbad
      · exact absurd hd hbad
      · omega
    · exact ⟨⟨e, by simp [Old.construct, h], he⟩, ⟨e, by simp [New.construct, h], he⟩⟩
  · intro hbad
    rcases checkDimensions_cases (G.dimension generator) diffusionProcs.length times.size with
      ⟨_, h2, hd⟩ | ⟨e, h, he, _⟩
    · rcases hbad with hbad | hbad
      · exact absurd hd hbad
      · omega
    · exact ⟨e, by simp [Old.constructFromList, h], he⟩
  · intro h1 h2
    exact sizeMul_sizePred process.size times.size h1 h2

/-! ## The only failure of the generation body is an out-of-range access -/

theorem bind_eq_ok {α β : Type} {x : Except Error α} {f : α → Except Error β} {b : β} :
    (x >>= f) = .ok b ↔ ∃ a, x = .ok a ∧ f a = .ok b := by
  cases x with
  | error e => simp [bind, Except.bind]
  | ok a => simp [bind, Except.bind]

theorem FailsOnlyOutOfRange.ok {α : Type} (a : α) :
    FailsOnlyOutOfRange (Except.ok a : Except Error α) := by
  intro e h; cases h

theorem FailsOnlyOutOfRange.pure {α : Type} (a : α) :
    FailsOnlyOutOfRange (Pure.pure a : Except Error α) := by
  intro e h; cases h

theorem FailsOnlyOutOfRange.bind {α β : Type} {x : Except Error α} {f : α → Except Error β}
    (hx : FailsOnlyOutOfRange x) (hf : ∀ a, FailsOnlyOutOfRange (f a)) :
    FailsOnlyOutOfRange (x >>= f) := by
  intro e h
  cases x with
  | error e1 =>
    simp only [Bind.bind, Except.bind, Except.error.injEq] at h
    exact h ▸ hx e1 rfl
  | ok a => exact hf a e h

theorem FailsOnlyOutOfRange.getAt {α : Type} (xs : List α) (i : Nat) :
    FailsOnlyOutOfRange (getAt xs i) := by
  intro e h
  unfold QuantLib.getAt at h
  cases hx : xs[i]? <;> simp [hx] at h
  exact h.symm

theorem FailsOnlyOutOfRange.setAt {α : Type} (xs : List α) (i : Nat) (x : α) :
    FailsOnlyOutOfRange (setAt xs i x) := by
  intro e h
  unfold QuantLib.setAt at h
  by_cases hi : i < xs.length <;> simp [hi] at h
  exact h.symm

theorem FailsOnlyOutOfRange.slice {R : Type} (xs : List R) (o n : Nat) :
    FailsOnlyOutOfRange (slice xs o n) := by
  intro e h
  unfold QuantLib.slice at h
  by_cases hi : o + n ≤ xs.length <;> simp [hi] at h
  exact h.symm

theorem FailsOnlyOutOfRange.dt {R : Type} [Sub R] (g : TimeGrid R) (i : Nat) :
    FailsOnlyOutOfRange (g.dt i) := by
  intro e h
  unfold TimeGrid.dt at h
  cases h1 : g.times_[i]? <;> cases h2 : g.times_[i + 1]? <;> simp [h1, h2] at h <;>
    exact h.symm

theorem FailsOnlyOutOfRange.increment {R : Type} [Add R] (p : Path R) (i : Nat) :
    FailsOnlyOutOfRange (p.increment i) := by
  intro e h
  unfold Path.increment at h
  cases h1 : p.drift_[i]? <;> cases h2 : p.diffusion_[i]? <;> simp [h1, h2] at h <;>
    exact h.symm

theorem FailsOnlyOutOfRange.setDrift {R : Type} (p : Path R) (i : Nat) (x : R) :
    FailsOnlyOutOfRange (p.setDrift i x) := by
  intro e h
  unfold Path.setDrift at h
  cases h1 : QuantLib.setAt p.drift_ i x with
  | ok d => simp [h1] at h
  | error e1 =>
    simp only [h1, Except.error.injEq] at h
    exact h ▸ FailsOnlyOutOfRange.setAt _ _ _ e1 h1

theorem FailsOnlyOutOfRange.setDiffusion {R : Type} (p : Path R) (i : Nat) (x : R) :
    FailsOnlyOutOfRange (p.setDiffusion i x) := by
  intro e h
  unfold Path.setDiffusion at h
  cases h1 : QuantLib.setAt p.diffusion_ i x with
  | ok d => simp [h1] at h
  | error e1 =>
    simp only [h1, Except.error.injEq] at h
    exact h ▸ FailsOnlyOutOfRange.setAt _ _ _ e1 h1

theorem FailsOnlyOutOfRange.setValue {R : Type} (p : Path R) (i : Nat) (x : R) :
    FailsOnlyOutOfRange (p.setValue i x) := by
  intro e h
  unfold Path.setValue at h
  cases h1 : QuantLib.setAt p.values_ i x with
  | ok d => simp [h1] at h
  | error e1 =>
    simp only [h1, Except.error.injEq] at h
    exact h ▸ FailsOnlyOutOfRange.setAt _ _ _ e1 h1

theorem FailsOnlyOutOfRange.modify {R : Type} (mp : MultiPath R) (j : Nat)
    (f : Path R → Except Error (Path R)) (hf : ∀ p, FailsOnlyOutOfRange (f p)) :
    FailsOnlyOutOfRange (mp.modify j f) := by
  intro e h
  unfold MultiPath.modify at h
  cases h1 : mp.multiPath_[j]? with
  | none => simp only [h1, Except.error.injEq] at h; exact h.symm
  | some p =>
    simp only [h1] at h
    cases h2 : f p with
    | ok q => simp [h2] at h
    | error e1 =>
      simp only [h2, Except.error.injEq] at h
      exact h ▸ hf p e1 h2

theorem FailsOnlyOutOfRange.pathSize {R : Type} (mp : MultiPath R) :
    FailsOnlyOutOfRange mp.pathSize := by
  intro e h
  unfold MultiPath.pathSize MultiPath.get at h
  cases h1 : QuantLib.getAt mp.multiPath_ 0 with
  | ok d => simp [h1] at h
  | error e1 =>
    simp only [h1, Except.error.injEq] at h
    exact h ▸ FailsOnlyOutOfRange.getAt _ _ e1 h1

theorem FailsOnlyOutOfRange.forLoop {σ : Type} (body : Nat → σ → Except Error σ)
    (hb : ∀ j s, FailsOnlyOutOfRange (body j s)) (k i : Nat) (s : σ) :
    FailsOnlyOutOfRange (forLoop body k i s) := by
  intro e h
  obtain ⟨j, t, hj⟩ := forLoop_error body k i s e h
  exact hb j t e hj

theorem Old.factorBody_fails {R : Type} [Add R] [Mul R] (i : Nat) (dt : R)
    (drift diffusion : List R) (j : Nat) (st : MultiPath R × List R) :
    FailsOnlyOutOfRange (Old.factorBody i dt drift diffusion j st) := by
  unfold Old.factorBody
  refine .bind (.getAt _ _) fun _ => ?_
  refine .bind (.modify _ _ _ fun _ => .setDrift _ _ _) fun _ => ?_
  refine .bind (.getAt _ _) fun _ => ?_
  refine .bind (.modify _ _ _ fun _ => .setDiffusion _ _ _) fun _ => ?_
  refine .bind (.getAt _ _) fun _ => ?_
  refine .bind (.increment _ _) fun _ => ?_
  refine .bind (.setAt _ _ _) fun _ => ?_
  exact .pure _

theorem Old.decomposed_stepBody_fails {R : Type} [Zero R] [Add R] [Sub R] [Mul R] [Neg R]
    (P : GenericStochasticProcess R) (timeGrid : TimeGrid R) (sequence : List R)
    (antithetic : Bool) (i : Nat) (st : List R × MultiPath R) :
    FailsOnlyOutOfRange (Old.stepBody P timeGrid sequence antithetic i st) := by
  unfold Old.stepBody
  refine .bind (.getAt _ _) fun _ => ?_
  refine .bind (.dt _ _) fun _ => ?_
  refine .bind (.slice _ _ _) fun _ => ?_
  refine .bind (.forLoop _ (fun _ _ => Old.factorBody_fails _ _ _ _ _ _) _ _ _) fun _ => ?_
  exact .pure _

theorem Old.decomposed_generate_fails {R : Type} [Zero R] [Add R] [Sub R] [Mul R] [Neg R]
    (P : GenericStochasticProcess R) (buffer : MultiPath R) (sequence_ : Sample (List R) R)
    (antithetic : Bool) :
    FailsOnlyOutOfRange (Old.generate P buffer sequence_ antithetic) := by
  unfold Old.generate
  refine .bind (.getAt _ _) fun _ => ?_
  refine .bind (.forLoop _ (fun _ _ => Old.decomposed_stepBody_fails _ _ _ _ _ _) _ _ _) fun _ => ?_
  exact .pure _

theorem New.writeBody_fails {R : Type} (i : Nat) (asset : List R) (j : Nat)
    (path : MultiPath R) : FailsOnlyOutOfRange (New.writeBody i asset j path) := by
  unfold New.writeBody
  refine .bind (.getAt _ _) fun _ => ?_
  exact .modify _ _ _ fun _ => .setValue _ _ _

theorem New.fused_stepBody_fails {R : Type} [Sub R] [Neg R]
    (P : GenericStochasticProcess R) (timeGrid : TimeGrid R) (sequence : List R)
    (antithetic : Bool) (i : Nat) (st : List R × MultiPath R) :
    FailsOnlyOutOfRange (New.stepBody P timeGrid sequence antithetic i st) := by
  unfold New.stepBody
  refine .bind (.getAt _ _) fun _ => ?_
  refine .bind (.dt _ _) fun _ => ?_
  refine .bind (.slice _ _ _) fun _ => ?_
  refine .bind (.forLoop _ (fun _ _ => New.writeBody_fails _ _ _ _) _ _ _) fun _ => ?_
  exact .pure _

theorem New.fused_generate_fails {R : Type} [Sub R] [Neg R]
    (P : GenericStochasticProcess R) (buffer : MultiPath R) (sequence_ : Sample (List R) R)
    (antithetic : Bool) :
    FailsOnlyOutOfRange (New.generate P buffer sequence_ antithetic) := by
  unfold New.generate
  refine .bind (.forLoop _ (fun _ _ => New.writeBody_fails _ _ _ _) _ _ _) fun _ => ?_
  refine .bind (.getAt _ _) fun _ => ?_
  refine .bind (.pathSize _) fun _ => ?_
  refine .bind (.forLoop _ (fun _ _ => New.fused_stepBody_fails _ _ _ _ _ _) _ _ _) fun _ => ?_
  exact .pure _

/-! ## The Brownian-bridge flag -/

theorem Old.decomposed_nextWith_bridge {σ R : Type} [Zero R] [Add R] [Sub R] [Mul R] [Neg R]
    (G : GSG σ R) (g : MultiPathGenerator σ R) (a : Bool) (h : g.brownianBridge_ = true) :
    Old.nextWith G g a = ⟨g, .error .brownianBridgeNotSupported⟩ := by
  simp [Old.nextWith, h]

theorem New.fused_nextWith_bridge {σ R : Type} [Sub R] [Neg R]
    (G : GSG σ R) (g : MultiPathGenerator σ R) (a : Bool) (h : g.brownianBridge_ = true) :
    New.nextWith G g a = ⟨g, .error .brownianBridgeNotSupported⟩ := by
  simp [New.nextWith, h]

theorem Old.decomposed_run_bridge {σ R : Type} [Zero R] [Add R] [Sub R] [Mul R] [Neg R]
    (G : GSG σ R) (calls : List Bool) (g : MultiPathGenerator σ R)
    (h : g.brownianBridge_ = true) : Old.run G calls g = g := by
  induction calls with
  | nil => rfl
  | cons a calls ih => simp [Old.run, Old.decomposed_nextWith_bridge G g a h, ih]

theorem New.fused_run_bridge {σ R : Type} [Sub R] [Neg R]
    (G : GSG σ R) (calls : List Bool) (g : MultiPathGenerator σ R)
    (h : g.brownianBridge_ = true) : New.run G calls g = g := by
  induction calls with
  | nil => rfl
  | cons a calls ih => simp [New.run, New.fused_nextWith_bridge G g a h, ih]

theorem Old.decomposed_nextWith_not_bridge {σ R : Type} [Zero R] [Add R] [Sub R] [Mul R] [Neg R]
    (G : GSG σ R) (g : MultiPathGenerator σ R) (a : Bool) (h : g.brownianBridge_ = false) :
    (Old.nextWith G g a).result ≠ .error .brownianBridgeNotSupported := by
  intro hr
  simp only [Old.nextWith, h, Bool.false_eq_true, if_false] at hr
  generalize hd : (if a = true then (g.generator_, G.lastSequence g.generator_)
      else G.nextSequence g.generator_) = drawn at hr
  cases hg : Old.generate g.process_ g.next_.value drawn.2 a with
  | ok s => simp [hg] at hr
  | error e =>
    simp only [hg, Except.error.injEq] at hr
    have := Old.decomposed_generate_fails _ _ _ _ e hg
    rw [hr] at this
    cases this

theorem New.fused_nextWith_not_bridge {σ R : Type} [Sub R] [Neg R]
    (G : GSG σ R) (g : MultiPathGenerator σ R) (a : Bool) (h : g.brownianBridge_ = false) :
    (New.nextWith G g a).result ≠ .error .brownianBridgeNotSupported := by
  intro hr
  simp only [New.nextWith, h, Bool.false_eq_true, if_false] at hr
  generalize hd : (if a = true then (g.generator_, G.lastSequence g.generator_)
      else G.nextSequence g.generator_) = drawn at hr
  cases hg : New.generate g.process_ g.next_.value drawn.2 a with
  | ok s => simp [hg] at hr
  | error e =>
    simp only [hg, Except.error.injEq] at hr
    have := New.fused_generate_fails _ _ _ _ e hg
    rw [hr] at this
    cases this

/-- C2. For both strategies and every otherwise valid configuration (at least two grid
instants, matching dimension), construction with the Brownian-bridge flag set succeeds,
and after any sequence of calls on the constructed generator a call of `next()` or of
`antithetic()` fails with "Brownian bridge not supported"; the same holds for the Old
list-based constructor when `StochasticProcessArray` can be built; on a generator whose
flag is unset neither call raises that error. -/
theorem brownianBridge_fails_lazily {σ R : Type} [Zero R] [One R] [Add R] [Sub R] [Mul R]
    [Neg R] (G : GSG σ R) (process : GenericStochasticProcess R) (times : TimeGrid R)
    (generator : σ)
    (hvalid : 2 ≤ times.size ∧
      G.dimension generator = sizeMul process.size (sizePred times.size)) :
    (∃ g, Old.construct G process times generator true = .ok g ∧
      ∀ calls : List Bool,
        (Old.next G (Old.run G calls g)).result = .error .brownianBridgeNotSupported ∧
        (Old.antithetic G (Old.run G calls g)).result =
          .error .brownianBridgeNotSupported) ∧
    (∃ g, New.construct G process times generator true = .ok g ∧
      ∀ calls : List Bool,
        (New.next G (New.run G calls g)).result = .error .brownianBridgeNotSupported ∧
        (New.antithetic G (New.run G calls g)).result =
          .error .brownianBridgeNotSupported) ∧
    (∀ (P1 : Type)
        (makeArray : List P1 → List (List R) → Except Error (GenericStochasticProcess R))
        (placeholder : GenericStochasticProcess R) (diffusionProcs : List P1)
        (correlation : List (List R)),
      G.dimension generator = sizeMul diffusionProcs.length (sizePred times.size) →
      makeArray diffusionProcs correlation = .ok process →
      ∃ g, Old.constructFromList G makeArray placeholder diffusionProcs correlation times
          generator true = .ok g ∧
        ∀ calls : List Bool,
          (Old.next G (Old.run G calls g)).result = .error .brownianBridgeNotSupported ∧
          (Old.antithetic G (Old.run G calls g)).result =
            .error .brownianBridgeNotSupported) ∧
    (∀ g : MultiPathGenerator σ R, g.brownianBridge_ = false →
      (Old.next G g).result ≠ .error .brownianBridgeNotSupported ∧
      (Old.antithetic G g).result ≠ .error .brownianBridgeNotSupported ∧
      (New.next G g).result ≠ .error .brownianBridgeNotSupported ∧
      (New.antithetic G g).result ≠ .error .brownianBridgeNotSupported) := by
  have hc := (checkDimensions_ok_iff (G.dimension generator) process.size times.size).2 hvalid
  refine ⟨⟨_, Old.decomposed_construct_of_check G process times generator true hc, ?_⟩,
    ⟨_, New.fused_construct_of_check G process times generator true hc, ?_⟩, ?_, ?_⟩
  rotate_left 2
  · intro P1 makeArray placeholder diffusionProcs correlation hdim hmake
    have hcl := (checkDimensions_ok_iff (G.dimension generator) diffusionProcs.length
      times.size).2 ⟨hvalid.1, hdim⟩
    have hg : Old.constructFromList G makeArray placeholder diffusionProcs correlation times
        generator true =
        .ok ⟨true, process, generator, ⟨MultiPath.ofGrid correlation.length times, 1⟩⟩ := by
      simp only [Old.constructFromList, hcl, hmake]
    refine ⟨_, hg, ?_⟩
    intro calls
    rw [Old.decomposed_run_bridge G calls _ rfl]
    exact ⟨by rw [Old.next, Old.decomposed_nextWith_bridge G _ _ rfl],
      by rw [Old.antithetic, Old.decomposed_nextWith_bridge G _ _ rfl]⟩
  rotate_left 1
  · intro calls
    rw [Old.decomposed_run_bridge G calls _ rfl]
    exact ⟨by rw [Old.next, Old.decomposed_nextWith_bridge G _ _ rfl],
      by rw [Old.antithetic, Old.decomposed_nextWith_bridge G _ _ rfl]⟩
  · intro calls
    rw [New.fused_run_bridge G calls _ rfl]
    exact ⟨by rw [New.next, New.fused_nextWith_bridge G _ _ rfl],
      by rw [New.antithetic, New.fused_nextWith_bridge G _ _ rfl]⟩
  · intro g hg
    exact ⟨Old.decomposed_nextWith_not_bridge G g false hg, Old.decomposed_nextWith_not_bridge G g true hg,
      New.fused_nextWith_not_bridge G g false hg, New.fused_nextWith_not_bridge G g true hg⟩

/-! ## The weight of the returned sample -/

theorem Old.decomposed_generate_weight {R : Type} [Zero R] [Add R] [Sub R] [Mul R] [Neg R]
    (P : GenericStochasticProcess R) (buffer : MultiPath R) (sequence_ : Sample (List R) R)
    (antithetic : Bool) (s : Sample (MultiPath R) R)
    (h : Old.generate P buffer sequence_ antithetic = .ok s) : s.weight = sequence_.weight := by
  unfold Old.generate at h
  obtain ⟨p0, _, h⟩ := bind_eq_ok.1 h
  obtain ⟨r, _, h⟩ := bind_eq_ok.1 h
  cases h
  rfl

theorem New.fused_generate_weight {R : Type} [Sub R] [Neg R]
    (P : GenericStochasticProcess R) (buffer : MultiPath R) (sequence_ : Sample (List R) R)
    (antithetic : Bool) (s : Sample (MultiPath R) R)
    (h : New.generate P buffer sequence_ antithetic = .ok s) : s.weight = sequence_.weight := by
  unfold New.generate at h
  obtain ⟨path, _, h⟩ := bind_eq_ok.1 h
  obtain ⟨p0, _, h⟩ := bind_eq_ok.1 h
  obtain ⟨ps, _, h⟩ := bind_eq_ok.1 h
  obtain ⟨r, _, h⟩ := bind_eq_ok.1 h
  cases h
  rfl

/-- A successful `Old::next(bool)` returns what `generate` built from the draw it
requested, stores it in `next_`, and leaves the source in the state after that request. -/
theorem Old.decomposed_nextWith_ok {σ R : Type} [Zero R] [Add R] [Sub R] [Mul R] [Neg R]
    (G : GSG σ R) (g : MultiPathGenerator σ R) (a : Bool) (s : Sample (MultiPath R) R)
    (h : (Old.nextWith G g a).result = .ok s) :
    g.brownianBridge_ = false ∧
    Old.generate g.process_ g.next_.value
      (if a = true then G.lastSequence g.generator_ else (G.nextSequence g.generator_).2) a
      = .ok s ∧
    Old.nextWith G g a =
      ⟨{ g with
          generator_ := (if a = true then g.generator_ else (G.nextSequence g.generator_).1)
          next_ := s }, .ok s⟩ := by
  cases hb : g.brownianBridge_ with
  | true => rw [Old.decomposed_nextWith_bridge G g a hb] at h; cases h
  | false =>
    cases a with
    | true =>
      simp only [Old.nextWith, hb, Bool.false_eq_true, if_false, if_true] at h ⊢
      cases hg : Old.generate g.process_ g.next_.value (G.lastSequence g.generator_) true with
      | ok s1 => simp only [hg, Except.ok.injEq] at h; subst h; simp
      | error e => simp [hg] at h
    | false =>
      simp only [Old.nextWith, hb, Bool.false_eq_true, if_false] at h ⊢
      cases hg : Old.generate g.process_ g.next_.value (G.nextSequence g.generator_).2 false with
      | ok s1 => simp only [hg, Except.ok.injEq] at h; subst h; simp
      | error e => simp [hg] at h

/-- A successful `New::next(bool)` returns what `generate` built from the draw it
requested, stores it in `next_`, and leaves the source in the state after that request. -/
theorem New.fused_nextWith_ok {σ R : Type} [Sub R] [Neg R]
    (G : GSG σ R) (g : MultiPathGenerator σ R) (a : Bool) (s : Sample (MultiPath R) R)
    (h : (New.nextWith G g a).result = .ok s) :
    g.brownianBridge_ = false ∧
    New.generate g.process_ g.next_.value
      (if a = true then G.lastSequence g.generator_ else (G.nextSequence g.generator_).2) a
      = .ok s ∧
    New.nextWith G g a =
      ⟨{ g with
          generator_ := (if a = true then g.generator_ else (G.nextSequence g.generator_).1)
          next_ := s }, .ok s⟩ := by
  cases hb : g.brownianBridge_ with
  | true => rw [New.fused_nextWith_bridge G g a hb] at h; cases h
  | false =>
    cases a with
    | true =>
      simp only [New.nextWith, hb, Bool.false_eq_true, if_false, if_true] at h ⊢
      cases hg : New.generate g.process_ g.next_.value (G.lastSequence g.generator_) true with
      | ok s1 => simp only [hg, Except.ok.injEq] at h; subst h; simp
      | error e => simp [hg] at h
    | false =>
      simp only [New.nextWith, hb, Bool.false_eq_true, if_false] at h ⊢
      cases hg : New.generate g.process_ g.next_.value (G.nextSequence g.generator_).2 false with
      | ok s1 => simp only [hg, Except.ok.injEq] at h; subst h; simp
      | error e => simp [hg] at h

/-- The converse of `Old.decomposed_nextWith_ok`. -/
theorem Old.decomposed_nextWith_of_generate {σ R : Type} [Zero R] [Add R] [Sub R] [Mul R] [Neg R]
    (G : GSG σ R) (g : MultiPathGenerator σ R) (a : Bool) (s : Sample (MultiPath R) R)
    (hb : g.brownianBridge_ = false)
    (h : Old.generate g.process_ g.next_.value
      (if a = true then G.lastSequence g.generator_ else (G.nextSequence g.generator_).2) a
      = .ok s) :
    Old.nextWith G g a =
      ⟨{ g with
          generator_ := (if a = true then g.generator_ else (G.nextSequence g.generator_).1)
          next_ := s }, .ok s⟩ := by
  cases a with
  | true =>
    simp only [if_true] at h
    simp [Old.nextWith, hb, h]
  | false =>
    simp only [Bool.false_eq_true, if_false] at h
    simp [Old.nextWith, hb, h]

/-- The converse of `New.fused_nextWith_ok`. -/
theorem New.fused_nextWith_of_generate {σ R : Type} [Sub R] [Neg R]
    (G : GSG σ R) (g : MultiPathGenerator σ R) (a : Bool) (s : Sample (MultiPath R) R)
    (hb : g.brownianBridge_ = false)
    (h : New.generate g.process_ g.next_.value
      (if a = true then G.lastSequence g.generator_ else (G.nextSequence g.generator_).2) a
      = .ok s) :
    New.nextWith G g a =
      ⟨{ g with
          generator_ := (if a = true then g.generator_ else (G.nextSequence g.generator_).1)
          next_ := s }, .ok s⟩ := by
  cases a with
  | true =>
    simp only [if_true] at h
    simp [New.nextWith, hb, h]
  | false =>
    simp only [Bool.false_eq_true, if_false] at h
    simp [New.nextWith, hb, h]

/-- C3. For both strategies, the sample returned by a successful `next()` carries the
weight of the fresh draw, and the sample returned by a successful `antithetic()` carries
the weight of the last draw, whatever weight the buffer held before the call; the
returned sample is the new content of the buffer. -/
theorem weight_passes_through {σ R : Type} [Zero R] [Add R] [Sub R] [Mul R] [Neg R]
    (G : GSG σ R) (g : MultiPathGenerator σ R) (s : Sample (MultiPath R) R) :
    ((Old.next G g).result = .ok s →
      s.weight = (G.nextSequence g.generator_).2.weight ∧ (Old.next G g).self.next_ = s) ∧
    ((Old.antithetic G g).result = .ok s →
      s.weight = (G.lastSequence g.generator_).weight ∧
        (Old.antithetic G g).self.next_ = s) ∧
    ((New.next G g).result = .ok s →
      s.weight = (G.nextSequence g.generator_).2.weight ∧ (New.next G g).self.next_ = s) ∧
    ((New.antithetic G g).result = .ok s →
      s.weight = (G.lastSequence g.generator_).weight ∧
        (New.antithetic G g).self.next_ = s) := by
  refine ⟨?_, ?_, ?_, ?_⟩
  · intro h
    obtain ⟨_, hg, he⟩ := Old.decomposed_nextWith_ok G g false s h
    exact ⟨by simpa using Old.decomposed_generate_weight _ _ _ _ _ hg, by rw [Old.next, he]⟩
  · intro h
    obtain ⟨_, hg, he⟩ := Old.decomposed_nextWith_ok G g true s h
    exact ⟨by simpa using Old.decomposed_generate_weight _ _ _ _ _ hg, by rw [Old.antithetic, he]⟩
  · intro h
    obtain ⟨_, hg, he⟩ := New.fused_nextWith_ok G g false s h
    exact ⟨by simpa using New.fused_generate_weight _ _ _ _ _ hg, by rw [New.next, he]⟩
  · intro h
    obtain ⟨_, hg, he⟩ := New.fused_nextWith_ok G g true s h
    exact ⟨by simpa using New.fused_generate_weight _ _ _ _ _ hg, by rw [New.antithetic, he]⟩

/-! ## Updates of one Path of a MultiPath -/

theorem MultiPath.modify_ok {R : Type} {mp : MultiPath R} {j : Nat}
    {f : Path R → Except Error (Path R)} {p q : Path R}
    (hp : mp.multiPath_[j]? = some p) (hf : f p = .ok q) :
    mp.modify j f = .ok ⟨mp.multiPath_.set j q⟩ := by
  simp [MultiPath.modify, hp, hf]

theorem MultiPath.modify_ok_iff {R : Type} {mp mp1 : MultiPath R} {j : Nat}
    {f : Path R → Except Error (Path R)} :
    mp.modify j f = .ok mp1 ↔
      ∃ p q, mp.multiPath_[j]? = some p ∧ f p = .ok q ∧ mp1 = ⟨mp.multiPath_.set j q⟩ := by
  unfold MultiPath.modify
  cases hp : mp.multiPath_[j]? with
  | none => simp
  | some p =>
    cases hf : f p with
    | error e =>
      simp only [hf]
      constructor
      · intro h; cases h
      · rintro ⟨p1, q, h1, h2, _⟩
        cases h1
        rw [hf] at h2
        cases h2
    | ok q =>
      simp only [hf]
      constructor
      · intro h
        cases h
        exact ⟨p, q, rfl, hf, rfl⟩
      · rintro ⟨p1, q1, h1, h2, h3⟩
        cases h1
        rw [hf] at h2
        cases h2
        rw [h3]

theorem list_set_of_map_eq {α β : Type} (key : α → β) (l : List α) (j : Nat) (p q : α)
    (hp : l[j]? = some p) (hq : key q = key p) : (l.set j q).map key = l.map key := by
  apply List.ext_getElem?
  intro k
  rw [List.map_set, List.getElem?_set]
  by_cases hk : j = k
  · subst hk
    obtain ⟨hlt, hpe⟩ := List.getElem?_eq_some.1 hp
    simp [hlt, hq, hpe]
  · simp [hk]

/-- An update of Path `j` that keeps `key` keeps the `key`s of all Paths. -/
theorem MultiPath.modify_map {R β : Type} (key : Path R → β) {mp mp1 : MultiPath R} {j : Nat}
    {f : Path R → Except Error (Path R)} (hf : ∀ p q, f p = .ok q → key q = key p)
    (h : mp.modify j f = .ok mp1) : mp1.multiPath_.map key = mp.multiPath_.map key := by
  obtain ⟨p, q, hp, hq, rfl⟩ := MultiPath.modify_ok_iff.1 h
  exact list_set_of_map_eq key _ j p q hp (hf p q hq)

theorem Path.setDrift_ok_iff {R : Type} {p q : Path R} {i : Nat} {x : R} :
    p.setDrift i x = .ok q ↔ i < p.drift_.length ∧ q = { p with drift_ := p.drift_.set i x } := by
  unfold Path.setDrift setAt
  by_cases h : i < p.drift_.length <;> simp [h, eq_comm]

theorem Path.setDiffusion_ok_iff {R : Type} {p q : Path R} {i : Nat} {x : R} :
    p.setDiffusion i x = .ok q ↔
      i < p.diffusion_.length ∧ q = { p with diffusion_ := p.diffusion_.set i x } := by
  unfold Path.setDiffusion setAt
  by_cases h : i < p.diffusion_.length <;> simp [h, eq_comm]

theorem Path.setValue_ok_iff {R : Type} {p q : Path R} {i : Nat} {x : R} :
    p.setValue i x = .ok q ↔
      i < p.values_.length ∧ q = { p with values_ := p.values_.set i x } := by
  unfold Path.setValue setAt
  by_cases h : i < p.values_.length <;> simp [h, eq_comm]

theorem Old.factorBody_frame {R : Type} [Add R] [Mul R] (i : Nat) (dt : R)
    (drift diffusion : List R) (j : Nat) (st st1 : MultiPath R × List R)
    (h : Old.factorBody i dt drift diffusion j st = .ok st1) :
    st1.1.multiPath_.map Old.frameKey = st.1.multiPath_.map Old.frameKey := by
  unfold Old.factorBody at h
  obtain ⟨dj, _, h⟩ := bind_eq_ok.1 h
  obtain ⟨mp1, h1, h⟩ := bind_eq_ok.1 h
  obtain ⟨fj, _, h⟩ := bind_eq_ok.1 h
  obtain ⟨mp2, h2, h⟩ := bind_eq_ok.1 h
  obtain ⟨pj, _, h⟩ := bind_eq_ok.1 h
  obtain ⟨c, _, h⟩ := bind_eq_ok.1 h
  obtain ⟨ch, _, h⟩ := bind_eq_ok.1 h
  cases h
  have e1 := MultiPath.modify_map Old.frameKey (fun p q hq => by
    obtain ⟨_, rfl⟩ := Path.setDrift_ok_iff.1 hq
    simp [Old.frameKey]) h1
  have e2 := MultiPath.modify_map Old.frameKey (fun p q hq => by
    obtain ⟨_, rfl⟩ := Path.setDiffusion_ok_iff.1 hq
    simp [Old.frameKey]) h2
  exact e2.trans e1

theorem Old.decomposed_stepBody_frame {R : Type} [Zero R] [Add R] [Sub R] [Mul R] [Neg R]
    (P : GenericStochasticProcess R) (timeGrid : TimeGrid R) (sequence : List R)
    (antithetic : Bool) (i : Nat) (st st1 : List R × MultiPath R)
    (h : Old.stepBody P timeGrid sequence antithetic i st = .ok st1) :
    st1.2.multiPath_.map Old.frameKey = st.2.multiPath_.map Old.frameKey := by
  unfold Old.stepBody at h
  obtain ⟨t, _, h⟩ := bind_eq_ok.1 h
  obtain ⟨dt, _, h⟩ := bind_eq_ok.1 h
  obtain ⟨temp, _, h⟩ := bind_eq_ok.1 h
  obtain ⟨r, hr, h⟩ := bind_eq_ok.1 h
  cases h
  exact forLoop_preserves _
    (fun s : MultiPath R × List R =>
      s.1.multiPath_.map Old.frameKey = st.2.multiPath_.map Old.frameKey)
    (fun j s s1 hs hb => (Old.factorBody_frame _ _ _ _ j s s1 hb).trans hs) _ _ _ _ rfl hr

/-- A successful decomposed generation keeps the grid, the values and the array sizes of
every Path of the buffer. -/
theorem Old.decomposed_generate_frame {R : Type} [Zero R] [Add R] [Sub R] [Mul R] [Neg R]
    (P : GenericStochasticProcess R) (buffer : MultiPath R) (sequence_ : Sample (List R) R)
    (antithetic : Bool) (s : Sample (MultiPath R) R)
    (h : Old.generate P buffer sequence_ antithetic = .ok s) :
    s.value.multiPath_.map Old.frameKey = buffer.multiPath_.map Old.frameKey := by
  unfold Old.generate at h
  obtain ⟨p0, _, h⟩ := bind_eq_ok.1 h
  obtain ⟨r, hr, h⟩ := bind_eq_ok.1 h
  cases h
  exact forLoop_preserves _
    (fun s : List R × MultiPath R =>
      s.2.multiPath_.map Old.frameKey = buffer.multiPath_.map Old.frameKey)
    (fun j s s1 hs hb => (Old.decomposed_stepBody_frame _ _ _ _ j s s1 hb).trans hs) _ _ _ _ rfl hr

theorem New.writeBody_frame {R : Type} (i : Nat) (asset : List R) (j : Nat)
    (path path1 : MultiPath R) (h : New.writeBody i asset j path = .ok path1) :
    path1.multiPath_.map New.frameKey = path.multiPath_.map New.frameKey := by
  unfold New.writeBody at h
  obtain ⟨a, _, h⟩ := bind_eq_ok.1 h
  exact MultiPath.modify_map New.frameKey (fun p q hq => by
    obtain ⟨_, rfl⟩ := Path.setValue_ok_iff.1 hq
    simp [New.frameKey]) h

theorem New.fused_stepBody_frame {R : Type} [Sub R] [Neg R]
    (P : GenericStochasticProcess R) (timeGrid : TimeGrid R) (sequence : List R)
    (antithetic : Bool) (i : Nat) (st st1 : List R × MultiPath R)
    (h : New.stepBody P timeGrid sequence antithetic i st = .ok st1) :
    st1.2.multiPath_.map New.frameKey = st.2.multiPath_.map New.frameKey := by
  unfold New.stepBody at h
  obtain ⟨t, _, h⟩ := bind_eq_ok.1 h
  obtain ⟨dt, _, h⟩ := bind_eq_ok.1 h
  obtain ⟨temp, _, h⟩ := bind_eq_ok.1 h
  obtain ⟨r, hr, h⟩ := bind_eq_ok.1 h
  cases h
  exact forLoop_preserves _
    (fun s : MultiPath R => s.multiPath_.map New.frameKey = st.2.multiPath_.map New.frameKey)
    (fun j s s1 hs hb => (New.writeBody_frame _ _ j s s1 hb).trans hs) _ _ _ _ rfl hr

/-- A successful fused generation keeps the grid, the number of values and the records
of every Path of the buffer. -/
theorem New.fused_generate_frame {R : Type} [Sub R] [Neg R]
    (P : GenericStochasticProcess R) (buffer : MultiPath R) (sequence_ : Sample (List R) R)
    (antithetic : Bool) (s : Sample (MultiPath R) R)
    (h : New.generate P buffer sequence_ antithetic = .ok s) :
    s.value.multiPath_.map New.frameKey = buffer.multiPath_.map New.frameKey := by
  unfold New.generate at h
  obtain ⟨path, hp, h⟩ := bind_eq_ok.1 h
  obtain ⟨p0, _, h⟩ := bind_eq_ok.1 h
  obtain ⟨ps, _, h⟩ := bind_eq_ok.1 h
  obtain ⟨r, hr, h⟩ := bind_eq_ok.1 h
  cases h
  have e1 := forLoop_preserves _
    (fun s : MultiPath R => s.multiPath_.map New.frameKey = buffer.multiPath_.map New.frameKey)
    (fun j s s1 hs hb => (New.writeBody_frame _ _ j s s1 hb).trans hs) _ _ _ _ rfl hp
  exact forLoop_preserves _
    (fun s : List R × MultiPath R =>
      s.2.multiPath_.map New.frameKey = buffer.multiPath_.map New.frameKey)
    (fun j s s1 hs hb => (New.fused_stepBody_frame _ _ _ _ j s s1 hb).trans hs) _ _ _ _ e1 hr

/-! ## The shape of the buffer -/

theorem MultiPath.ofGrid_shaped {R : Type} [Zero R] (n : Nat) (grid : TimeGrid R) :
    (MultiPath.ofGrid n grid).Shaped grid n := by
  refine ⟨by simp [MultiPath.ofGrid], ?_⟩
  intro p hp
  simp only [MultiPath.ofGrid, List.mem_replicate] at hp
  rw [hp.2]
  simp [Path.ofGrid]

theorem MultiPath.Shaped.of_old_frame {R : Type} {mp mp1 : MultiPath R} {grid : TimeGrid R}
    {n : Nat} (h : mp.Shaped grid n)
    (e : mp1.multiPath_.map Old.frameKey = mp.multiPath_.map Old.frameKey) :
    mp1.Shaped grid n := by
  refine ⟨?_, ?_⟩
  · have := congrArg List.length e
    simp only [List.length_map] at this
    rw [this]; exact h.1
  · intro q hq
    have hm : Old.frameKey q ∈ mp.multiPath_.map Old.frameKey := by
      rw [← e]; exact List.mem_map_of_mem _ hq
    obtain ⟨p, hp, hpq⟩ := List.mem_map.1 hm
    have hs := h.2 p hp
    simp only [Old.frameKey, Prod.mk.injEq] at hpq
    obtain ⟨h1, h2, h3, h4⟩ := hpq
    rw [← h1, ← h2, ← h3, ← h4]
    exact hs

theorem MultiPath.Shaped.of_new_frame {R : Type} {mp mp1 : MultiPath R} {grid : TimeGrid R}
    {n : Nat} (h : mp.Shaped grid n)
    (e : mp1.multiPath_.map New.frameKey = mp.multiPath_.map New.frameKey) :
    mp1.Shaped grid n := by
  refine ⟨?_, ?_⟩
  · have := congrArg List.length e
    simp only [List.length_map] at this
    rw [this]; exact h.1
  · intro q hq
    have hm : New.frameKey q ∈ mp.multiPath_.map New.frameKey := by
      rw [← e]; exact List.mem_map_of_mem _ hq
    obtain ⟨p, hp, hpq⟩ := List.mem_map.1 hm
    have hs := h.2 p hp
    simp only [New.frameKey, Prod.mk.injEq] at hpq
    obtain ⟨h1, h2, h3, h4⟩ := hpq
    rw [← h1, ← h2, ← h3, ← h4]
    exact hs

theorem MultiPath.Shaped.getElem? {R : Type} {mp : MultiPath R} {grid : TimeGrid R} {n : Nat}
    (h : mp.Shaped grid n) {j : Nat} (hj : j < n) :
    ∃ p, mp.multiPath_[j]? = some p ∧ p.timeGrid_ = grid ∧ p.values_.length = grid.size ∧
      p.drift_.length = grid.size - 1 ∧ p.diffusion_.length = grid.size - 1 := by
  have hlt : j < mp.multiPath_.length := by rw [h.1]; exact hj
  exact ⟨mp.multiPath_[j], List.getElem?_eq_getElem hlt, h.2 _ (List.getElem_mem hlt)⟩

theorem Old.decomposed_nextWith_valid {σ R : Type} [Zero R] [Add R] [Sub R] [Mul R] [Neg R]
    (G : GSG σ R) (g : MultiPathGenerator σ R) (a : Bool) (s : Sample (MultiPath R) R)
    (P : GenericStochasticProcess R) (grid : TimeGrid R) (n : Nat)
    (hp : g.process_ = P) (hs : g.next_.value.Shaped grid n)
    (h : (Old.nextWith G g a).result = .ok s) :
    (Old.nextWith G g a).self.process_ = P ∧
    (Old.nextWith G g a).self.brownianBridge_ = g.brownianBridge_ ∧
    (Old.nextWith G g a).self.next_ = s ∧ s.value.Shaped grid n := by
  obtain ⟨_, hg, he⟩ := Old.decomposed_nextWith_ok G g a s h
  rw [he]
  exact ⟨hp, rfl, rfl, hs.of_old_frame (Old.decomposed_generate_frame _ _ _ _ _ hg)⟩

theorem New.fused_nextWith_valid {σ R : Type} [Sub R] [Neg R]
    (G : GSG σ R) (g : MultiPathGenerator σ R) (a : Bool) (s : Sample (MultiPath R) R)
    (P : GenericStochasticProcess R) (grid : TimeGrid R) (n : Nat)
    (hp : g.process_ = P) (hs : g.next_.value.Shaped grid n)
    (h : (New.nextWith G g a).result = .ok s) :
    (New.nextWith G g a).self.process_ = P ∧
    (New.nextWith G g a).self.brownianBridge_ = g.brownianBridge_ ∧
    (New.nextWith G g a).self.next_ = s ∧ s.value.Shaped grid n := by
  obtain ⟨_, hg, he⟩ := New.fused_nextWith_ok G g a s h
  rw [he]
  exact ⟨hp, rfl, rfl, hs.of_new_frame (New.fused_generate_frame _ _ _ _ _ hg)⟩

theorem isOk_iff {α : Type} (x : Except Error α) : x.isOk = true ↔ ∃ a, x = .ok a := by
  cases x <;> simp [Except.isOk, Except.toBool]

theorem Old.decomposed_run_valid {σ R : Type} [Zero R] [Add R] [Sub R] [Mul R] [Neg R]
    (G : GSG σ R) (P : GenericStochasticProcess R) (grid : TimeGrid R) (n : Nat) :
    ∀ (calls : List Bool) (g : MultiPathGenerator σ R), g.process_ = P →
      g.next_.value.Shaped grid n → Old.Succeeds G calls g →
      (Old.run G calls g).process_ = P ∧
      (Old.run G calls g).brownianBridge_ = g.brownianBridge_ ∧
      (Old.run G calls g).next_.value.Shaped grid n := by
  intro calls
  induction calls with
  | nil => intro g hp hs _; exact ⟨hp, rfl, hs⟩
  | cons a calls ih =>
    intro g hp hs hsucc
    obtain ⟨s, hr⟩ := (isOk_iff _).1 hsucc.1
    obtain ⟨h1, h2, h3, h4⟩ := Old.decomposed_nextWith_valid G g a s P grid n hp hs hr
    obtain ⟨i1, i2, i3⟩ := ih (Old.nextWith G g a).self h1 (by rw [h3]; exact h4) hsucc.2
    exact ⟨i1, i2.trans h2, i3⟩

theorem New.fused_run_valid {σ R : Type} [Sub R] [Neg R]
    (G : GSG σ R) (P : GenericStochasticProcess R) (grid : TimeGrid R) (n : Nat) :
    ∀ (calls : List Bool) (g : MultiPathGenerator σ R), g.process_ = P →
      g.next_.value.Shaped grid n → New.Succeeds G calls g →
      (New.run G calls g).process_ = P ∧
      (New.run G calls g).brownianBridge_ = g.brownianBridge_ ∧
      (New.run G calls g).next_.value.Shaped grid n := by
  intro calls
  induction calls with
  | nil => intro g hp hs _; exact ⟨hp, rfl, hs⟩
  | cons a calls ih =>
    intro g hp hs hsucc
    obtain ⟨s, hr⟩ := (isOk_iff _).1 hsucc.1
    obtain ⟨h1, h2, h3, h4⟩ := New.fused_nextWith_valid G g a s P grid n hp hs hr
    obtain ⟨i1, i2, i3⟩ := ih (New.nextWith G g a).self h1 (by rw [h3]; exact h4) hsucc.2
    exact ⟨i1, i2.trans h2, i3⟩

/-- A generator built by `Old::MultiPathGenerator(process, times, generator, false)` is
valid, and stays so along successful calls. -/
theorem Old.decomposed_valid_of_construct {σ R : Type} [Zero R] [One R] [Add R] [Sub R] [Mul R] [Neg R]
    (G : GSG σ R) (P : GenericStochasticProcess R) (grid : TimeGrid R) (generator : σ)
    (g0 : MultiPathGenerator σ R) (hc : Old.construct G P grid generator false = .ok g0)
    (calls : List Bool) (hs : Old.Succeeds G calls g0) :
    (Old.run G calls g0).Valid P grid ∧ 2 ≤ grid.size := by
  obtain ⟨hv, rfl⟩ := Old.decomposed_construct_ok G P grid generator false g0 hc
  obtain ⟨h1, h2, h3⟩ := Old.decomposed_run_valid G P grid P.size calls _ rfl
    (MultiPath.ofGrid_shaped _ _) hs
  exact ⟨⟨h2, h1, h3⟩, hv.1⟩

/-- A generator built by `New::MultiPathGenerator(process, times, generator, false)` is
valid, and stays so along successful calls. -/
theorem New.fused_valid_of_construct {σ R : Type} [Zero R] [One R] [Sub R] [Neg R]
    (G : GSG σ R) (P : GenericStochasticProcess R) (grid : TimeGrid R) (generator : σ)
    (g0 : MultiPathGenerator σ R) (hc : New.construct G P grid generator false = .ok g0)
    (calls : List Bool) (hs : New.Succeeds G calls g0) :
    (New.run G calls g0).Valid P grid ∧ 2 ≤ grid.size := by
  obtain ⟨hv, rfl⟩ := New.fused_construct_ok G P grid generator false g0 hc
  obtain ⟨h1, h2, h3⟩ := New.fused_run_valid G P grid P.size calls _ rfl
    (MultiPath.ofGrid_shaped _ _) hs
  exact ⟨⟨h2, h1, h3⟩, hv.1⟩

/-! ## The fused strategy: the loops -/

theorem New.writeBody_ok {R : Type} (i : Nat) (asset : List R) (j : Nat) (mp : MultiPath R)
    (p : Path R) (a : R) (hp : mp.multiPath_[j]? = some p) (ha : asset[j]? = some a)
    (hi : i < p.values_.length) :
    New.writeBody i asset j mp =
      .ok ⟨mp.multiPath_.set j { p with values_ := p.values_.set i a }⟩ := by
  unfold New.writeBody
  rw [getAt_of_getElem? ha]
  exact MultiPath.modify_ok hp (Path.setValue_ok_iff.2 ⟨hi, rfl⟩)

/-- The loop `for (j...) path[j].value(i) = asset[j]` succeeds on a buffer with `n` Paths
holding more than `i` values each, and writes `asset[j]` at index `i` of every Path `j`. -/
theorem New.writeLoop_spec {R : Type} (i n : Nat) (asset : List R) (mp : MultiPath R)
    (hn : mp.multiPath_.length = n) (ha : asset.length = n)
    (hv : ∀ p ∈ mp.multiPath_, i < p.values_.length) :
    ∃ mp1, forLoop (New.writeBody i asset) n 0 mp = .ok mp1 ∧
      mp1.multiPath_.length = n ∧
      ∀ j, j < n → ∃ p a, mp.multiPath_[j]? = some p ∧ asset[j]? = some a ∧
        mp1.multiPath_[j]? = some { p with values_ := p.values_.set i a } := by
  have key := forLoop_ok (New.writeBody i asset)
    (fun j (s : MultiPath R) => s.multiPath_.length = n ∧
      (∀ k, k < j → ∃ p a, mp.multiPath_[k]? = some p ∧ asset[k]? = some a ∧
        s.multiPath_[k]? = some { p with values_ := p.values_.set i a }) ∧
      (∀ k, j ≤ k → s.multiPath_[k]? = mp.multiPath_[k]?))
    n 0 mp ⟨hn, fun k hk => absurd hk (Nat.not_lt_zero k), fun _ _ => rfl⟩
    (by
      intro j s _ hj ⟨hlen, hdone, hrest⟩
      have hjn : j < n := by omega
      have hjl : j < mp.multiPath_.length := by omega
      have hp : mp.multiPath_[j]? = some mp.multiPath_[j] := List.getElem?_eq_getElem hjl
      have hal : j < asset.length := by omega
      have hasset : asset[j]? = some asset[j] := List.getElem?_eq_getElem hal
      have hsp : s.multiPath_[j]? = some mp.multiPath_[j] := by
        rw [hrest j (Nat.le_refl j)]; exact hp
      refine ⟨_, New.writeBody_ok i asset j s _ _ hsp hasset
        (hv _ (List.getElem_mem hjl)), ?_, ?_, ?_⟩
      · simp [hlen]
      · intro k hk
        by_cases hkj : k = j
        · subst hkj
          refine ⟨_, _, hp, hasset, ?_⟩
          simp only
          rw [List.getElem?_set_self (by omega)]
        · obtain ⟨p, a, h1, h2, h3⟩ := hdone k (by omega)
          refine ⟨p, a, h1, h2, ?_⟩
          simp only
          rw [List.getElem?_set_ne (Ne.symm hkj)]
          exact h3
      · intro k hk
        simp only
        rw [List.getElem?_set_ne (by omega)]
        exact hrest k (by omega))
  obtain ⟨mp1, h1, h2, h3, _⟩ := key
  exact ⟨mp1, h1, h2, fun j hj => h3 j (by omega)⟩

theorem getD_set_self {R : Type} (l : List R) (i : Nat) (a d : R) (h : i < l.length) :
    (l.set i a).getD i d = a := by
  simp [List.getD_eq_getElem?_getD, List.getElem?_set, h]

theorem getD_set_ne {R : Type} (l : List R) (i k : Nat) (a d : R) (h : i ≠ k) :
    (l.set i a).getD k d = l.getD k d := by
  simp [List.getD_eq_getElem?_getD, List.getElem?_set, h]

theorem New.column_written {R : Type} [Zero R] (i n : Nat) (asset : List R)
    (mp mp1 : MultiPath R) (hn : mp.multiPath_.length = n) (hn1 : mp1.multiPath_.length = n)
    (ha : asset.length = n) (hv : ∀ p ∈ mp.multiPath_, i < p.values_.length)
    (hw : ∀ j, j < n → ∃ p a, mp.multiPath_[j]? = some p ∧ asset[j]? = some a ∧
        mp1.multiPath_[j]? = some { p with values_ := p.values_.set i a }) :
    mp1.column i = asset ∧ ∀ k, k ≠ i → mp1.column k = mp.column k := by
  constructor
  · apply List.ext_getElem?
    intro j
    unfold MultiPath.column
    rw [List.getElem?_map]
    by_cases hj : j < n
    · obtain ⟨p, a, h1, h2, h3⟩ := hw j hj
      rw [h3, h2]
      simp only [Option.map_some']
      rw [getD_set_self _ _ _ _ (hv p (List.getElem?_mem h1))]
    · rw [List.getElem?_eq_none (by omega), List.getElem?_eq_none (by omega)]
      rfl
  · intro k hk
    apply List.ext_getElem?
    intro j
    unfold MultiPath.column
    rw [List.getElem?_map, List.getElem?_map]
    by_cases hj : j < n
    · obtain ⟨p, a, h1, h2, h3⟩ := hw j hj
      rw [h3, h1]
      simp only [Option.map_some']
      rw [getD_set_ne _ _ _ _ _ (Ne.symm hk)]
    · rw [List.getElem?_eq_none (by omega), List.getElem?_eq_none (by omega)]

theorem slice_ok {R : Type} (z : List R) (o n : Nat) (h : o + n ≤ z.length) :
    slice z o n = .ok ((z.drop o).take n) ∧ ((z.drop o).take n).length = n := by
  refine ⟨by simp [slice, h], ?_⟩
  rw [List.length_take, List.length_drop]
  omega

theorem signedSlice_length {R : Type} [Neg R] (a : Bool) (z : List R) (i n : Nat)
    (h : i * n + n ≤ z.length) : (signedSlice a z i n).length = n := by
  have := (slice_ok z (i * n) n h).2
  cases a
  · simpa [signedSlice] using this
  · simp only [signedSlice, arrayNeg, if_true, List.length_map]
    exact this

theorem TimeGrid.get_ok {R : Type} (g : TimeGrid R) (i : Nat) (h : i < g.size) :
    ∃ t, g.get i = .ok t ∧ g.times_[i]? = some t :=
  ⟨g.times_[i], getAt_of_getElem? (List.getElem?_eq_getElem h), List.getElem?_eq_getElem h⟩

theorem TimeGrid.dt_ok {R : Type} [Sub R] (g : TimeGrid R) (i : Nat) (h : i + 1 < g.size) :
    ∃ a b, g.times_[i]? = some a ∧ g.times_[i + 1]? = some b ∧ g.dt i = .ok (b - a) := by
  have h0 : i < g.times_.length := by unfold TimeGrid.size at h; omega
  have h1 : i + 1 < g.times_.length := h
  refine ⟨g.times_[i], g.times_[i + 1], List.getElem?_eq_getElem h0,
    List.getElem?_eq_getElem h1, ?_⟩
  simp [TimeGrid.dt, List.getElem?_eq_getElem h0, List.getElem?_eq_getElem h1]

theorem bind_ok_eq {α β : Type} (a : α) (f : α → Except Error β) :
    ((Except.ok a : Except Error α) >>= f) = f a := rfl

theorem New.Evolved.mono_values {R : Type} [Zero R] [Sub R] [Neg R] {P : GenericStochasticProcess R}
    {grid : TimeGrid R} {z : List R} {a : Bool} {mp : MultiPath R} {i : Nat}
    (h : New.Evolved P grid z a mp i) (mp1 : MultiPath R) (hc : ∀ k, k < i → mp1.column k = mp.column k)
    (hi : 1 ≤ i) : New.Evolved P grid z a mp1 i := by
  refine ⟨by rw [hc 0 (by omega)]; exact h.1, ?_⟩
  intro k hk1 hk2
  obtain ⟨t, dt, h1, h2, h3⟩ := h.2 k hk1 hk2
  refine ⟨t, dt, h1, h2, ?_⟩
  rw [hc k hk2, hc (k - 1) (by omega)]
  exact h3

theorem New.fused_stepBody_spec {R : Type} [Zero R] [Sub R] [Neg R] (P : GenericStochasticProcess R)
    (hP : P.WellFormed) (grid : TimeGrid R) (z : List R) (a : Bool) (i : Nat)
    (asset : List R) (mp : MultiPath R) (hi1 : 1 ≤ i) (hi2 : i < grid.size)
    (hz : z.length = P.size * (grid.size - 1)) (hs : mp.Shaped grid P.size)
    (hasset : asset = mp.column (i - 1)) (hlen : asset.length = P.size)
    (hev : New.Evolved P grid z a mp i) :
    ∃ st1, New.stepBody P grid z a i (asset, mp) = .ok st1 ∧ st1.2.Shaped grid P.size ∧
      st1.1 = st1.2.column i ∧ st1.1.length = P.size ∧
      New.Evolved P grid z a st1.2 (i + 1) := by
  obtain ⟨t, ht, _⟩ := grid.get_ok (i - 1) (by omega)
  obtain ⟨ta, tb, _, _, hdt⟩ := grid.dt_ok (i - 1) (by omega)
  have hbound : (i - 1) * P.size + P.size ≤ z.length := by
    rw [hz]
    have : (i - 1) * P.size + P.size = P.size * i := by
      obtain ⟨k, rfl⟩ : ∃ k, i = k + 1 := ⟨i - 1, by omega⟩
      simp [Nat.mul_add, Nat.mul_comm]
    rw [this]
    exact Nat.mul_le_mul_left _ (by omega)
  obtain ⟨hsl, hsllen⟩ := slice_ok z ((i - 1) * P.size) P.size hbound
  have htemp : (if a = true then arrayNeg ((z.drop ((i - 1) * P.size)).take P.size)
      else (z.drop ((i - 1) * P.size)).take P.size) = signedSlice a z (i - 1) P.size := rfl
  have htl := signedSlice_length a z (i - 1) P.size hbound
  have hnew : (P.evolve t asset (tb - ta) (signedSlice a z (i - 1) P.size)).length = P.size :=
    hP.evolve_length _ _ _ _ hlen htl
  have hv : ∀ p ∈ mp.multiPath_, i < p.values_.length := by
    intro p hp
    rw [(hs.2 p hp).2.1]; exact hi2
  obtain ⟨mp1, hloop, hn1, hw⟩ := New.writeLoop_spec i P.size _ mp hs.1 hnew hv
  obtain ⟨hcol, hother⟩ := New.column_written i P.size _ mp mp1 hs.1 hn1 hnew hv hw
  refine ⟨(P.evolve t asset (tb - ta) (signedSlice a z (i - 1) P.size), mp1), ?_, ?_, ?_, ?_, ?_⟩
  · unfold New.stepBody
    simp only [ht, hdt, hsl, bind_ok_eq, htemp, hloop]
    rfl
  · have := forLoop_preserves _
      (fun s : MultiPath R => s.multiPath_.map New.frameKey = mp.multiPath_.map New.frameKey)
      (fun j s s1 hs hb => (New.writeBody_frame _ _ j s s1 hb).trans hs) _ _ _ _ rfl hloop
    exact hs.of_new_frame this
  · exact hcol.symm
  · exact hnew
  · have hmono := hev.mono_values mp1 (fun k hk => hother k (by omega)) hi1
    refine ⟨hmono.1, ?_⟩
    intro k hk1 hk2
    by_cases hki : k < i
    · exact hmono.2 k hk1 hki
    · have hk : k = i := by omega
      subst hk
      refine ⟨t, tb - ta, ht, hdt, ?_⟩
      rw [hcol, hother (k - 1) (by omega), ← hasset]

theorem MultiPath.valueAt_eq_column {R : Type} [Zero R] {mp : MultiPath R} {grid : TimeGrid R}
    {n : Nat} (h : mp.Shaped grid n) {j i : Nat} (hj : j < n) (hi : i < grid.size) :
    mp.valueAt j i = (mp.column i)[j]? ∧ (mp.valueAt j i).isSome = true := by
  obtain ⟨p, hp, _, hv, _⟩ := h.getElem? hj
  have hlt : i < p.values_.length := by rw [hv]; exact hi
  unfold MultiPath.valueAt MultiPath.column
  rw [List.getElem?_map, hp]
  simp [List.getD_eq_getElem?_getD, List.getElem?_eq_getElem hlt]

/-- The fused generation on a buffer of the constructed shape, for a well-formed process
and a draw of `n * (m - 1)` components: it succeeds, keeps the shape, passes the weight
through and leaves values that follow the fused recursion over the whole grid. -/
theorem New.fused_generate_spec {R : Type} [Zero R] [Sub R] [Neg R] (P : GenericStochasticProcess R)
    (hP : P.WellFormed) (grid : TimeGrid R) (hm : 1 ≤ grid.size) (buffer : MultiPath R)
    (hs : buffer.Shaped grid P.size) (zs : Sample (List R) R)
    (hz : zs.value.length = P.size * (grid.size - 1)) (a : Bool) :
    ∃ s, New.generate P buffer zs a = .ok s ∧ s.weight = zs.weight ∧
      s.value.Shaped grid P.size ∧ New.Evolved P grid zs.value a s.value grid.size := by
  have hv : ∀ p ∈ buffer.multiPath_, 0 < p.values_.length := by
    intro p hp
    rw [(hs.2 p hp).2.1]; exact hm
  obtain ⟨mp1, hloop, hn1, hw⟩ :=
    New.writeLoop_spec 0 P.size P.initialValues buffer hs.1 hP.initialValues_length hv
  obtain ⟨hcol, _⟩ := New.column_written 0 P.size _ buffer mp1 hs.1 hn1
    hP.initialValues_length hv hw
  have hs1 : mp1.Shaped grid P.size := hs.of_new_frame (forLoop_preserves _
      (fun s : MultiPath R => s.multiPath_.map New.frameKey = buffer.multiPath_.map New.frameKey)
      (fun j s s1 hs hb => (New.writeBody_frame _ _ j s s1 hb).trans hs) _ _ _ _ rfl hloop)
  obtain ⟨p0, hp0, hg0, hv0, _⟩ := hs1.getElem? hP.size_pos
  have hget : mp1.get 0 = .ok p0 := getAt_of_getElem? hp0
  have hps : mp1.pathSize = .ok grid.size := by
    simp [MultiPath.pathSize, hget, Path.length, hv0]
  obtain ⟨st, hst, hinv⟩ := forLoop_ok (New.stepBody P grid zs.value a)
    (fun i (st : List R × MultiPath R) => st.2.Shaped grid P.size ∧
      st.1 = st.2.column (i - 1) ∧ st.1.length = P.size ∧
      New.Evolved P grid zs.value a st.2 i)
    (grid.size - 1) 1 (P.initialValues, mp1)
    ⟨hs1, hcol.symm, hP.initialValues_length, hcol, fun k h1 h2 => by omega⟩
    (by
      intro i st h1 h2 ⟨i1, i2, i3, i4⟩
      exact New.fused_stepBody_spec P hP grid zs.value a i st.1 st.2 h1 (by omega) hz i1 i2 i3 i4)
  have hfin : 1 + (grid.size - 1) = grid.size := by omega
  rw [hfin] at hinv
  refine ⟨⟨st.2, zs.weight⟩, ?_, rfl, hinv.1, hinv.2.2.2⟩
  unfold New.generate
  simp only [hloop, bind_ok_eq, hget, hps, hg0, hst]
  rfl

theorem Example.linear_wellFormed (n : Nat) (h : 0 < n) : (Example.linear n).WellFormed where
  size_pos := h
  initialValues_length := by simp [Example.linear]
  drift_length := by intro t x hx; simpa [Example.linear] using hx
  stdDeviation_length := by intro t x dt hx; simpa [Example.linear] using hx
  apply_length := by
    intro x c hx hc
    simp only [Example.linear] at hx hc ⊢
    simp [hx, hc]
  evolve_length := by
    intro t x dt z hx hz
    simp only [Example.linear, arrayMul] at hx hz ⊢
    simp [hx, hz]

/-- C4. Fused strategy: on a generator built by the constructor with the flag off for a
well-formed process of `n` factors over a grid of `m` instants, after any sequence of
successful calls, and for a draw `z` of `n * (m - 1)` components, `next()` returns a
MultiPath of the constructed shape in which the value of Path `j` at grid index 0 is
`initialValues()[j]` and, for every `i` in `1 .. m-1`, the vector of values at index `i`
is `evolve(t_{i-1}, s_{i-1}, dt_{i-1}, slice_{i-1})`, where `s_{i-1}` is the vector of
values at index `i-1` and `slice_{i-1} = z[(i-1)*n .. (i-1)*n+n)`; `antithetic()` does
the same with every slice component sign-negated. -/
theorem New.next_follows_evolve {σ R : Type} [Zero R] [One R] [Sub R] [Neg R] (G : GSG σ R)
    (P : GenericStochasticProcess R) (hP : P.WellFormed) (grid : TimeGrid R) (generator : σ)
    (g0 : MultiPathGenerator σ R) (hc : New.construct G P grid generator false = .ok g0)
    (calls : List Bool) (hcalls : New.Succeeds G calls g0)
    (z : Sample (List R) R) (hz : z.value.length = P.size * (grid.size - 1)) :
    ((G.nextSequence (New.run G calls g0).generator_).2 = z →
      ∃ s, (New.next G (New.run G calls g0)).result = .ok s ∧
        s.value.Shaped grid P.size ∧
        (∀ j, j < P.size → s.value.valueAt j 0 = P.initialValues[j]?) ∧
        ∀ i, 1 ≤ i → i < grid.size →
          ∃ t dt, grid.get (i - 1) = .ok t ∧ grid.dt (i - 1) = .ok dt ∧
            s.value.column i = P.evolve t (s.value.column (i - 1)) dt
              ((z.value.drop ((i - 1) * P.size)).take P.size)) ∧
    (G.lastSequence (New.run G calls g0).generator_ = z →
      ∃ s, (New.antithetic G (New.run G calls g0)).result = .ok s ∧
        s.value.Shaped grid P.size ∧
        (∀ j, j < P.size → s.value.valueAt j 0 = P.initialValues[j]?) ∧
        ∀ i, 1 ≤ i → i < grid.size →
          ∃ t dt, grid.get (i - 1) = .ok t ∧ grid.dt (i - 1) = .ok dt ∧
            s.value.column i = P.evolve t (s.value.column (i - 1)) dt
              (arrayNeg ((z.value.drop ((i - 1) * P.size)).take P.size))) := by
  obtain ⟨hvalid, hm⟩ := New.fused_valid_of_construct G P grid generator g0 hc calls hcalls
  have main : ∀ a : Bool,
      (if a = true then G.lastSequence (New.run G calls g0).generator_
        else (G.nextSequence (New.run G calls g0).generator_).2) = z →
      ∃ s, (New.nextWith G (New.run G calls g0) a).result = .ok s ∧
        s.value.Shaped grid P.size ∧
        (∀ j, j < P.size → s.value.valueAt j 0 = P.initialValues[j]?) ∧
        ∀ i, 1 ≤ i → i < grid.size →
          ∃ t dt, grid.get (i - 1) = .ok t ∧ grid.dt (i - 1) = .ok dt ∧
            s.value.column i = P.evolve t (s.value.column (i - 1)) dt
              (signedSlice a z.value (i - 1) P.size) := by
    intro a hdraw
    obtain ⟨s, hgen, _, hshape, hev⟩ := New.fused_generate_spec P hP grid (by omega)
      (New.run G calls g0).next_.value hvalid.shaped z hz a
    have hgen2 : New.generate (New.run G calls g0).process_ (New.run G calls g0).next_.value
        (if a = true then G.lastSequence (New.run G calls g0).generator_
          else (G.nextSequence (New.run G calls g0).generator_).2) a = .ok s := by
      rw [hvalid.process, hdraw]; exact hgen
    refine ⟨s, ?_, hshape, ?_, fun i h1 h2 => hev.2 i h1 h2⟩
    · rw [New.fused_nextWith_of_generate G _ a s hvalid.flag hgen2]
    · intro j hj
      rw [(MultiPath.valueAt_eq_column hshape hj (by omega)).1, hev.1]
  exact ⟨fun h => main false (by simpa using h), fun h => main true (by simpa using h)⟩

/-- Instance of C4: the two-factor process `linear 2` over the grid `0, 1, 2`, after a
`next()` and an `antithetic()`, for the fresh draw `[0, 1, 0, 2]`. -/
theorem New.next_follows_evolve_witness :
    ∃ s, (New.next Example.source4
        (New.run Example.source4 [false, true] Example.generator4)).result = .ok s ∧
      s.value.Shaped Example.grid3 2 ∧
      (∀ j, j < 2 → s.value.valueAt j 0 = (Example.linear 2).initialValues[j]?) ∧
      ∀ i, 1 ≤ i → i < Example.grid3.size →
        ∃ t dt, Example.grid3.get (i - 1) = .ok t ∧ Example.grid3.dt (i - 1) = .ok dt ∧
          s.value.column i = (Example.linear 2).evolve t (s.value.column (i - 1)) dt
            ((([0, 1, 0, 2] : List Int).drop ((i - 1) * 2)).take 2) :=
  (New.next_follows_evolve Example.source4 (Example.linear 2)
    (Example.linear_wellFormed 2 (by decide)) Example.grid3 0 Example.generator4 rfl
    [false, true] ⟨by decide, by decide, trivial⟩ ⟨[0, 1, 0, 2], 7⟩ (by decide)).1 (by decide)

/-! ## The decomposed strategy: the loops -/

/-- One run of the body of the loop over the factors, all accesses being in range. -/
theorem Old.factorBody_ok {R : Type} [Add R] [Mul R] (i : Nat) (dt : R)
    (drift diffusion : List R) (j : Nat) (mp : MultiPath R) (change : List R)
    (p : Path R) (d f : R) (hp : mp.multiPath_[j]? = some p) (hd : drift[j]? = some d)
    (hf : diffusion[j]? = some f) (hi1 : i < p.drift_.length) (hi2 : i < p.diffusion_.length)
    (hc : j < change.length) :
    Old.factorBody i dt drift diffusion j (mp, change) =
      .ok (⟨mp.multiPath_.set j (p.record i (dt * d) f)⟩, change.set j (dt * d + f)) := by
  have hjl : j < mp.multiPath_.length := (List.getElem?_eq_some.1 hp).1
  have h1 : mp.modify j (fun p => p.setDrift i (dt * d)) =
      .ok ⟨mp.multiPath_.set j { p with drift_ := p.drift_.set i (dt * d) }⟩ :=
    MultiPath.modify_ok hp (Path.setDrift_ok_iff.2 ⟨hi1, rfl⟩)
  have h2 : (MultiPath.mk (mp.multiPath_.set j { p with drift_ := p.drift_.set i (dt * d) })).modify
      j (fun p => p.setDiffusion i f) =
      .ok ⟨mp.multiPath_.set j (p.record i (dt * d) f)⟩ := by
    have hq : ({ p with drift_ := p.drift_.set i (dt * d) } : Path R).setDiffusion i f =
        .ok (p.record i (dt * d) f) :=
      Path.setDiffusion_ok_iff.2 ⟨hi2, rfl⟩
    rw [MultiPath.modify_ok (List.getElem?_set_self hjl) hq]
    simp [List.set_set]
  have h3 : (MultiPath.mk (mp.multiPath_.set j (p.record i (dt * d) f))).get j =
      .ok (p.record i (dt * d) f) :=
    getAt_of_getElem? (List.getElem?_set_self hjl)
  have h4 : (p.record i (dt * d) f).increment i = .ok (dt * d + f) := by
    simp [Path.increment, Path.record, List.getElem?_set_self hi1, List.getElem?_set_self hi2]
  unfold Old.factorBody
  simp only [getAt_of_getElem? hd, getAt_of_getElem? hf, bind_ok_eq, h1, h2, h3, h4,
    setAt_of_lt _ hc]
  rfl

/-- The loop over the factors at step `i` succeeds on a buffer with `n` Paths holding
more than `i` records each, sets the two records of step `i` of every Path `j` and
collects the increments in `change`. -/
theorem Old.factorLoop_spec {R : Type} [Zero R] [Add R] [Mul R] (i n : Nat) (dt : R)
    (drift diffusion : List R) (mp : MultiPath R)
    (hn : mp.multiPath_.length = n) (hd : drift.length = n) (hf : diffusion.length = n)
    (hv : ∀ p ∈ mp.multiPath_, i < p.drift_.length ∧ i < p.diffusion_.length) :
    ∃ r, forLoop (Old.factorBody i dt drift diffusion) n 0 (mp, List.replicate n 0) = .ok r ∧
      r.1.multiPath_.length = n ∧ r.2.length = n ∧
      ∀ j, j < n → ∃ p d f, mp.multiPath_[j]? = some p ∧ drift[j]? = some d ∧
        diffusion[j]? = some f ∧ r.1.multiPath_[j]? = some (p.record i (dt * d) f) ∧
        r.2[j]? = some (dt * d + f) := by
  have key := forLoop_ok (Old.factorBody i dt drift diffusion)
    (fun j (s : MultiPath R × List R) => s.1.multiPath_.length = n ∧ s.2.length = n ∧
      (∀ k, k < j → ∃ p d f, mp.multiPath_[k]? = some p ∧ drift[k]? = some d ∧
        diffusion[k]? = some f ∧ s.1.multiPath_[k]? = some (p.record i (dt * d) f) ∧
        s.2[k]? = some (dt * d + f)) ∧
      (∀ k, j ≤ k → s.1.multiPath_[k]? = mp.multiPath_[k]?))
    n 0 (mp, List.replicate n 0)
    ⟨hn, by simp, fun k hk => absurd hk (Nat.not_lt_zero k), fun _ _ => rfl⟩
    (by
      intro j s _ hj ⟨hlen, hclen, hdone, hrest⟩
      have hjn : j < n := by omega
      have hjl : j < mp.multiPath_.length := by omega
      have hp : mp.multiPath_[j]? = some mp.multiPath_[j] := List.getElem?_eq_getElem hjl
      have hdj : drift[j]? = some drift[j] := List.getElem?_eq_getElem (by omega)
      have hfj : diffusion[j]? = some diffusion[j] := List.getElem?_eq_getElem (by omega)
      have hsp : s.1.multiPath_[j]? = some mp.multiPath_[j] := by
        rw [hrest j (Nat.le_refl j)]; exact hp
      have hvj := hv _ (List.getElem_mem hjl)
      refine ⟨_, Old.factorBody_ok i dt drift diffusion j s.1 s.2 _ _ _ hsp hdj hfj
        hvj.1 hvj.2 (by omega), ?_, ?_, ?_, ?_⟩
      · simp [hlen]
      · simp [hclen]
      · intro k hk
        by_cases hkj : k = j
        · subst hkj
          refine ⟨_, _, _, hp, hdj, hfj, ?_, ?_⟩
          · simp only
            rw [List.getElem?_set_self (by omega)]
          · simp only
            rw [List.getElem?_set_self (by omega)]
        · obtain ⟨p, d, f, h1, h2, h3, h4, h5⟩ := hdone k (by omega)
          refine ⟨p, d, f, h1, h2, h3, ?_, ?_⟩
          · simp only
            rw [List.getElem?_set_ne (Ne.symm hkj)]
            exact h4
          · simp only
            rw [List.getElem?_set_ne (Ne.symm hkj)]
            exact h5
      · intro k hk
        simp only
        rw [List.getElem?_set_ne (by omega)]
        exact hrest k (by omega))
  obtain ⟨r, h1, h2, h3, h4, _⟩ := key
  exact ⟨r, h1, h2, h3, fun j hj => h4 j (by omega)⟩

/-- What the records written at step `i` mean for the views of the buffer. -/
theorem Old.records_written {R : Type} [Zero R] [Add R] [Mul R] (i n : Nat) (dt : R)
    (drift diffusion change : List R) (mp mp1 : MultiPath R)
    (hn : mp.multiPath_.length = n) (hn1 : mp1.multiPath_.length = n)
    (hc : change.length = n)
    (hv : ∀ p ∈ mp.multiPath_, i < p.drift_.length ∧ i < p.diffusion_.length)
    (hw : ∀ j, j < n → ∃ p d f, mp.multiPath_[j]? = some p ∧ drift[j]? = some d ∧
        diffusion[j]? = some f ∧ mp1.multiPath_[j]? = some (p.record i (dt * d) f) ∧
        change[j]? = some (dt * d + f)) :
    mp1.increments i = change ∧
    (∀ k, k ≠ i → mp1.increments k = mp.increments k) ∧
    (∀ j, j < n → ∃ d f, drift[j]? = some d ∧ diffusion[j]? = some f ∧
      mp1.driftAt j i = some (dt * d) ∧ mp1.diffusionAt j i = some f) ∧
    (∀ j k, j < n → k ≠ i → mp1.driftAt j k = mp.driftAt j k ∧
      mp1.diffusionAt j k = mp.diffusionAt j k) := by
  refine ⟨?_, ?_, ?_, ?_⟩
  · apply List.ext_getElem?
    intro j
    unfold MultiPath.increments
    rw [List.getElem?_map]
    by_cases hj : j < n
    · obtain ⟨p, d, f, h1, h2, h3, h4, h5⟩ := hw j hj
      have hvp := hv p (List.getElem?_mem h1)
      rw [h4, h5]
      simp only [Option.map_some', Path.record]
      rw [getD_set_self _ _ _ _ hvp.1, getD_set_self _ _ _ _ hvp.2]
    · rw [List.getElem?_eq_none (by omega), List.getElem?_eq_none (by omega)]
      rfl
  · intro k hk
    apply List.ext_getElem?
    intro j
    unfold MultiPath.increments
    rw [List.getElem?_map, List.getElem?_map]
    by_cases hj : j < n
    · obtain ⟨p, d, f, h1, h2, h3, h4, h5⟩ := hw j hj
      rw [h4, h1]
      simp only [Option.map_some', Path.record]
      rw [getD_set_ne _ _ _ _ _ (Ne.symm hk), getD_set_ne _ _ _ _ _ (Ne.symm hk)]
    · rw [List.getElem?_eq_none (by omega), List.getElem?_eq_none (by omega)]
  · intro j hj
    obtain ⟨p, d, f, h1, h2, h3, h4, h5⟩ := hw j hj
    have hvp := hv p (List.getElem?_mem h1)
    refine ⟨d, f, h2, h3, ?_, ?_⟩
    · unfold MultiPath.driftAt
      rw [h4]
      simp only [Path.record]
      rw [List.getElem?_set_self hvp.1]
    · unfold MultiPath.diffusionAt
      rw [h4]
      simp only [Path.record]
      rw [List.getElem?_set_self hvp.2]
  · intro j k hj hk
    obtain ⟨p, d, f, h1, h2, h3, h4, h5⟩ := hw j hj
    constructor
    · unfold MultiPath.driftAt
      rw [h4, h1]
      simp only [Path.record]
      rw [List.getElem?_set_ne (Ne.symm hk)]
    · unfold MultiPath.diffusionAt
      rw [h4, h1]
      simp only [Path.record]
      rw [List.getElem?_set_ne (Ne.symm hk)]

theorem Old.recordedState_congr {R : Type} [Zero R] [Add R] (P : GenericStochasticProcess R)
    (mp mp1 : MultiPath R) :
    ∀ i, (∀ k, k < i → mp1.increments k = mp.increments k) →
      Old.recordedState P mp1 i = Old.recordedState P mp i := by
  intro i
  induction i with
  | zero => intro _; rfl
  | succ i ih =>
    intro h
    simp only [Old.recordedState]
    rw [ih (fun k hk => h k (by omega)), h i (by omega)]

theorem Old.Recorded.mono_records {R : Type} [Zero R] [Add R] [Sub R] [Mul R] [Neg R]
    {P : GenericStochasticProcess R} {grid : TimeGrid R} {z : List R} {a : Bool}
    {mp : MultiPath R} {i : Nat} (h : Old.Recorded P grid z a mp i) (mp1 : MultiPath R)
    (hinc : ∀ k, k < i → mp1.increments k = mp.increments k)
    (hrec : ∀ j k, j < P.size → k < i → mp1.driftAt j k = mp.driftAt j k ∧
      mp1.diffusionAt j k = mp.diffusionAt j k) :
    Old.Recorded P grid z a mp1 i := by
  intro k hk
  obtain ⟨t, dt, h1, h2, h3⟩ := h k hk
  refine ⟨t, dt, h1, h2, ?_⟩
  intro j hj
  obtain ⟨d, f, h4, h5, h6, h7⟩ := h3 j hj
  have hst := Old.recordedState_congr P mp mp1 k (fun k1 hk1 => hinc k1 (by omega))
  refine ⟨d, f, ?_, ?_, ?_, ?_⟩
  · rw [hst]; exact h4
  · rw [hst]; exact h5
  · rw [(hrec j k hj hk).1]; exact h6
  · rw [(hrec j k hj hk).2]; exact h7

theorem arrayMul_length {R : Type} [Mul R] (x y : List R) (n : Nat) (hx : x.length = n)
    (hy : y.length = n) : (arrayMul x y).length = n := by
  simp [arrayMul, hx, hy]

theorem Old.decomposed_stepBody_spec {R : Type} [Zero R] [Add R] [Sub R] [Mul R] [Neg R]
    (P : GenericStochasticProcess R) (hP : P.WellFormed) (grid : TimeGrid R) (z : List R)
    (a : Bool) (i : Nat) (asset : List R) (mp : MultiPath R) (hi : i + 1 < grid.size)
    (hz : z.length = P.size * (grid.size - 1)) (hs : mp.Shaped grid P.size)
    (hasset : asset = Old.recordedState P mp i) (hlen : asset.length = P.size)
    (hrec : Old.Recorded P grid z a mp i) :
    ∃ st1, Old.stepBody P grid z a i (asset, mp) = .ok st1 ∧ st1.2.Shaped grid P.size ∧
      st1.1 = Old.recordedState P st1.2 (i + 1) ∧ st1.1.length = P.size ∧
      Old.Recorded P grid z a st1.2 (i + 1) := by
  obtain ⟨t, ht, _⟩ := grid.get_ok i (by omega)
  obtain ⟨ta, tb, _, _, hdt⟩ := grid.dt_ok i hi
  have hbound : i * P.size + P.size ≤ z.length := by
    rw [hz]
    have : i * P.size + P.size = P.size * (i + 1) := by
      simp [Nat.mul_add, Nat.mul_comm]
    rw [this]
    exact Nat.mul_le_mul_left _ (by omega)
  obtain ⟨hsl, hsllen⟩ := slice_ok z (i * P.size) P.size hbound
  have htl := signedSlice_length a z i P.size hbound
  have hdiff : (if a = true
        then arrayMul (P.stdDeviation t asset (tb - ta))
          (arrayNeg ((z.drop (i * P.size)).take P.size))
        else arrayMul (P.stdDeviation t asset (tb - ta)) ((z.drop (i * P.size)).take P.size))
      = arrayMul (P.stdDeviation t asset (tb - ta)) (signedSlice a z i P.size) := by
    cases a <;> rfl
  have hdl : (P.drift t asset).length = P.size := hP.drift_length _ _ hlen
  have hfl : (arrayMul (P.stdDeviation t asset (tb - ta)) (signedSlice a z i P.size)).length
      = P.size := arrayMul_length _ _ _ (hP.stdDeviation_length _ _ _ hlen) htl
  have hv : ∀ p ∈ mp.multiPath_, i < p.drift_.length ∧ i < p.diffusion_.length := by
    intro p hp
    obtain ⟨_, _, h3, h4⟩ := hs.2 p hp
    rw [h3, h4]; omega
  obtain ⟨r, hloop, hn1, hcl, hw⟩ := Old.factorLoop_spec i P.size (tb - ta) _ _ mp hs.1 hdl hfl hv
  obtain ⟨hinc, hother, hnew, hframe⟩ :=
    Old.records_written i P.size (tb - ta) _ _ r.2 mp r.1 hs.1 hn1 hcl hv hw
  have hstate : Old.recordedState P r.1 i = asset := by
    rw [hasset]
    exact Old.recordedState_congr P mp r.1 i (fun k hk => hother k (by omega))
  refine ⟨(P.apply asset r.2, r.1), ?_, ?_, ?_, ?_, ?_⟩
  · unfold Old.stepBody
    simp only [ht, hdt, hsl, bind_ok_eq, hdiff, hloop]
    rfl
  · have := forLoop_preserves _
      (fun s : MultiPath R × List R =>
        s.1.multiPath_.map Old.frameKey = mp.multiPath_.map Old.frameKey)
      (fun j s s1 hs hb => (Old.factorBody_frame _ _ _ _ j s s1 hb).trans hs) _ _ _ _ rfl hloop
    exact hs.of_old_frame this
  · simp only [Old.recordedState]
    rw [hstate, hinc]
  · exact hP.apply_length _ _ hlen hcl
  · have hmono := hrec.mono_records r.1 (fun k hk => hother k (by omega))
      (fun j k hj hk => hframe j k hj (by omega))
    intro k hk
    by_cases hki : k < i
    · exact hmono k hki
    · have hk : k = i := by omega
      subst hk
      refine ⟨t, tb - ta, ht, hdt, ?_⟩
      intro j hj
      obtain ⟨d, f, h1, h2, h3, h4⟩ := hnew j hj
      rw [hstate]
      exact ⟨d, f, h1, h2, h3, h4⟩

/-- The decomposed generation on a buffer of the constructed shape, for a well-formed
process and a draw of `n * (m - 1)` components: it succeeds, keeps the shape and the
values, passes the weight through and leaves records that follow the decomposed recursion
over all `m - 1` steps. -/
theorem Old.decomposed_generate_spec {R : Type} [Zero R] [Add R] [Sub R] [Mul R] [Neg R]
    (P : GenericStochasticProcess R) (hP : P.WellFormed) (grid : TimeGrid R)
    (buffer : MultiPath R) (hs : buffer.Shaped grid P.size) (zs : Sample (List R) R)
    (hz : zs.value.length = P.size * (grid.size - 1)) (a : Bool) :
    ∃ s, Old.generate P buffer zs a = .ok s ∧ s.weight = zs.weight ∧
      s.value.Shaped grid P.size ∧ Old.Recorded P grid zs.value a s.value (grid.size - 1) := by
  obtain ⟨p0, hp0, hg0, _, hd0, _⟩ := hs.getElem? hP.size_pos
  have hget : buffer.get 0 = .ok p0 := getAt_of_getElem? hp0
  obtain ⟨st, hst, hinv⟩ := forLoop_ok (Old.stepBody P grid zs.value a)
    (fun i (st : List R × MultiPath R) => st.2.Shaped grid P.size ∧
      st.1 = Old.recordedState P st.2 i ∧ st.1.length = P.size ∧
      Old.Recorded P grid zs.value a st.2 i)
    (grid.size - 1) 0 (P.initialValues, buffer)
    ⟨hs, rfl, hP.initialValues_length, fun k hk => absurd hk (Nat.not_lt_zero k)⟩
    (by
      intro i st _ h2 ⟨i1, i2, i3, i4⟩
      exact Old.decomposed_stepBody_spec P hP grid zs.value a i st.1 st.2 (by omega) hz i1 i2 i3 i4)
  rw [Nat.zero_add] at hinv
  refine ⟨⟨st.2, zs.weight⟩, ?_, rfl, hinv.1, hinv.2.2.2⟩
  unfold Old.generate
  simp only [hget, bind_ok_eq, hg0, Path.size, hd0, hst]
  rfl

/-- C5. Decomposed strategy: on a generator built by the constructor with the flag off for
a well-formed process of `n` factors over a grid of `m` instants, after any sequence of
successful calls, and for a draw `z` of `n * (m - 1)` components, `next()` returns a
MultiPath of the constructed shape whose diagnostic arrays satisfy, for every step `i` in
`0 .. m-2` and factor `j`: the drift record of Path `j` at `i` is
`dt_i * drift(t_i, s_i)[j]` and the diffusion record of Path `j` at `i` is
`(stdDeviation(t_i, s_i, dt_i) * slice_i)[j]` with `slice_i = z[i*n .. i*n+n)`, where
`s_0 = initialValues()` and `s_{i+1} = apply(s_i, c_i)`, `c_i[j]` being the sum of the
drift and diffusion records of Path `j` at `i` (`Old.recordedState`); `antithetic()`
does the same with `slice_i` replaced by `-slice_i`. -/
theorem Old.next_records {σ R : Type} [Zero R] [One R] [Add R] [Sub R] [Mul R] [Neg R]
    (G : GSG σ R) (P : GenericStochasticProcess R) (hP : P.WellFormed) (grid : TimeGrid R)
    (generator : σ) (g0 : MultiPathGenerator σ R)
    (hc : Old.construct G P grid generator false = .ok g0)
    (calls : List Bool) (hcalls : Old.Succeeds G calls g0)
    (z : Sample (List R) R) (hz : z.value.length = P.size * (grid.size - 1)) :
    ((G.nextSequence (Old.run G calls g0).generator_).2 = z →
      ∃ s, (Old.next G (Old.run G calls g0)).result = .ok s ∧
        s.value.Shaped grid P.size ∧
        ∀ i, i + 1 < grid.size →
          ∃ t dt, grid.get i = .ok t ∧ grid.dt i = .ok dt ∧
            ∀ j, j < P.size → ∃ d f,
              (P.drift t (Old.recordedState P s.value i))[j]? = some d ∧
              (arrayMul (P.stdDeviation t (Old.recordedState P s.value i) dt)
                ((z.value.drop (i * P.size)).take P.size))[j]? = some f ∧
              s.value.driftAt j i = some (dt * d) ∧ s.value.diffusionAt j i = some f) ∧
    (G.lastSequence (Old.run G calls g0).generator_ = z →
      ∃ s, (Old.antithetic G (Old.run G calls g0)).result = .ok s ∧
        s.value.Shaped grid P.size ∧
        ∀ i, i + 1 < grid.size →
          ∃ t dt, grid.get i = .ok t ∧ grid.dt i = .ok dt ∧
            ∀ j, j < P.size → ∃ d f,
              (P.drift t (Old.recordedState P s.value i))[j]? = some d ∧
              (arrayMul (P.stdDeviation t (Old.recordedState P s.value i) dt)
                (arrayNeg ((z.value.drop (i * P.size)).take P.size)))[j]? = some f ∧
              s.value.driftAt j i = some (dt * d) ∧ s.value.diffusionAt j i = some f) := by
  obtain ⟨hvalid, hm⟩ := Old.decomposed_valid_of_construct G P grid generator g0 hc calls hcalls
  have main : ∀ a : Bool,
      (if a = true then G.lastSequence (Old.run G calls g0).generator_
        else (G.nextSequence (Old.run G calls g0).generator_).2) = z →
      ∃ s, (Old.nextWith G (Old.run G calls g0) a).result = .ok s ∧
        s.value.Shaped grid P.size ∧
        Old.Recorded P grid z.value a s.value (grid.size - 1) := by
    intro a hdraw
    obtain ⟨s, hgen, _, hshape, hrec⟩ := Old.decomposed_generate_spec P hP grid
      (Old.run G calls g0).next_.value hvalid.shaped z hz a
    have hgen2 : Old.generate (Old.run G calls g0).process_ (Old.run G calls g0).next_.value
        (if a = true then G.lastSequence (Old.run G calls g0).generator_
          else (G.nextSequence (Old.run G calls g0).generator_).2) a = .ok s := by
      rw [hvalid.process, hdraw]; exact hgen
    refine ⟨s, ?_, hshape, hrec⟩
    rw [Old.decomposed_nextWith_of_generate G _ a s hvalid.flag hgen2]
  constructor
  · intro h
    obtain ⟨s, h1, h2, h3⟩ := main false (by simpa using h)
    exact ⟨s, h1, h2, fun i hi => h3 i (by omega)⟩
  · intro h
    obtain ⟨s, h1, h2, h3⟩ := main true (by simpa using h)
    exact ⟨s, h1, h2, fun i hi => h3 i (by omega)⟩

/-- Instance of C5: the one-factor process `linear 1` over the grid `0, 1, 2`, for the
`antithetic()` that follows a first `next()` drawing `[1, 1]`. -/
theorem Old.next_records_witness :
    ∃ s, (Old.antithetic Example.source2
        (Old.run Example.source2 [false] Example.generator2)).result = .ok s ∧
      s.value.Shaped Example.grid3 1 ∧
      ∀ i, i + 1 < Example.grid3.size →
        ∃ t dt, Example.grid3.get i = .ok t ∧ Example.grid3.dt i = .ok dt ∧
          ∀ j, j < 1 → ∃ d f,
            ((Example.linear 1).drift t (Old.recordedState (Example.linear 1) s.value i))[j]?
              = some d ∧
            (arrayMul ((Example.linear 1).stdDeviation t
                (Old.recordedState (Example.linear 1) s.value i) dt)
              (arrayNeg ((([1, 1] : List Int).drop (i * 1)).take 1)))[j]? = some f ∧
            s.value.driftAt j i = some (dt * d) ∧ s.value.diffusionAt j i = some f :=
  (Old.next_records Example.source2 (Example.linear 1)
    (Example.linear_wellFormed 1 (by decide)) Example.grid3 0 Example.generator2 rfl
    [false] ⟨by decide, trivial⟩ ⟨[1, 1], 5⟩ (by decide)).2 (by decide)

/-! ## `next()` followed by `antithetic()` in the decomposed strategy -/

/-- On a valid generator, `next()` followed at once by `antithetic()` from a lawful source
succeeds twice, and both samples follow the decomposed recursion on the same draw, the
second with negated slices. -/
theorem Old.decomposed_pair_spec {σ R : Type} [Zero R] [Add R] [Sub R] [Mul R] [Neg R]
    (G : GSG σ R) (hG : G.Lawful) (P : GenericStochasticProcess R) (hP : P.WellFormed)
    (grid : TimeGrid R) (g : MultiPathGenerator σ R) (hvalid : g.Valid P grid)
    (hz : (G.nextSequence g.generator_).2.value.length = P.size * (grid.size - 1)) :
    ∃ s1 s2, (Old.next G g).result = .ok s1 ∧
      (Old.antithetic G (Old.next G g).self).result = .ok s2 ∧
      s1.value.Shaped grid P.size ∧ s2.value.Shaped grid P.size ∧
      Old.Recorded P grid (G.nextSequence g.generator_).2.value false s1.value (grid.size - 1) ∧
      Old.Recorded P grid (G.nextSequence g.generator_).2.value true s2.value (grid.size - 1) := by
  obtain ⟨s1, hgen1, _, hshape1, hrec1⟩ := Old.decomposed_generate_spec P hP grid
    g.next_.value hvalid.shaped (G.nextSequence g.generator_).2 hz false
  have hnext : Old.next G g =
      ⟨{ g with generator_ := (G.nextSequence g.generator_).1, next_ := s1 }, .ok s1⟩ := by
    have := Old.decomposed_nextWith_of_generate G g false s1 hvalid.flag
      (by rw [hvalid.process]; simpa using hgen1)
    simpa [Old.next] using this
  obtain ⟨s2, hgen2, _, hshape2, hrec2⟩ := Old.decomposed_generate_spec P hP grid
    s1.value hshape1 (G.nextSequence g.generator_).2 hz true
  have hanti : (Old.antithetic G (Old.next G g).self).result = .ok s2 := by
    rw [hnext]
    have := Old.decomposed_nextWith_of_generate G
      { g with generator_ := (G.nextSequence g.generator_).1, next_ := s1 } true s2
      hvalid.flag (by
        simp only [if_true]
        rw [hG g.generator_, hvalid.process]
        exact hgen2)
    rw [Old.antithetic, this]
  exact ⟨s1, s2, by rw [hnext], hanti, hshape1, hshape2, hrec1, hrec2⟩

theorem arrayMul_neg_getElem? {R : Type} [Mul R] [HasDistribNeg R] (x y : List R) (j : Nat)
    (f : R) (h : (arrayMul x y)[j]? = some f) :
    (arrayMul x (arrayNeg y))[j]? = some (-f) := by
  unfold arrayMul arrayNeg at *
  rw [List.getElem?_zipWith] at h ⊢
  rw [List.getElem?_map]
  cases hx : x[j]? with
  | none => simp [hx] at h
  | some a =>
    cases hy : y[j]? with
    | none => simp [hx, hy] at h
    | some b =>
      simp only [hx, hy, Option.some.injEq] at h
      simp [← h, mul_neg]

theorem signedSlice_true {R : Type} [Neg R] (z : List R) (i n : Nat) :
    signedSlice true z i n = arrayNeg (signedSlice false z i n) := rfl

theorem Except.ok_inj_of_eq {α : Type} {x : Except Error α} {a b : α} (h1 : x = .ok a)
    (h2 : x = .ok b) : a = b := by
  rw [h1] at h2
  cases h2
  rfl

/-- At a step where the state-dependent ingredients of both paths agree, the antithetic
records are the drift of the `next()` path and the negated diffusion of the `next()` path. -/
theorem Old.pair_at_step {R : Type} [Zero R] [Add R] [Sub R] [Mul R] [HasDistribNeg R]
    (P : GenericStochasticProcess R) (grid : TimeGrid R) (z : List R) (mp1 mp2 : MultiPath R)
    (L k : Nat) (hk : k < L)
    (h1 : Old.Recorded P grid z false mp1 L) (h2 : Old.Recorded P grid z true mp2 L)
    (hd : ∀ t, P.drift t (Old.recordedState P mp2 k) = P.drift t (Old.recordedState P mp1 k))
    (hsd : ∀ t dt, P.stdDeviation t (Old.recordedState P mp2 k) dt =
      P.stdDeviation t (Old.recordedState P mp1 k) dt) :
    ∀ j, j < P.size → ∃ d f, mp1.driftAt j k = some d ∧ mp2.driftAt j k = some d ∧
      mp1.diffusionAt j k = some f ∧ mp2.diffusionAt j k = some (-f) := by
  intro j hj
  obtain ⟨t, dt, ht, hdt, hr1⟩ := h1 k hk
  obtain ⟨t2, dt2, ht2, hdt2, hr2⟩ := h2 k hk
  obtain rfl := Except.ok_inj_of_eq ht ht2
  obtain rfl := Except.ok_inj_of_eq hdt hdt2
  obtain ⟨d, f, a1, a2, a3, a4⟩ := hr1 j hj
  obtain ⟨d2, f2, b1, b2, b3, b4⟩ := hr2 j hj
  rw [hd, a1] at b1
  rw [hsd, signedSlice_true, arrayMul_neg_getElem? _ _ _ _ a2] at b2
  cases b1
  cases b2
  exact ⟨dt * d, f, a3, b3, a4, b4⟩

/-- C6, as stated, fails: for the one-factor process whose drift and diffusion scale are
the current state, over the grid `0, 1, 2` and with the draw `[1, 1]`, `next()` records
drift `3` and diffusion `3` at step 1, while the `antithetic()` called right after records
drift `1` and diffusion `-1`: the drift records differ and the diffusion records are not
negations of one another. -/
theorem Old.antithetic_pair_counterexample :
    (Old.next Example.source2 Example.generator2).result = .ok Example.sampleNext ∧
    (Old.antithetic Example.source2 (Old.next Example.source2 Example.generator2).self).result
      = .ok Example.sample2 ∧
    Example.sampleNext.value.driftAt 0 1 = some 3 ∧
    Example.sample2.value.driftAt 0 1 = some 1 ∧
    Example.sampleNext.value.diffusionAt 0 1 = some 3 ∧
    Example.sample2.value.diffusionAt 0 1 = some (-1) ∧
    ¬ (Example.sample2.value.driftAt 0 1 = Example.sampleNext.value.driftAt 0 1) ∧
    ¬ (Example.sample2.value.diffusionAt 0 1 =
      (Example.sampleNext.value.diffusionAt 0 1).map (fun f => -f)) :=
  ⟨rfl, rfl, by decide, by decide, by decide, by decide, by decide, by decide⟩

/-- C6, amended. Decomposed strategy: on a generator built by the constructor with the
flag off for a well-formed process over a grid, after any sequence of successful calls,
with a source whose `lastSequence()` re-reads the latest draw and a fresh draw of
`n * (m - 1)` components, `next()` followed at once by `antithetic()` yields two samples
such that at step 0, for every factor `j`, the diffusion record of the antithetic Path is
the exact sign negation of the diffusion record of the `next()` Path and the drift records
are identical; when `drift` and `stdDeviation` of the process do not depend on the state,
the same holds at every step `i`. -/
theorem Old.antithetic_pair {σ R : Type} [Zero R] [One R] [Add R] [Sub R] [Mul R]
    [HasDistribNeg R] (G : GSG σ R) (hG : G.Lawful) (P : GenericStochasticProcess R)
    (hP : P.WellFormed) (grid : TimeGrid R) (generator : σ) (g0 : MultiPathGenerator σ R)
    (hc : Old.construct G P grid generator false = .ok g0)
    (calls : List Bool) (hcalls : Old.Succeeds G calls g0)
    (hz : (G.nextSequence (Old.run G calls g0).generator_).2.value.length
      = P.size * (grid.size - 1)) :
    ∃ s1 s2, (Old.next G (Old.run G calls g0)).result = .ok s1 ∧
      (Old.antithetic G (Old.next G (Old.run G calls g0)).self).result = .ok s2 ∧
      (∀ j, j < P.size → ∃ d f, s1.value.driftAt j 0 = some d ∧
        s2.value.driftAt j 0 = some d ∧ s1.value.diffusionAt j 0 = some f ∧
        s2.value.diffusionAt j 0 = some (-f)) ∧
      ((∀ t x y, P.drift t x = P.drift t y) →
        (∀ t x y dt, P.stdDeviation t x dt = P.stdDeviation t y dt) →
        ∀ i, i + 1 < grid.size → ∀ j, j < P.size →
          ∃ d f, s1.value.driftAt j i = some d ∧ s2.value.driftAt j i = some d ∧
            s1.value.diffusionAt j i = some f ∧ s2.value.diffusionAt j i = some (-f)) := by
  obtain ⟨hvalid, hm⟩ := Old.decomposed_valid_of_construct G P grid generator g0 hc calls hcalls
  obtain ⟨s1, s2, h1, h2, _, _, r1, r2⟩ :=
    Old.decomposed_pair_spec G hG P hP grid _ hvalid hz
  refine ⟨s1, s2, h1, h2, ?_, ?_⟩
  · exact Old.pair_at_step P grid _ s1.value s2.value (grid.size - 1) 0 (by omega) r1 r2
      (fun _ => rfl) (fun _ _ => rfl)
  · intro hd hsd i hi
    exact Old.pair_at_step P grid _ s1.value s2.value (grid.size - 1) i (by omega) r1 r2
      (fun t => hd t _ _) (fun t dt => hsd t _ _ dt)

/-- Instance of C6 as amended, on `linear 1` over the grid `0, 1, 2`: the records of
step 0. -/
theorem Old.antithetic_pair_witness :
    ∃ s1 s2, (Old.next Example.source2 (Old.run Example.source2 [] Example.generator2)).result
        = .ok s1 ∧
      (Old.antithetic Example.source2
        (Old.next Example.source2 (Old.run Example.source2 [] Example.generator2)).self).result
        = .ok s2 ∧
      ∀ j, j < 1 → ∃ d f, s1.value.driftAt j 0 = some d ∧
        s2.value.driftAt j 0 = some d ∧ s1.value.diffusionAt j 0 = some f ∧
        s2.value.diffusionAt j 0 = some (-f) := by
  obtain ⟨s1, s2, h1, h2, h3, _⟩ := Old.antithetic_pair Example.source2
    (fun s => by simp [Example.source2, Example.replay]) (Example.linear 1)
    (Example.linear_wellFormed 1 (by decide)) Example.grid3 0 Example.generator2 rfl
    [] trivial (by decide)
  exact ⟨s1, s2, h1, h2, h3⟩

/-! ## The values of the Paths in the decomposed strategy -/

theorem map_eq_of_map_eq {α β γ : Type} (key : α → β) (f : β → γ) (l1 l2 : List α)
    (h : l1.map key = l2.map key) : l1.map (fun p => f (key p)) = l2.map (fun p => f (key p)) := by
  have := congrArg (List.map f) h
  simpa [List.map_map] using this

theorem MultiPath.valueAt_congr {R : Type} (mp1 mp2 : MultiPath R)
    (h : mp1.multiPath_.map Path.values_ = mp2.multiPath_.map Path.values_) (j i : Nat) :
    mp1.valueAt j i = mp2.valueAt j i := by
  have hj := congrArg (fun l => l[j]?) h
  simp only [List.getElem?_map] at hj
  unfold MultiPath.valueAt
  cases h1 : mp1.multiPath_[j]? <;> cases h2 : mp2.multiPath_[j]? <;>
    simp [h1, h2] at hj ⊢
  rw [hj]

/-- C7, as stated, fails: for the one-factor process started at `1` whose drift and
diffusion scale are the current state, over the grid `0, 1, 2` and with the draw `[1, 1]`,
`next()` succeeds and the state reached after step 0 is `3`, but the value stored in
Path 0 at grid index 1 is still the `0` the buffer held before the call. -/
theorem Old.values_not_written_counterexample :
    (Old.next Example.source2 Example.generator2).result = .ok Example.sampleNext ∧
    (Old.recordedState (Example.linear 1) Example.sampleNext.value 1)[0]? = some 3 ∧
    Example.sampleNext.value.valueAt 0 1 = some 0 ∧
    Example.generator2.next_.value.valueAt 0 1 = some 0 ∧
    ¬ (Example.sampleNext.value.valueAt 0 1 =
      (Old.recordedState (Example.linear 1) Example.sampleNext.value 1)[0]?) :=
  ⟨rfl, by decide, by decide, by decide, by decide⟩

/-! ## The number and the length of the Paths -/

/-- C8. For both strategies: after a successful construction with an `n`-factor process
and a grid of `m` instants, and after any finite sequence of successful `next()` and
`antithetic()` calls, the buffer and the MultiPath returned by a further successful call
hold exactly `n` Paths and every Path has length `m`; no successful generation call
changes the number or the length of the Paths of any buffer. -/
theorem paths_keep_shape {σ R : Type} [Zero R] [One R] [Add R] [Sub R] [Mul R] [Neg R]
    (G : GSG σ R) (P : GenericStochasticProcess R) (grid : TimeGrid R) (generator : σ)
    (bb : Bool) :
    (∀ g0, Old.construct G P grid generator bb = .ok g0 →
      ∀ calls, Old.Succeeds G calls g0 →
        ((Old.run G calls g0).next_.value.assetNumber = P.size ∧
          ∀ p ∈ (Old.run G calls g0).next_.value.multiPath_, p.length = grid.size) ∧
        ∀ s, ((Old.next G (Old.run G calls g0)).result = .ok s ∨
            (Old.antithetic G (Old.run G calls g0)).result = .ok s) →
          s.value.assetNumber = P.size ∧ ∀ p ∈ s.value.multiPath_, p.length = grid.size) ∧
    (∀ g0, New.construct G P grid generator bb = .ok g0 →
      ∀ calls, New.Succeeds G calls g0 →
        ((New.run G calls g0).next_.value.assetNumber = P.size ∧
          ∀ p ∈ (New.run G calls g0).next_.value.multiPath_, p.length = grid.size) ∧
        ∀ s, ((New.next G (New.run G calls g0)).result = .ok s ∨
            (New.antithetic G (New.run G calls g0)).result = .ok s) →
          s.value.assetNumber = P.size ∧ ∀ p ∈ s.value.multiPath_, p.length = grid.size) ∧
    (∀ (g : MultiPathGenerator σ R) s,
      ((Old.next G g).result = .ok s ∨ (Old.antithetic G g).result = .ok s) →
        s.value.multiPath_.map Path.length = g.next_.value.multiPath_.map Path.length) ∧
    (∀ (g : MultiPathGenerator σ R) s,
      ((New.next G g).result = .ok s ∨ (New.antithetic G g).result = .ok s) →
        s.value.multiPath_.map Path.length = g.next_.value.multiPath_.map Path.length) := by
  have shape : ∀ mp : MultiPath R, mp.Shaped grid P.size →
      mp.assetNumber = P.size ∧ ∀ p ∈ mp.multiPath_, p.length = grid.size :=
    fun mp h => ⟨h.1, fun p hp => (h.2 p hp).2.1⟩
  refine ⟨?_, ?_, ?_, ?_⟩
  · intro g0 hc calls hcalls
    obtain ⟨_, rfl⟩ := Old.decomposed_construct_ok G P grid generator bb g0 hc
    obtain ⟨h1, _, h3⟩ := Old.decomposed_run_valid G P grid P.size calls _ rfl
      (MultiPath.ofGrid_shaped _ _) hcalls
    refine ⟨shape _ h3, ?_⟩
    intro s hs
    rcases hs with hs | hs
    · exact shape _ (Old.decomposed_nextWith_valid G _ false s P grid P.size h1 h3 hs).2.2.2
    · exact shape _ (Old.decomposed_nextWith_valid G _ true s P grid P.size h1 h3 hs).2.2.2
  · intro g0 hc calls hcalls
    obtain ⟨_, rfl⟩ := New.fused_construct_ok G P grid generator bb g0 hc
    obtain ⟨h1, _, h3⟩ := New.fused_run_valid G P grid P.size calls _ rfl
      (MultiPath.ofGrid_shaped _ _) hcalls
    refine ⟨shape _ h3, ?_⟩
    intro s hs
    rcases hs with hs | hs
    · exact shape _ (New.fused_nextWith_valid G _ false s P grid P.size h1 h3 hs).2.2.2
    · exact shape _ (New.fused_nextWith_valid G _ true s P grid P.size h1 h3 hs).2.2.2
  · intro g s hs
    have key : ∀ a, (Old.nextWith G g a).result = .ok s →
        s.value.multiPath_.map Path.length = g.next_.value.multiPath_.map Path.length := by
      intro a ha
      obtain ⟨_, hg, _⟩ := Old.decomposed_nextWith_ok G g a s ha
      exact map_eq_of_map_eq Old.frameKey (fun k => k.2.1.length) _ _
        (Old.decomposed_generate_frame _ _ _ _ _ hg)
    rcases hs with hs | hs
    · exact key false hs
    · exact key true hs
  · intro g s hs
    have key : ∀ a, (New.nextWith G g a).result = .ok s →
        s.value.multiPath_.map Path.length = g.next_.value.multiPath_.map Path.length := by
      intro a ha
      obtain ⟨_, hg, _⟩ := New.fused_nextWith_ok G g a s ha
      exact map_eq_of_map_eq New.frameKey (fun k => k.2.1) _ _
        (New.fused_generate_frame _ _ _ _ _ hg)
    rcases hs with hs | hs
    · exact key false hs
    · exact key true hs

/-- Instance of C8: two Paths of three values after a `next()` and an `antithetic()` of
`generator4`, and unchanged lengths over the first `next()` of `generator2`. -/
theorem paths_keep_shape_witness :
    ((New.run Example.source4 [false, true] Example.generator4).next_.value.assetNumber = 2 ∧
      ∀ p ∈ (New.run Example.source4 [false, true] Example.generator4).next_.value.multiPath_,
        p.length = 3) ∧
    (Example.sampleNext.value.multiPath_.map Path.length =
      Example.generator2.next_.value.multiPath_.map Path.length) :=
  ⟨((paths_keep_shape Example.source4 (Example.linear 2) Example.grid3 0 false).2.1
      Example.generator4 rfl [false, true] ⟨by decide, by decide, trivial⟩).1,
    (paths_keep_shape Example.source2 (Example.linear 1) Example.grid3 0 false).2.2.1
      Example.generator2 Example.sampleNext (Or.inl rfl)⟩

/-! ## `antithetic()` is `next()` on the negated draw -/

theorem slice_arrayNeg {R : Type} [Neg R] (z : List R) (o n : Nat) :
    slice (arrayNeg z) o n =
      match slice z o n with
      | .ok t => .ok (arrayNeg t)
      | .error e => .error e := by
  unfold slice arrayNeg
  by_cases h : o + n ≤ z.length
  · simp [h, List.map_drop, List.map_take]
  · simp [h]

theorem Old.decomposed_stepBody_negated {R : Type} [Zero R] [Add R] [Sub R] [Mul R] [Neg R]
    (P : GenericStochasticProcess R) (timeGrid : TimeGrid R) (z : List R) :
    Old.stepBody P timeGrid z true = Old.stepBody P timeGrid (arrayNeg z) false := by
  funext i st
  unfold Old.stepBody
  cases ht : timeGrid.get i with
  | error e => rfl
  | ok t =>
    cases hdt : timeGrid.dt i with
    | error e => rfl
    | ok dt =>
      simp only [bind_ok_eq, slice_arrayNeg]
      cases hs : slice z (i * P.size) P.size with
      | error e => rfl
      | ok temp => rfl

theorem New.fused_stepBody_negated {R : Type} [Sub R] [Neg R]
    (P : GenericStochasticProcess R) (timeGrid : TimeGrid R) (z : List R) :
    New.stepBody P timeGrid z true = New.stepBody P timeGrid (arrayNeg z) false := by
  funext i st
  unfold New.stepBody
  cases ht : timeGrid.get (i - 1) with
  | error e => rfl
  | ok t =>
    cases hdt : timeGrid.dt (i - 1) with
    | error e => rfl
    | ok dt =>
      simp only [bind_ok_eq, slice_arrayNeg]
      cases hs : slice z ((i - 1) * P.size) P.size with
      | error e => rfl
      | ok temp => rfl

theorem Old.decomposed_generate_negated {R : Type} [Zero R] [Add R] [Sub R] [Mul R] [Neg R]
    (P : GenericStochasticProcess R) (buffer : MultiPath R) (z : List R) (w : R) :
    Old.generate P buffer ⟨z, w⟩ true = Old.generate P buffer ⟨arrayNeg z, w⟩ false := by
  unfold Old.generate
  simp only [Old.decomposed_stepBody_negated]

theorem New.fused_generate_negated {R : Type} [Sub R] [Neg R]
    (P : GenericStochasticProcess R) (buffer : MultiPath R) (z : List R) (w : R) :
    New.generate P buffer ⟨z, w⟩ true = New.generate P buffer ⟨arrayNeg z, w⟩ false := by
  unfold New.generate
  simp only [New.fused_stepBody_negated]

/-- C10. For both strategies and every draw `z` with weight `w`: on generators with the
same flag, process and buffer, the outcome of `antithetic()` when the last draw of the
source is `(z, w)` is exactly the outcome of `next()` when the fresh draw of the source is
`(-z, w)`: the same returned sample (path values, drift and diffusion records, weight),
or the same failure, and the same buffer afterwards. -/
theorem antithetic_eq_next_of_negated {σ τ R : Type} [Zero R] [Add R] [Sub R] [Mul R] [Neg R]
    (G1 : GSG σ R) (G2 : GSG τ R) (g1 : MultiPathGenerator σ R) (g2 : MultiPathGenerator τ R)
    (z : List R) (w : R)
    (hflag : g1.brownianBridge_ = g2.brownianBridge_) (hproc : g1.process_ = g2.process_)
    (hbuf : g1.next_ = g2.next_)
    (hlast : G1.lastSequence g1.generator_ = ⟨z, w⟩)
    (hnext : (G2.nextSequence g2.generator_).2 = ⟨arrayNeg z, w⟩) :
    (Old.antithetic G1 g1).result = (Old.next G2 g2).result ∧
    (Old.antithetic G1 g1).self.next_ = (Old.next G2 g2).self.next_ ∧
    (New.antithetic G1 g1).result = (New.next G2 g2).result ∧
    (New.antithetic G1 g1).self.next_ = (New.next G2 g2).self.next_ := by
  have hold : Old.generate g1.process_ g1.next_.value (G1.lastSequence g1.generator_) true =
      Old.generate g2.process_ g2.next_.value (G2.nextSequence g2.generator_).2 false := by
    rw [hlast, hnext, hproc, hbuf, Old.decomposed_generate_negated]
  have hnew : New.generate g1.process_ g1.next_.value (G1.lastSequence g1.generator_) true =
      New.generate g2.process_ g2.next_.value (G2.nextSequence g2.generator_).2 false := by
    rw [hlast, hnext, hproc, hbuf, New.fused_generate_negated]
  cases hb : g2.brownianBridge_ with
  | true =>
    rw [hb] at hflag
    simp [Old.antithetic, Old.next, New.antithetic, New.next, Old.nextWith, New.nextWith,
      hflag, hb, hbuf]
  | false =>
    rw [hb] at hflag
    refine ⟨?_, ?_, ?_, ?_⟩
    · simp only [Old.antithetic, Old.next, Old.nextWith, hflag, hb, Bool.false_eq_true,
        if_false, if_true, hold]
      cases Old.generate g2.process_ g2.next_.value (G2.nextSequence g2.generator_).2 false <;>
        rfl
    · simp only [Old.antithetic, Old.next, Old.nextWith, hflag, hb, Bool.false_eq_true,
        if_false, if_true, hold]
      cases Old.generate g2.process_ g2.next_.value (G2.nextSequence g2.generator_).2 false
      · exact hbuf
      · rfl
    · simp only [New.antithetic, New.next, New.nextWith, hflag, hb, Bool.false_eq_true,
        if_false, if_true, hnew]
      cases New.generate g2.process_ g2.next_.value (G2.nextSequence g2.generator_).2 false <;>
        rfl
    · simp only [New.antithetic, New.next, New.nextWith, hflag, hb, Bool.false_eq_true,
        if_false, if_true, hnew]
      cases New.generate g2.process_ g2.next_.value (G2.nextSequence g2.generator_).2 false
      · exact hbuf
      · rfl

/-- Instance of C10: after the first `next()` of `generator2`, whose draw was `[1, 1]`
with weight `5`, `antithetic()` and a `next()` drawing `[-1, -1]` with weight `5` agree. -/
theorem antithetic_eq_next_of_negated_witness :
    (Old.antithetic Example.source2 Example.generator2After).result =
      (Old.next (Example.replay 2 [⟨[-1, -1], 5⟩]) Example.generator2After).result ∧
    (Old.antithetic Example.source2 Example.generator2After).self.next_ =
      (Old.next (Example.replay 2 [⟨[-1, -1], 5⟩]) Example.generator2After).self.next_ ∧
    (New.antithetic Example.source2 Example.generator2After).result =
      (New.next (Example.replay 2 [⟨[-1, -1], 5⟩]) Example.generator2After).result ∧
    (New.antithetic Example.source2 Example.generator2After).self.next_ =
      (New.next (Example.replay 2 [⟨[-1, -1], 5⟩]) Example.generator2After).self.next_ :=
  antithetic_eq_next_of_negated Example.source2 (Example.replay 2 [⟨[-1, -1], 5⟩])
    Example.generator2After Example.generator2After [1, 1] 5 rfl rfl rfl (by decide)
    (by decide)

/-! ## State-independent processes in the decomposed strategy -/

theorem Example.replay_lawful {R : Type} [One R] (dim : Nat) (draws : List (Sample (List R) R)) :
    (Example.replay dim draws).Lawful := by
  intro s
  simp [Example.replay]

theorem Example.scaled_wellFormed {R : Type} [Zero R] [Add R] [Mul R] (c : R → R) (x0 : R) :
    (Example.scaled c x0).WellFormed where
  size_pos := by simp [Example.scaled]
  initialValues_length := by simp [Example.scaled]
  drift_length := by intro t x hx; simp [Example.scaled]
  stdDeviation_length := by intro t x dt hx; simp [Example.scaled]
  apply_length := by
    intro x d hx hd
    simp only [Example.scaled] at hx hd ⊢
    simp [hx, hd]
  evolve_length := by
    intro t x dt z hx hz
    simp only [Example.scaled, arrayMul] at hx hz ⊢
    simp [hx, hz]

theorem signedSlice_false_getElem? {R : Type} [Neg R] (z : List R) (i n j : Nat) (hj : j < n) :
    (signedSlice false z i n)[j]? = z[i * n + j]? := by
  simp [signedSlice, List.getElem?_take, hj, List.getElem?_drop]

theorem arrayMul_getElem? {R : Type} [Mul R] (x y : List R) (j : Nat) (f : R)
    (h : (arrayMul x y)[j]? = some f) :
    ∃ a b, x[j]? = some a ∧ y[j]? = some b ∧ f = a * b := by
  unfold arrayMul at h
  rw [List.getElem?_zipWith] at h
  cases hx : x[j]? with
  | none => simp [hx] at h
  | some a =>
    cases hy : y[j]? with
    | none => simp [hx, hy] at h
    | some b =>
      simp only [hx, hy, Option.some.injEq] at h
      exact ⟨a, b, rfl, rfl, h.symm⟩

/-- The decomposed strategy for a process with zero drift and a diffusion scale `c(dt)`
that does not depend on the state: `next()` records the diffusion `c(dt_i)[j] * z[i*n+j]`
and the `antithetic()` called right after records its negation; all drift records are 0. -/
theorem Old.decomposed_state_independent {σ R : Type} [Ring R] (G : GSG σ R) (hG : G.Lawful)
    (P : GenericStochasticProcess R) (hP : P.WellFormed) (c : R → List R)
    (hdrift : ∀ t x, P.drift t x = List.replicate P.size 0)
    (hsd : ∀ t x dt, P.stdDeviation t x dt = c dt)
    (grid : TimeGrid R) (g : MultiPathGenerator σ R) (hvalid : g.Valid P grid)
    (z : Sample (List R) R) (hnext : (G.nextSequence g.generator_).2 = z)
    (hz : z.value.length = P.size * (grid.size - 1)) :
    ∃ s1 s2, (Old.next G g).result = .ok s1 ∧
      (Old.antithetic G (Old.next G g).self).result = .ok s2 ∧
      ∀ i, i + 1 < grid.size → ∃ dt, grid.dt i = .ok dt ∧
        ∀ j, j < P.size → ∃ cj zj, (c dt)[j]? = some cj ∧ z.value[i * P.size + j]? = some zj ∧
          s1.value.diffusionAt j i = some (cj * zj) ∧
          s2.value.diffusionAt j i = some (-(cj * zj)) ∧
          s1.value.driftAt j i = some 0 ∧ s2.value.driftAt j i = some 0 := by
  subst hnext
  obtain ⟨s1, s2, h1, h2, _, _, r1, r2⟩ := Old.decomposed_pair_spec G hG P hP grid g hvalid hz
  refine ⟨s1, s2, h1, h2, ?_⟩
  intro i hi
  obtain ⟨t, dt, _, hdt, hr⟩ := r1 i (by omega)
  refine ⟨dt, hdt, ?_⟩
  intro j hj
  obtain ⟨d, f, a1, a2, a3, a4⟩ := hr j hj
  obtain ⟨d2, f2, b1, b2, b3, b4⟩ := Old.pair_at_step P grid _ s1.value s2.value
    (grid.size - 1) i (by omega) r1 r2 (fun t => by rw [hdrift, hdrift])
    (fun t dt => by rw [hsd, hsd]) j hj
  rw [hdrift, List.getElem?_replicate] at a1
  simp only [hj, if_true, Option.some.injEq] at a1
  rw [hsd] at a2
  obtain ⟨cj, zj, c1, c2, c3⟩ := arrayMul_getElem? _ _ _ _ a2
  rw [signedSlice_false_getElem? _ _ _ _ hj] at c2
  rw [a4] at b3
  cases b3
  rw [a3] at b1
  cases b1
  subst c3
  subst a1
  refine ⟨cj, zj, c1, c2, a4, b4, ?_, ?_⟩
  · rw [a3, mul_zero]
  · rw [b2, mul_zero]

theorem Example.gridHalf_dt :
    Example.gridHalf.dt 0 = .ok (1 / 2) ∧ Example.gridHalf.dt 1 = .ok (1 / 2) := by
  constructor
  · simp [Example.gridHalf, TimeGrid.dt]
  · simp only [Example.gridHalf, TimeGrid.dt]
    norm_num

/-- The end-to-end scenario of the decomposed strategy: one factor, the grid `0, 1/2, 1`,
the draw `[1, -1]`, zero drift, diffusion scale `c(dt)` and additive `apply`. -/
theorem Example.scaled_scenario (c : Rat → Rat) (x0 : Rat) :
    ∃ s1 s2,
      Old.construct Example.sourceHalf (Example.scaled c x0) Example.gridHalf 0 false
        = .ok (Example.generatorHalf c x0) ∧
      (Old.next Example.sourceHalf (Example.generatorHalf c x0)).result = .ok s1 ∧
      (Old.antithetic Example.sourceHalf
        (Old.next Example.sourceHalf (Example.generatorHalf c x0)).self).result = .ok s2 ∧
      s1.value.diffusionAt 0 0 = some (c (1 / 2) * 1) ∧
      s1.value.diffusionAt 0 1 = some (c (1 / 2) * (-1)) ∧
      s2.value.diffusionAt 0 0 = some (-(c (1 / 2) * 1)) ∧
      s2.value.diffusionAt 0 1 = some (-(c (1 / 2) * (-1))) ∧
      s1.value.driftAt 0 0 = some 0 ∧ s1.value.driftAt 0 1 = some 0 ∧
      s2.value.driftAt 0 0 = some 0 ∧ s2.value.driftAt 0 1 = some 0 := by
  obtain ⟨s1, s2, h1, h2, h3⟩ := Old.decomposed_state_independent Example.sourceHalf
    (Example.replay_lawful _ _) (Example.scaled c x0) (Example.scaled_wellFormed c x0)
    (fun dt => [c dt]) (fun _ _ => rfl) (fun _ _ _ => rfl) Example.gridHalf
    (Example.generatorHalf c x0) ⟨rfl, rfl, MultiPath.ofGrid_shaped 1 Example.gridHalf⟩
    ⟨[1, -1], 1⟩ rfl rfl
  obtain ⟨dt0, hdt0, k0⟩ := h3 0 (by decide)
  obtain ⟨dt1, hdt1, k1⟩ := h3 1 (by decide)
  obtain rfl := Except.ok_inj_of_eq hdt0 Example.gridHalf_dt.1
  obtain rfl := Except.ok_inj_of_eq hdt1 Example.gridHalf_dt.2
  obtain ⟨c0, z0, a1, a2, a3, a4, a5, a6⟩ := k0 0 Nat.one_pos
  obtain ⟨c1, z1, b1, b2, b3, b4, b5, b6⟩ := k1 0 Nat.one_pos
  simp only [List.getElem?_cons_zero, Option.some.injEq] at a1 b1
  have ez0 : z0 = 1 := by
    have : ([1, -1] : List Rat)[0 * (Example.scaled c x0).size + 0]? = some 1 := rfl
    rw [this] at a2
    exact (Option.some.inj a2).symm
  have ez1 : z1 = -1 := by
    have : ([1, -1] : List Rat)[1 * (Example.scaled c x0).size + 0]? = some (-1) := rfl
    rw [this] at b2
    exact (Option.some.inj b2).symm
  subst a1 b1 ez0 ez1
  exact ⟨s1, s2, rfl, h1, h2, a3, b3, a4, b4, a5, b5, a6, b6⟩

/-- C9. Decomposed strategy, state-independent case: for every well-formed process whose
drift is zero and whose `stdDeviation(t, x, dt)` is a scale `c(dt)` that does not depend on
the state `x` (additivity of `apply` is not needed), on a valid generator with a source
whose `lastSequence()` re-reads the latest draw, and for every draw `z` of `n * (m - 1)`
components, `next()` records the diffusion `c(dt_i)[j] * z[i*n+j]` at each step `i` and the
`antithetic()` called immediately after records exactly its negation, all drift records
being zero; in particular with one factor, the grid `0, 1/2, 1` and the draw `[1, -1]`
the two increments are `c(1/2) * 1` and `c(1/2) * (-1)` for `next()` and their negations for
`antithetic()`, with all drift records zero. -/
theorem Old.state_independent_increments :
    (∀ (σ R : Type) [Ring R] (G : GSG σ R) (P : GenericStochasticProcess R) (c : R → List R)
      (grid : TimeGrid R) (g : MultiPathGenerator σ R) (z : Sample (List R) R),
      G.Lawful → P.WellFormed → (∀ t x, P.drift t x = List.replicate P.size 0) →
      (∀ t x dt, P.stdDeviation t x dt = c dt) → g.Valid P grid →
      (G.nextSequence g.generator_).2 = z → z.value.length = P.size * (grid.size - 1) →
      ∃ s1 s2, (Old.next G g).result = .ok s1 ∧
        (Old.antithetic G (Old.next G g).self).result = .ok s2 ∧
        ∀ i, i + 1 < grid.size → ∃ dt, grid.dt i = .ok dt ∧
          ∀ j, j < P.size → ∃ cj zj, (c dt)[j]? = some cj ∧
            z.value[i * P.size + j]? = some zj ∧
            s1.value.diffusionAt j i = some (cj * zj) ∧
            s2.value.diffusionAt j i = some (-(cj * zj)) ∧
            s1.value.driftAt j i = some 0 ∧ s2.value.driftAt j i = some 0) ∧
    (∀ (c : Rat → Rat) (x0 : Rat), ∃ s1 s2,
      Old.construct Example.sourceHalf (Example.scaled c x0) Example.gridHalf 0 false
        = .ok (Example.generatorHalf c x0) ∧
      (Old.next Example.sourceHalf (Example.generatorHalf c x0)).result = .ok s1 ∧
      (Old.antithetic Example.sourceHalf
        (Old.next Example.sourceHalf (Example.generatorHalf c x0)).self).result = .ok s2 ∧
      s1.value.diffusionAt 0 0 = some (c (1 / 2) * 1) ∧
      s1.value.diffusionAt 0 1 = some (c (1 / 2) * (-1)) ∧
      s2.value.diffusionAt 0 0 = some (-(c (1 / 2) * 1)) ∧
      s2.value.diffusionAt 0 1 = some (-(c (1 / 2) * (-1))) ∧
      s1.value.driftAt 0 0 = some 0 ∧ s1.value.driftAt 0 1 = some 0 ∧
      s2.value.driftAt 0 0 = some 0 ∧ s2.value.driftAt 0 1 = some 0) :=
  ⟨fun _ _ _ G P c grid g z hG hP hd hsd hv hn hz =>
      Old.decomposed_state_independent G hG P hP c hd hsd grid g hv z hn hz,
    Example.scaled_scenario⟩

/-- Instance of C9 with the scale `c(dt) = 3 * dt`, started at `10`. -/
theorem Old.state_independent_increments_witness :
    ∃ s1 s2, (Old.next Example.sourceHalf (Example.generatorHalf (fun dt => 3 * dt) 10)).result
        = .ok s1 ∧
      (Old.antithetic Example.sourceHalf
        (Old.next Example.sourceHalf
          (Example.generatorHalf (fun dt => 3 * dt) 10)).self).result = .ok s2 ∧
      ∀ i, i + 1 < Example.gridHalf.size → ∃ dt, Example.gridHalf.dt i = .ok dt ∧
        ∀ j, j < (Example.scaled (fun dt : Rat => 3 * dt) 10).size → ∃ cj zj,
          ([3 * dt] : List Rat)[j]? = some cj ∧
          ([1, -1] : List Rat)[i * (Example.scaled (fun dt : Rat => 3 * dt) 10).size + j]?
            = some zj ∧
          s1.value.diffusionAt j i = some (cj * zj) ∧
          s2.value.diffusionAt j i = some (-(cj * zj)) ∧
          s1.value.driftAt j i = some 0 ∧ s2.value.driftAt j i = some 0 :=
  Old.state_independent_increments.1 Nat Rat Example.sourceHalf
    (Example.scaled (fun dt => 3 * dt) 10) (fun dt => [3 * dt]) Example.gridHalf
    (Example.generatorHalf (fun dt => 3 * dt) 10) ⟨[1, -1], 1⟩
    (Example.replay_lawful _ _) (Example.scaled_wellFormed _ _) (fun _ _ => rfl)
    (fun _ _ _ => rfl) ⟨rfl, rfl, MultiPath.ofGrid_shaped 1 Example.gridHalf⟩ rfl rfl

/-! ## Instances of the theorems on the example collaborators -/

/-- Instance of C1: a matching configuration is accepted, a dimension of 2 for two
factors over three instants is rejected, and so is a grid of one instant. -/
theorem construct_succeeds_iff_witness :
    (∃ g, Old.construct Example.source2 (Example.linear 1) Example.grid3 0 true = .ok g) ∧
    (∃ e, New.construct Example.source2 (Example.linear 2) Example.grid3 0 false = .error e ∧
      e.isConfiguration = true) ∧
    (∃ e, Old.constructFromList Example.source2
        (fun (_ : List Unit) (_ : List (List Int)) => .ok (Example.linear 1))
        (Example.linear 1) [()] [[1]] ⟨[0]⟩ 0 false = .error e ∧
      e.isConfiguration = true) :=
  ⟨(construct_succeeds_iff Example.source2 (Example.linear 1) Example.grid3 0 true
      (fun (_ : List Unit) (_ : List (List Int)) => .ok (Example.linear 1))
      (Example.linear 1) [()] [[1]]).1.2 ⟨by decide, by decide⟩,
   ((construct_succeeds_iff Example.source2 (Example.linear 2) Example.grid3 0 false
      (fun (_ : List Unit) (_ : List (List Int)) => .ok (Example.linear 1))
      (Example.linear 1) [()] [[1]]).2.2.1 (Or.inl (by decide))).2,
   (construct_succeeds_iff Example.source2 (Example.linear 1) ⟨[0]⟩ 0 false
      (fun (_ : List Unit) (_ : List (List Int)) => .ok (Example.linear 1))
      (Example.linear 1) [()] [[1]]).2.2.2.1 (Or.inr (by decide))⟩

/-- Instance of C2 for the fused strategy on `linear 1` over the grid `0, 1, 2`. -/
theorem brownianBridge_fails_lazily_witness :
    ∃ g, New.construct Example.source2 (Example.linear 1) Example.grid3 0 true = .ok g ∧
      ∀ calls : List Bool,
        (New.next Example.source2 (New.run Example.source2 calls g)).result =
          .error .brownianBridgeNotSupported ∧
        (New.antithetic Example.source2 (New.run Example.source2 calls g)).result =
          .error .brownianBridgeNotSupported :=
  (brownianBridge_fails_lazily Example.source2 (Example.linear 1) Example.grid3 0
    ⟨by decide, by decide⟩).2.1

/-- Instance of C3: `antithetic()` right after the first `next()` of `generator2` returns
a sample with the weight `5` of the draw. -/
theorem weight_passes_through_witness :
    (Old.antithetic Example.source2 Example.generator2After).result = .ok Example.sample2 ∧
    Example.sample2.weight = 5 ∧
    (Old.antithetic Example.source2 Example.generator2After).self.next_ = Example.sample2 :=
  ⟨rfl,
    (weight_passes_through Example.source2 Example.generator2After Example.sample2).2.1 rfl⟩

/-! ## Determinism -/

/-- What a call of `Old::next(bool)` does to the members other than the buffer, whether it
succeeds or not: the source advances by one draw in `next()` with the flag off and is
left alone otherwise; the flag and the process are kept. -/
theorem Old.decomposed_nextWith_members {σ R : Type} [Zero R] [Add R] [Sub R] [Mul R] [Neg R]
    (G : GSG σ R) (g : MultiPathGenerator σ R) (a : Bool) :
    (Old.nextWith G g a).self.generator_ =
      (if g.brownianBridge_ = true then g.generator_
        else if a = true then g.generator_ else (G.nextSequence g.generator_).1) ∧
    (Old.nextWith G g a).self.brownianBridge_ = g.brownianBridge_ ∧
    (Old.nextWith G g a).self.process_ = g.process_ := by
  cases hb : g.brownianBridge_ with
  | true => simp [Old.nextWith, hb]
  | false =>
    cases a with
    | true =>
      simp only [Old.nextWith, hb, Bool.false_eq_true, if_false, if_true]
      cases Old.generate g.process_ g.next_.value (G.lastSequence g.generator_) true <;>
        simp [hb]
    | false =>
      simp only [Old.nextWith, hb, Bool.false_eq_true, if_false]
      cases Old.generate g.process_ g.next_.value (G.nextSequence g.generator_).2 false <;>
        simp [hb]

/-- What a call of `New::next(bool)` does to the members other than the buffer, whether it
succeeds or not: the source advances by one draw in `next()` with the flag off and is
left alone otherwise; the flag and the process are kept. -/
theorem New.fused_nextWith_members {σ R : Type} [Sub R] [Neg R]
    (G : GSG σ R) (g : MultiPathGenerator σ R) (a : Bool) :
    (New.nextWith G g a).self.generator_ =
      (if g.brownianBridge_ = true then g.generator_
        else if a = true then g.generator_ else (G.nextSequence g.generator_).1) ∧
    (New.nextWith G g a).self.brownianBridge_ = g.brownianBridge_ ∧
    (New.nextWith G g a).self.process_ = g.process_ := by
  cases hb : g.brownianBridge_ with
  | true => simp [New.nextWith, hb]
  | false =>
    cases a with
    | true =>
      simp only [New.nextWith, hb, Bool.false_eq_true, if_false, if_true]
      cases New.generate g.process_ g.next_.value (G.lastSequence g.generator_) true <;>
        simp [hb]
    | false =>
      simp only [New.nextWith, hb, Bool.false_eq_true, if_false]
      cases New.generate g.process_ g.next_.value (G.nextSequence g.generator_).2 false <;>
        simp [hb]

theorem GSG.drawAt_zero {σ R : Type} (G : GSG σ R) (s : σ) :
    G.drawAt s 0 = (G.nextSequence s).2 := rfl

/-- Recording the calls made on the source does not change what `Old::next(bool)` does. -/
theorem Old.decomposed_traced_call {σ R : Type} [Zero R] [Add R] [Sub R] [Mul R] [Neg R]
    (G : GSG σ R) (g : MultiPathGenerator σ R) (a : Bool) :
    (Old.nextWithTraced G g a).1 = Old.nextWith G g a := by
  cases hb : g.brownianBridge_ with
  | true => simp [Old.nextWithTraced, Old.nextWith, hb]
  | false =>
    cases a with
    | true =>
      simp only [Old.nextWithTraced, Old.nextWith, hb, Bool.false_eq_true, if_false, if_true]
      cases Old.generate g.process_ g.next_.value (G.lastSequence g.generator_) true <;> rfl
    | false =>
      simp only [Old.nextWithTraced, Old.nextWith, hb, Bool.false_eq_true, if_false]
      cases Old.generate g.process_ g.next_.value (G.nextSequence g.generator_).2 false <;>
        rfl

/-- Recording the calls made on the source does not change what `New::next(bool)` does. -/
theorem New.fused_traced_call {σ R : Type} [Sub R] [Neg R]
    (G : GSG σ R) (g : MultiPathGenerator σ R) (a : Bool) :
    (New.nextWithTraced G g a).1 = New.nextWith G g a := by
  cases hb : g.brownianBridge_ with
  | true => simp [New.nextWithTraced, New.nextWith, hb]
  | false =>
    cases a with
    | true =>
      simp only [New.nextWithTraced, New.nextWith, hb, Bool.false_eq_true, if_false, if_true]
      cases New.generate g.process_ g.next_.value (G.lastSequence g.generator_) true <;> rfl
    | false =>
      simp only [New.nextWithTraced, New.nextWith, hb, Bool.false_eq_true, if_false]
      cases New.generate g.process_ g.next_.value (G.nextSequence g.generator_).2 false <;>
        rfl

/-- The calls made on the source by `Old::next(bool)`: none with the flag set, otherwise
exactly one, `lastSequence()` for the antithetic path and `nextSequence()` for a fresh one. -/
theorem Old.decomposed_traced_calls {σ R : Type} [Zero R] [Add R] [Sub R] [Mul R] [Neg R]
    (G : GSG σ R) (g : MultiPathGenerator σ R) (a : Bool) :
    (Old.nextWithTraced G g a).2 =
      if g.brownianBridge_ = true then []
      else if a = true then [SourceCall.lastSequence] else [SourceCall.nextSequence] := by
  cases hb : g.brownianBridge_ with
  | true => simp [Old.nextWithTraced, hb]
  | false =>
    cases a with
    | true =>
      simp only [Old.nextWithTraced, hb, Bool.false_eq_true, if_false, if_true]
      cases Old.generate g.process_ g.next_.value (G.lastSequence g.generator_) true <;> rfl
    | false =>
      simp only [Old.nextWithTraced, hb, Bool.false_eq_true, if_false]
      cases Old.generate g.process_ g.next_.value (G.nextSequence g.generator_).2 false <;>
        rfl

/-- The calls made on the source by `New::next(bool)`: none with the flag set, otherwise
exactly one, `lastSequence()` for the antithetic path and `nextSequence()` for a fresh one. -/
theorem New.fused_traced_calls {σ R : Type} [Sub R] [Neg R]
    (G : GSG σ R) (g : MultiPathGenerator σ R) (a : Bool) :
    (New.nextWithTraced G g a).2 =
      if g.brownianBridge_ = true then []
      else if a = true then [SourceCall.lastSequence] else [SourceCall.nextSequence] := by
  cases hb : g.brownianBridge_ with
  | true => simp [New.nextWithTraced, hb]
  | false =>
    cases a with
    | true =>
      simp only [New.nextWithTraced, hb, Bool.false_eq_true, if_false, if_true]
      cases New.generate g.process_ g.next_.value (G.lastSequence g.generator_) true <;> rfl
    | false =>
      simp only [New.nextWithTraced, hb, Bool.false_eq_true, if_false]
      cases New.generate g.process_ g.next_.value (G.nextSequence g.generator_).2 false <;>
        rfl

theorem Old.decomposed_flag_of_bridge_error {σ R : Type} [Zero R] [Add R] [Sub R] [Mul R]
    [Neg R] (G : GSG σ R) (g : MultiPathGenerator σ R) (a : Bool)
    (h : (Old.nextWith G g a).result = .error .brownianBridgeNotSupported) :
    g.brownianBridge_ = true := by
  cases hb : g.brownianBridge_ with
  | true => rfl
  | false => exact absurd h (Old.decomposed_nextWith_not_bridge G g a hb)

theorem New.fused_flag_of_bridge_error {σ R : Type} [Sub R] [Neg R]
    (G : GSG σ R) (g : MultiPathGenerator σ R) (a : Bool)
    (h : (New.nextWith G g a).result = .error .brownianBridgeNotSupported) :
    g.brownianBridge_ = true := by
  cases hb : g.brownianBridge_ with
  | true => rfl
  | false => exact absurd h (New.fused_nextWith_not_bridge G g a hb)

/-- C12. Failure atomicity: for both strategies, a call of `next()` or `antithetic()` that
fails with "Brownian bridge not supported" (which happens exactly when the flag is set)
makes no call on the source, neither `nextSequence()` nor `lastSequence()`, and leaves the
whole object as it was before the call: the state of the source and the output buffer
(all Path values, all diagnostic records and the weight). -/
theorem bridge_failure_is_atomic {σ R : Type} [Zero R] [Add R] [Sub R] [Mul R] [Neg R]
    (G : GSG σ R) (g : MultiPathGenerator σ R) :
    ((Old.next G g).result = .error .brownianBridgeNotSupported →
      (Old.nextWithTraced G g false).2 = [] ∧ (Old.next G g).self = g) ∧
    ((Old.antithetic G g).result = .error .brownianBridgeNotSupported →
      (Old.nextWithTraced G g true).2 = [] ∧ (Old.antithetic G g).self = g) ∧
    ((New.next G g).result = .error .brownianBridgeNotSupported →
      (New.nextWithTraced G g false).2 = [] ∧ (New.next G g).self = g) ∧
    ((New.antithetic G g).result = .error .brownianBridgeNotSupported →
      (New.nextWithTraced G g true).2 = [] ∧ (New.antithetic G g).self = g) ∧
    (g.brownianBridge_ = true →
      (Old.next G g).result = .error .brownianBridgeNotSupported ∧
      (Old.antithetic G g).result = .error .brownianBridgeNotSupported ∧
      (New.next G g).result = .error .brownianBridgeNotSupported ∧
      (New.antithetic G g).result = .error .brownianBridgeNotSupported) := by
  have hold : ∀ a, (Old.nextWith G g a).result = .error .brownianBridgeNotSupported →
      (Old.nextWithTraced G g a).2 = [] ∧ (Old.nextWith G g a).self = g := by
    intro a h
    have hb := Old.decomposed_flag_of_bridge_error G g a h
    exact ⟨by rw [Old.decomposed_traced_calls, if_pos hb],
      by rw [Old.decomposed_nextWith_bridge G g a hb]⟩
  have hnew : ∀ a, (New.nextWith G g a).result = .error .brownianBridgeNotSupported →
      (New.nextWithTraced G g a).2 = [] ∧ (New.nextWith G g a).self = g := by
    intro a h
    have hb := New.fused_flag_of_bridge_error G g a h
    exact ⟨by rw [New.fused_traced_calls, if_pos hb],
      by rw [New.fused_nextWith_bridge G g a hb]⟩
  refine ⟨hold false, hold true, hnew false, hnew true, ?_⟩
  intro hb
  exact ⟨by rw [Old.next, Old.decomposed_nextWith_bridge G g _ hb],
    by rw [Old.antithetic, Old.decomposed_nextWith_bridge G g _ hb],
    by rw [New.next, New.fused_nextWith_bridge G g _ hb],
    by rw [New.antithetic, New.fused_nextWith_bridge G g _ hb]⟩

/-- Instance of C12 on a generator built with the flag set. -/
theorem bridge_failure_is_atomic_witness :
    ((Old.nextWithTraced Example.source2 Example.generatorBridge false).2 = [] ∧
      (Old.next Example.source2 Example.generatorBridge).self = Example.generatorBridge) ∧
    ((New.nextWithTraced Example.source2 Example.generatorBridge true).2 = [] ∧
      (New.antithetic Example.source2 Example.generatorBridge).self =
        Example.generatorBridge) :=
  ⟨(bridge_failure_is_atomic Example.source2 Example.generatorBridge).1 rfl,
    (bridge_failure_is_atomic Example.source2 Example.generatorBridge).2.2.2.1 rfl⟩

/-! ## Loop bounds and index safety -/

/-- A loop that succeeds has run its body at `i, i+1, ..., i+k-1`. -/
theorem forLoopVisited_of_ok {σ : Type} (body : Nat → σ → Except Error σ) :
    ∀ (k i : Nat) (s s1 : σ), forLoop body k i s = .ok s1 →
      forLoopVisited body k i s = List.range' i k := by
  intro k
  induction k with
  | zero => intro i s s1 _; rfl
  | succ k ih =>
    intro i s s1 h
    simp only [forLoop] at h
    cases hb : body i s with
    | error e => simp [hb] at h
    | ok s2 =>
      simp only [hb] at h
      simp only [forLoopVisited, hb, List.range'_succ]
      rw [ih (i + 1) s2 s1 h]

/-- A successful decomposed generation has run the steps `0 .. size()-1` of Path 0. -/
theorem Old.decomposed_visited_of_ok {R : Type} [Zero R] [Add R] [Sub R] [Mul R] [Neg R]
    (P : GenericStochasticProcess R) (buffer : MultiPath R) (zs : Sample (List R) R)
    (a : Bool) (s : Sample (MultiPath R) R) (h : Old.generate P buffer zs a = .ok s) :
    ∃ p0, buffer.get 0 = .ok p0 ∧
      Old.visitedSteps P buffer zs.value a = List.range' 0 p0.size := by
  unfold Old.generate at h
  obtain ⟨p0, hp0, h⟩ := bind_eq_ok.1 h
  obtain ⟨r, hr, _⟩ := bind_eq_ok.1 h
  refine ⟨p0, hp0, ?_⟩
  simp only [Old.visitedSteps, hp0]
  exact forLoopVisited_of_ok _ _ _ _ _ hr

/-- A successful fused generation has run the grid indices `1 .. pathSize()-1`. -/
theorem New.fused_visited_of_ok {R : Type} [Sub R] [Neg R]
    (P : GenericStochasticProcess R) (buffer : MultiPath R) (zs : Sample (List R) R)
    (a : Bool) (s : Sample (MultiPath R) R) (h : New.generate P buffer zs a = .ok s) :
    ∃ path p0, forLoop (New.writeBody 0 P.initialValues) P.size 0 buffer = .ok path ∧
      path.get 0 = .ok p0 ∧
      New.visitedSteps P buffer zs.value a = List.range' 1 (p0.length - 1) := by
  unfold New.generate at h
  obtain ⟨path, hpath, h⟩ := bind_eq_ok.1 h
  obtain ⟨p0, hp0, h⟩ := bind_eq_ok.1 h
  obtain ⟨ps, hps, h⟩ := bind_eq_ok.1 h
  obtain ⟨r, hr, _⟩ := bind_eq_ok.1 h
  refine ⟨path, p0, hpath, hp0, ?_⟩
  have hps2 : ps = p0.length := by
    simp only [MultiPath.pathSize, hp0, Except.ok.injEq] at hps
    exact hps.symm
  subst hps2
  have hps3 : path.pathSize = .ok p0.length := by simp [MultiPath.pathSize, hp0]
  simp only [New.visitedSteps, hpath, hp0, hps3]
  exact forLoopVisited_of_ok _ _ _ _ _ hr

theorem slice_bound (i n m : Nat) (h : i + 1 < m) : i * n + n ≤ n * (m - 1) := by
  have : i * n + n = n * (i + 1) := by
    simp [Nat.mul_add, Nat.mul_comm]
  rw [this]
  exact Nat.mul_le_mul_left _ (by omega)

/-- C13. Decomposed strategy loop bounds: on a generator built by the constructor with the
flag off for a well-formed process of `n` factors over a grid of `m` instants (so that its
Paths have length `m`), after any sequence of successful calls and for a draw of
`n * (m - 1)` components, a generation call (`a = false` for `next()`, `a = true` for
`antithetic()`) succeeds and its loop, bounded by `size()` of Path 0, which is `m - 1`,
runs exactly the steps `i = 0 .. m-2`; at each of them the slice `[i*n, i*n+n)` lies
inside the draw, `dt(i)` is the inter-step duration `t_{i+1} - t_i` of the grid, and the
diagnostic index `i` is below the size `m - 1` of the record arrays of every Path. -/
theorem Old.loop_bounds {σ R : Type} [Zero R] [One R] [Add R] [Sub R] [Mul R] [Neg R]
    (G : GSG σ R) (P : GenericStochasticProcess R) (hP : P.WellFormed) (grid : TimeGrid R)
    (generator : σ) (g0 : MultiPathGenerator σ R)
    (hc : Old.construct G P grid generator false = .ok g0)
    (calls : List Bool) (hcalls : Old.Succeeds G calls g0) (a : Bool)
    (hz : (G.drawFor (Old.run G calls g0).generator_ a).value.length
      = P.size * (grid.size - 1)) :
    (∃ s, (Old.nextWith G (Old.run G calls g0) a).result = .ok s) ∧
    (∃ p0, (Old.run G calls g0).next_.value.get 0 = .ok p0 ∧ p0.size = grid.size - 1) ∧
    Old.visitedSteps (Old.run G calls g0).process_ (Old.run G calls g0).next_.value
      (G.drawFor (Old.run G calls g0).generator_ a).value a = List.range (grid.size - 1) ∧
    ∀ i, i < grid.size - 1 →
      i * P.size + P.size ≤ (G.drawFor (Old.run G calls g0).generator_ a).value.length ∧
      (∃ sl, slice (G.drawFor (Old.run G calls g0).generator_ a).value (i * P.size) P.size
        = .ok sl) ∧
      (∃ ta tb, grid.times_[i]? = some ta ∧ grid.times_[i + 1]? = some tb ∧
        grid.dt i = .ok (tb - ta)) ∧
      ∀ p ∈ (Old.run G calls g0).next_.value.multiPath_,
        p.drift_.length = grid.size - 1 ∧ p.diffusion_.length = grid.size - 1 ∧
        (∀ x, ∃ q, p.setDrift i x = .ok q) ∧ (∀ x, ∃ q, p.setDiffusion i x = .ok q) := by
  obtain ⟨hvalid, hm⟩ := Old.decomposed_valid_of_construct G P grid generator g0 hc calls hcalls
  obtain ⟨s, hgen, _, _, _⟩ := Old.decomposed_generate_spec P hP grid
    (Old.run G calls g0).next_.value hvalid.shaped _ hz a
  have hgen2 : Old.generate (Old.run G calls g0).process_ (Old.run G calls g0).next_.value
      (if a = true then G.lastSequence (Old.run G calls g0).generator_
        else (G.nextSequence (Old.run G calls g0).generator_).2) a = .ok s := by
    rw [hvalid.process]; exact hgen
  obtain ⟨p0, hp0, hvis⟩ := Old.decomposed_visited_of_ok _ _ _ _ _ hgen2
  obtain ⟨q0, hq0, _, _, hd0, _⟩ := hvalid.shaped.getElem? hP.size_pos
  have hpq : p0 = q0 := by
    have := getAt_ok_iff.1 hp0
    rw [hq0] at this
    exact (Option.some.inj this).symm
  subst hpq
  have hsize : p0.size = grid.size - 1 := hd0
  refine ⟨⟨s, ?_⟩, ⟨p0, hp0, hsize⟩, ?_, ?_⟩
  · rw [Old.decomposed_nextWith_of_generate G _ a s hvalid.flag hgen2]
  · rw [List.range_eq_range', ← hsize]
    exact hvis
  · intro i hi
    have hb : i * P.size + P.size ≤ (G.drawFor (Old.run G calls g0).generator_ a).value.length := by
      rw [hz]; exact slice_bound i P.size grid.size (by omega)
    refine ⟨hb, ⟨_, (slice_ok _ _ _ hb).1⟩, grid.dt_ok i (by omega), ?_⟩
    intro p hp
    obtain ⟨_, _, h3, h4⟩ := hvalid.shaped.2 p hp
    exact ⟨h3, h4, fun x => ⟨_, Path.setDrift_ok_iff.2 ⟨by omega, rfl⟩⟩,
      fun x => ⟨_, Path.setDiffusion_ok_iff.2 ⟨by omega, rfl⟩⟩⟩

/-- Instance of C13: the `antithetic()` that follows the first `next()` of `generator2`
runs the steps `0, 1`. -/
theorem Old.loop_bounds_witness :
    (∃ s, (Old.nextWith Example.source2
      (Old.run Example.source2 [false] Example.generator2) true).result = .ok s) ∧
    Old.visitedSteps (Old.run Example.source2 [false] Example.generator2).process_
      (Old.run Example.source2 [false] Example.generator2).next_.value
      (Example.source2.drawFor
        (Old.run Example.source2 [false] Example.generator2).generator_ true).value true
      = List.range (Example.grid3.size - 1) :=
  ⟨(Old.loop_bounds Example.source2 (Example.linear 1)
      (Example.linear_wellFormed 1 (by decide)) Example.grid3 0 Example.generator2 rfl
      [false] ⟨by decide, trivial⟩ true (by decide)).1,
    (Old.loop_bounds Example.source2 (Example.linear 1)
      (Example.linear_wellFormed 1 (by decide)) Example.grid3 0 Example.generator2 rfl
      [false] ⟨by decide, trivial⟩ true (by decide)).2.2.1⟩

/-- C14. Fused strategy index safety: on a generator that passed construction validation
(`m >= 2`, flag off) for a well-formed process with `n >= 1` factors, after any sequence
of successful calls and for a draw of `n * (m - 1)` components, a generation call
(`a = false` for `next()`, `a = true` for `antithetic()`) runs exactly the grid indices
`i = 1 .. m-1`; at each of them the slice `[(i-1)*n, (i-1)*n+n)` lies within the draw, the
grid accesses `timeGrid[i-1]` and `dt(i-1)` use an index below `m - 1` and succeed, and the
write `value(i)` uses an index below the length `m` of every Path; the call returns a
sample, so that no out-of-range access is reported. -/
theorem New.index_safety {σ R : Type} [Zero R] [One R] [Sub R] [Neg R]
    (G : GSG σ R) (P : GenericStochasticProcess R) (hP : P.WellFormed) (grid : TimeGrid R)
    (generator : σ) (g0 : MultiPathGenerator σ R)
    (hc : New.construct G P grid generator false = .ok g0)
    (calls : List Bool) (hcalls : New.Succeeds G calls g0) (a : Bool)
    (hz : (G.drawFor (New.run G calls g0).generator_ a).value.length
      = P.size * (grid.size - 1)) :
    (∃ s, (New.nextWith G (New.run G calls g0) a).result = .ok s) ∧
    (New.nextWith G (New.run G calls g0) a).result ≠ .error .outOfRange ∧
    New.visitedSteps (New.run G calls g0).process_ (New.run G calls g0).next_.value
      (G.drawFor (New.run G calls g0).generator_ a).value a
      = List.range' 1 (grid.size - 1) ∧
    ∀ i, 1 ≤ i → i < grid.size →
      (i - 1) * P.size + P.size
        ≤ (G.drawFor (New.run G calls g0).generator_ a).value.length ∧
      (∃ sl, slice (G.drawFor (New.run G calls g0).generator_ a).value ((i - 1) * P.size)
        P.size = .ok sl) ∧
      i - 1 < grid.size - 1 ∧
      (∃ t, grid.get (i - 1) = .ok t) ∧ (∃ dt, grid.dt (i - 1) = .ok dt) ∧
      ∀ p ∈ (New.run G calls g0).next_.value.multiPath_,
        p.length = grid.size ∧ ∀ x, ∃ q, p.setValue i x = .ok q := by
  obtain ⟨hvalid, hm⟩ := New.fused_valid_of_construct G P grid generator g0 hc calls hcalls
  obtain ⟨s, hgen, _, _, _⟩ := New.fused_generate_spec P hP grid (by omega)
    (New.run G calls g0).next_.value hvalid.shaped _ hz a
  have hgen2 : New.generate (New.run G calls g0).process_ (New.run G calls g0).next_.value
      (if a = true then G.lastSequence (New.run G calls g0).generator_
        else (G.nextSequence (New.run G calls g0).generator_).2) a = .ok s := by
    rw [hvalid.process]; exact hgen
  obtain ⟨path, p0, hpath, hp0, hvis⟩ := New.fused_visited_of_ok _ _ _ _ _ hgen2
  have hs1 : path.Shaped grid P.size := hvalid.shaped.of_new_frame (forLoop_preserves _
      (fun s : MultiPath R => s.multiPath_.map New.frameKey
        = (New.run G calls g0).next_.value.multiPath_.map New.frameKey)
      (fun j s s1 hs hb => (New.writeBody_frame _ _ j s s1 hb).trans hs) _ _ _ _ rfl hpath)
  obtain ⟨q0, hq0, _, hv0, _⟩ := hs1.getElem? hP.size_pos
  have hpq : p0 = q0 := by
    have := getAt_ok_iff.1 hp0
    rw [hq0] at this
    exact (Option.some.inj this).symm
  subst hpq
  have hres : (New.nextWith G (New.run G calls g0) a).result = .ok s := by
    rw [New.fused_nextWith_of_generate G _ a s hvalid.flag hgen2]
  have hne : (New.nextWith G (New.run G calls g0) a).result ≠ .error .outOfRange := by
    rw [hres]
    intro h
    cases h
  refine ⟨⟨s, hres⟩, hne, ?_, ?_⟩
  · have : p0.length = grid.size := hv0
    rw [← this]
    exact hvis
  · intro i hi1 hi2
    have hb : (i - 1) * P.size + P.size
        ≤ (G.drawFor (New.run G calls g0).generator_ a).value.length := by
      rw [hz]; exact slice_bound (i - 1) P.size grid.size (by omega)
    obtain ⟨t, ht, _⟩ := grid.get_ok (i - 1) (by omega)
    obtain ⟨ta, tb, _, _, hdt⟩ := grid.dt_ok (i - 1) (by omega)
    refine ⟨hb, ⟨_, (slice_ok _ _ _ hb).1⟩, by omega, ⟨t, ht⟩, ⟨_, hdt⟩, ?_⟩
    intro p hp
    obtain ⟨_, h2, _, _⟩ := hvalid.shaped.2 p hp
    exact ⟨h2, fun x => ⟨_, Path.setValue_ok_iff.2 ⟨by omega, rfl⟩⟩⟩

/-- Instance of C14: the `next()` that follows a `next()` and an `antithetic()` of
`generator4` runs the grid indices `1, 2` and reports no out-of-range access. -/
theorem New.index_safety_witness :
    (New.nextWith Example.source4
      (New.run Example.source4 [false, true] Example.generator4) false).result
      ≠ .error .outOfRange ∧
    New.visitedSteps (New.run Example.source4 [false, true] Example.generator4).process_
      (New.run Example.source4 [false, true] Example.generator4).next_.value
      (Example.source4.drawFor
        (New.run Example.source4 [false, true] Example.generator4).generator_ false).value
      false = List.range' 1 (Example.grid3.size - 1) :=
  ⟨(New.index_safety Example.source4 (Example.linear 2)
      (Example.linear_wellFormed 2 (by decide)) Example.grid3 0 Example.generator4 rfl
      [false, true] ⟨by decide, by decide, trivial⟩ false (by decide)).2.1,
    (New.index_safety Example.source4 (Example.linear 2)
      (Example.linear_wellFormed 2 (by decide)) Example.grid3 0 Example.generator4 rfl
      [false, true] ⟨by decide, by decide, trivial⟩ false (by decide)).2.2.1⟩

/-! ## What a generation call leaves in the buffer does not depend on what it found there -/

theorem MultiPath.driftAt_of_getElem? {R : Type} {mp : MultiPath R} {j : Nat} {p : Path R}
    (h : mp.multiPath_[j]? = some p) (i : Nat) :
    mp.driftAt j i = p.drift_[i]? ∧ mp.diffusionAt j i = p.diffusion_[i]? ∧
      mp.valueAt j i = p.values_[i]? := by
  simp [MultiPath.driftAt, MultiPath.diffusionAt, MultiPath.valueAt, h]

/-- The increments of step `k` are determined by the records of step `k`. -/
theorem MultiPath.increments_congr {R : Type} [Zero R] [Add R] (mp1 mp2 : MultiPath R)
    (n k : Nat) (h1 : mp1.multiPath_.length = n) (h2 : mp2.multiPath_.length = n)
    (h : ∀ j, j < n → mp1.driftAt j k = mp2.driftAt j k ∧
      mp1.diffusionAt j k = mp2.diffusionAt j k) :
    mp1.increments k = mp2.increments k := by
  apply List.ext_getElem?
  intro j
  unfold MultiPath.increments
  rw [List.getElem?_map, List.getElem?_map]
  by_cases hj : j < n
  · have e1 : mp1.multiPath_[j]? = some mp1.multiPath_[j] :=
      List.getElem?_eq_getElem (by omega)
    have e2 : mp2.multiPath_[j]? = some mp2.multiPath_[j] :=
      List.getElem?_eq_getElem (by omega)
    obtain ⟨a1, a2, _⟩ := MultiPath.driftAt_of_getElem? e1 k
    obtain ⟨b1, b2, _⟩ := MultiPath.driftAt_of_getElem? e2 k
    obtain ⟨c1, c2⟩ := h j hj
    rw [a1, b1] at c1
    rw [a2, b2] at c2
    rw [e1, e2]
    simp only [Option.map_some', List.getD_eq_getElem?_getD, c1, c2]
  · rw [List.getElem?_eq_none (by omega), List.getElem?_eq_none (by omega)]

/-- Two MultiPaths with `n` Paths whose records both follow the decomposed recursion on
the same draw hold the same records. -/
theorem Old.records_unique {R : Type} [Zero R] [Add R] [Sub R] [Mul R] [Neg R]
    (P : GenericStochasticProcess R) (grid : TimeGrid R) (z : List R) (a : Bool)
    (mp1 mp2 : MultiPath R) (L : Nat)
    (h1 : mp1.multiPath_.length = P.size) (h2 : mp2.multiPath_.length = P.size)
    (r1 : Old.Recorded P grid z a mp1 L) (r2 : Old.Recorded P grid z a mp2 L) :
    ∀ i, i < L → ∀ j, j < P.size → mp1.driftAt j i = mp2.driftAt j i ∧
      mp1.diffusionAt j i = mp2.diffusionAt j i := by
  intro i
  induction i using Nat.strong_induction_on with
  | _ i ih =>
    intro hi j hj
    have hst : Old.recordedState P mp2 i = Old.recordedState P mp1 i :=
      Old.recordedState_congr P mp1 mp2 i (fun k hk =>
        (MultiPath.increments_congr mp1 mp2 P.size k h1 h2
          (fun j hj => ih k hk (by omega) j hj)).symm)
    obtain ⟨t, dt, ht, hdt, hr1⟩ := r1 i hi
    obtain ⟨t2, dt2, ht2, hdt2, hr2⟩ := r2 i hi
    obtain rfl := Except.ok_inj_of_eq ht ht2
    obtain rfl := Except.ok_inj_of_eq hdt hdt2
    obtain ⟨d, f, a1, a2, a3, a4⟩ := hr1 j hj
    obtain ⟨d2, f2, b1, b2, b3, b4⟩ := hr2 j hj
    rw [hst, a1] at b1
    rw [hst, a2] at b2
    cases b1
    cases b2
    exact ⟨a3.trans b3.symm, a4.trans b4.symm⟩

theorem Path.ext_fields {R : Type} (p q : Path R) (h1 : p.timeGrid_ = q.timeGrid_)
    (h2 : p.values_ = q.values_) (h3 : p.drift_ = q.drift_)
    (h4 : p.diffusion_ = q.diffusion_) : p = q := by
  cases p
  cases q
  simp only at h1 h2 h3 h4
  subst h1 h2 h3 h4
  rfl

theorem list_eq_of_getElem? {R : Type} (l1 l2 : List R) (L : Nat) (h1 : l1.length = L)
    (h2 : l2.length = L) (h : ∀ i, i < L → l1[i]? = l2[i]?) : l1 = l2 := by
  apply List.ext_getElem?
  intro i
  by_cases hi : i < L
  · exact h i hi
  · rw [List.getElem?_eq_none (by omega), List.getElem?_eq_none (by omega)]

/-- Two MultiPaths of the same shape with the same values and the same records are equal. -/
theorem MultiPath.eq_of_views {R : Type} (mp1 mp2 : MultiPath R) (grid : TimeGrid R)
    (n : Nat) (s1 : mp1.Shaped grid n) (s2 : mp2.Shaped grid n)
    (hv : ∀ j i, j < n → i < grid.size → mp1.valueAt j i = mp2.valueAt j i)
    (hr : ∀ j i, j < n → i < grid.size - 1 → mp1.driftAt j i = mp2.driftAt j i ∧
      mp1.diffusionAt j i = mp2.diffusionAt j i) : mp1 = mp2 := by
  have hl : mp1.multiPath_ = mp2.multiPath_ := by
    apply List.ext_getElem?
    intro j
    by_cases hj : j < n
    · obtain ⟨p, hp, pg, pv, pd, pf⟩ := s1.getElem? hj
      obtain ⟨q, hq, qg, qv, qd, qf⟩ := s2.getElem? hj
      rw [hp, hq]
      congr 1
      apply Path.ext_fields
      · rw [pg, qg]
      · apply list_eq_of_getElem? _ _ grid.size pv qv
        intro i hi
        rw [← (MultiPath.driftAt_of_getElem? hp i).2.2,
          ← (MultiPath.driftAt_of_getElem? hq i).2.2]
        exact hv j i hj hi
      · apply list_eq_of_getElem? _ _ (grid.size - 1) pd qd
        intro i hi
        rw [← (MultiPath.driftAt_of_getElem? hp i).1, ← (MultiPath.driftAt_of_getElem? hq i).1]
        exact (hr j i hj hi).1
      · apply list_eq_of_getElem? _ _ (grid.size - 1) pf qf
        intro i hi
        rw [← (MultiPath.driftAt_of_getElem? hp i).2.1,
          ← (MultiPath.driftAt_of_getElem? hq i).2.1]
        exact (hr j i hj hi).2
    · rw [List.getElem?_eq_none (by rw [s1.1]; omega),
        List.getElem?_eq_none (by rw [s2.1]; omega)]
  cases mp1
  cases mp2
  simp only at hl
  rw [hl]

theorem MultiPath.driftAt_congr {R : Type} (mp1 mp2 : MultiPath R)
    (h : mp1.multiPath_.map Path.drift_ = mp2.multiPath_.map Path.drift_) (j i : Nat) :
    mp1.driftAt j i = mp2.driftAt j i := by
  have hj := congrArg (fun l => l[j]?) h
  simp only [List.getElem?_map] at hj
  unfold MultiPath.driftAt
  cases h1 : mp1.multiPath_[j]? <;> cases h2 : mp2.multiPath_[j]? <;>
    simp [h1, h2] at hj ⊢
  rw [hj]

theorem MultiPath.diffusionAt_congr {R : Type} (mp1 mp2 : MultiPath R)
    (h : mp1.multiPath_.map Path.diffusion_ = mp2.multiPath_.map Path.diffusion_)
    (j i : Nat) : mp1.diffusionAt j i = mp2.diffusionAt j i := by
  have hj := congrArg (fun l => l[j]?) h
  simp only [List.getElem?_map] at hj
  unfold MultiPath.diffusionAt
  cases h1 : mp1.multiPath_[j]? <;> cases h2 : mp2.multiPath_[j]? <;>
    simp [h1, h2] at hj ⊢
  rw [hj]

/-- The decomposed generation returns the same from two buffers of the constructed shape
that hold the same values, whatever records they hold: every record is rewritten. -/
theorem Old.decomposed_generate_independent {R : Type} [Zero R] [Add R] [Sub R] [Mul R]
    [Neg R] (P : GenericStochasticProcess R) (hP : P.WellFormed) (grid : TimeGrid R)
    (buf1 buf2 : MultiPath R) (hs1 : buf1.Shaped grid P.size) (hs2 : buf2.Shaped grid P.size)
    (hval : buf1.multiPath_.map Path.values_ = buf2.multiPath_.map Path.values_)
    (zs : Sample (List R) R) (hz : zs.value.length = P.size * (grid.size - 1)) (a : Bool) :
    ∃ s, Old.generate P buf1 zs a = .ok s ∧ Old.generate P buf2 zs a = .ok s := by
  obtain ⟨s1, g1, w1, sh1, r1⟩ := Old.decomposed_generate_spec P hP grid buf1 hs1 zs hz a
  obtain ⟨s2, g2, w2, sh2, r2⟩ := Old.decomposed_generate_spec P hP grid buf2 hs2 zs hz a
  have v1 := map_eq_of_map_eq Old.frameKey (fun k => k.2.1) _ _
    (Old.decomposed_generate_frame _ _ _ _ _ g1)
  have v2 := map_eq_of_map_eq Old.frameKey (fun k => k.2.1) _ _
    (Old.decomposed_generate_frame _ _ _ _ _ g2)
  have hv : s1.value.multiPath_.map Path.values_ = s2.value.multiPath_.map Path.values_ :=
    (v1.trans hval).trans v2.symm
  have hrec := Old.records_unique P grid zs.value a s1.value s2.value (grid.size - 1)
    sh1.1 sh2.1 r1 r2
  have heq : s1.value = s2.value :=
    MultiPath.eq_of_views _ _ grid P.size sh1 sh2
      (fun j i _ _ => MultiPath.valueAt_congr _ _ hv j i)
      (fun j i hj hi => hrec i hi j hj)
  have : s1 = s2 := by
    cases s1
    cases s2
    simp only at heq w1 w2
    rw [heq, w1, w2]
  exact ⟨s1, g1, this ▸ g2⟩

/-- Two MultiPaths whose values both follow the fused recursion on the same draw hold the
same vector of values at every grid index. -/
theorem New.columns_unique {R : Type} [Zero R] [Sub R] [Neg R]
    (P : GenericStochasticProcess R) (grid : TimeGrid R) (z : List R) (a : Bool)
    (mp1 mp2 : MultiPath R) (m : Nat)
    (e1 : New.Evolved P grid z a mp1 m) (e2 : New.Evolved P grid z a mp2 m) :
    ∀ i, i < m → mp1.column i = mp2.column i := by
  intro i
  induction i with
  | zero => intro _; rw [e1.1, e2.1]
  | succ i ih =>
    intro hi
    obtain ⟨t, dt, ht, hdt, c1⟩ := e1.2 (i + 1) (by omega) hi
    obtain ⟨t2, dt2, ht2, hdt2, c2⟩ := e2.2 (i + 1) (by omega) hi
    obtain rfl := Except.ok_inj_of_eq ht ht2
    obtain rfl := Except.ok_inj_of_eq hdt hdt2
    rw [c1, c2]
    simp only [Nat.add_sub_cancel]
    rw [ih (by omega)]

/-- The fused generation returns the same from two buffers of the constructed shape that
hold the same records, whatever values they hold: every value is rewritten. -/
theorem New.fused_generate_independent {R : Type} [Zero R] [Sub R] [Neg R]
    (P : GenericStochasticProcess R) (hP : P.WellFormed) (grid : TimeGrid R)
    (hm : 1 ≤ grid.size)
    (buf1 buf2 : MultiPath R) (hs1 : buf1.Shaped grid P.size) (hs2 : buf2.Shaped grid P.size)
    (hd : buf1.multiPath_.map Path.drift_ = buf2.multiPath_.map Path.drift_)
    (hf : buf1.multiPath_.map Path.diffusion_ = buf2.multiPath_.map Path.diffusion_)
    (zs : Sample (List R) R) (hz : zs.value.length = P.size * (grid.size - 1)) (a : Bool) :
    ∃ s, New.generate P buf1 zs a = .ok s ∧ New.generate P buf2 zs a = .ok s := by
  obtain ⟨s1, g1, w1, sh1, r1⟩ := New.fused_generate_spec P hP grid hm buf1 hs1 zs hz a
  obtain ⟨s2, g2, w2, sh2, r2⟩ := New.fused_generate_spec P hP grid hm buf2 hs2 zs hz a
  have d1 := map_eq_of_map_eq New.frameKey (fun k => k.2.2.1) _ _
    (New.fused_generate_frame _ _ _ _ _ g1)
  have d2 := map_eq_of_map_eq New.frameKey (fun k => k.2.2.1) _ _
    (New.fused_generate_frame _ _ _ _ _ g2)
  have f1 := map_eq_of_map_eq New.frameKey (fun k => k.2.2.2) _ _
    (New.fused_generate_frame _ _ _ _ _ g1)
  have f2 := map_eq_of_map_eq New.frameKey (fun k => k.2.2.2) _ _
    (New.fused_generate_frame _ _ _ _ _ g2)
  have hcol := New.columns_unique P grid zs.value a s1.value s2.value grid.size r1 r2
  have heq : s1.value = s2.value :=
    MultiPath.eq_of_views _ _ grid P.size sh1 sh2
      (fun j i hj hi => by
        rw [(MultiPath.valueAt_eq_column sh1 hj hi).1,
          (MultiPath.valueAt_eq_column sh2 hj hi).1, hcol i hi])
      (fun j i _ _ => ⟨MultiPath.driftAt_congr _ _ ((d1.trans hd).trans d2.symm) j i,
        MultiPath.diffusionAt_congr _ _ ((f1.trans hf).trans f2.symm) j i⟩)
  have : s1 = s2 := by
    cases s1
    cases s2
    simp only at heq w1 w2
    rw [heq, w1, w2]
  exact ⟨s1, g1, this ▸ g2⟩

/-! ## The two strategies on an Euler-consistent process -/

/-- The increments of step `i` as a vector, from the records of step `i`. -/
theorem MultiPath.increments_eq {R : Type} [Zero R] [Add R] (mp : MultiPath R) (n i : Nat)
    (l : List R) (h1 : mp.multiPath_.length = n) (hl : l.length = n)
    (h : ∀ j, j < n → ∃ a b, mp.driftAt j i = some a ∧ mp.diffusionAt j i = some b ∧
      l[j]? = some (a + b)) :
    mp.increments i = l := by
  apply List.ext_getElem?
  intro j
  unfold MultiPath.increments
  rw [List.getElem?_map]
  by_cases hj : j < n
  · have e1 : mp.multiPath_[j]? = some mp.multiPath_[j] :=
      List.getElem?_eq_getElem (by omega)
    obtain ⟨a1, a2, _⟩ := MultiPath.driftAt_of_getElem? e1 i
    obtain ⟨a, b, c1, c2, c3⟩ := h j hj
    rw [a1] at c1
    rw [a2] at c2
    rw [e1, c3]
    simp only [Option.map_some', List.getD_eq_getElem?_getD, c1, c2, Option.getD_some]
  · rw [List.getElem?_eq_none (by omega), List.getElem?_eq_none (by omega)]
    rfl

/-- On an Euler-consistent process, the values written by the fused strategy are the
states of the decomposed strategy on the same draw. -/
theorem fused_values_eq_decomposed_states {R : Type} [CommRing R]
    (P : GenericStochasticProcess R) (hP : P.WellFormed) (hE : P.EulerConsistent)
    (grid : TimeGrid R) (z : List R) (hz : z.length = P.size * (grid.size - 1)) (a : Bool)
    (mpO mpN : MultiPath R) (hO : mpO.multiPath_.length = P.size)
    (rO : Old.Recorded P grid z a mpO (grid.size - 1))
    (eN : New.Evolved P grid z a mpN grid.size) :
    ∀ i, i < grid.size → mpN.column i = Old.recordedState P mpO i ∧
      (Old.recordedState P mpO i).length = P.size := by
  intro i
  induction i with
  | zero => intro _; exact ⟨eN.1, hP.initialValues_length⟩
  | succ i ih =>
    intro hi
    obtain ⟨hcol, hlen⟩ := ih (by omega)
    obtain ⟨t, dt, ht, hdt, c⟩ := eN.2 (i + 1) (by omega) hi
    obtain ⟨t2, dt2, ht2, hdt2, r⟩ := rO i (by omega)
    simp only [Nat.add_sub_cancel] at ht hdt c
    obtain rfl := Except.ok_inj_of_eq ht ht2
    obtain rfl := Except.ok_inj_of_eq hdt hdt2
    have hsl := signedSlice_length a z i P.size
      (by rw [hz]; exact slice_bound i P.size grid.size hi)
    have hinc : mpO.increments i =
        List.zipWith (fun u v => u + v)
          ((P.drift t (Old.recordedState P mpO i)).map (fun d => d * dt))
          (arrayMul (P.stdDeviation t (Old.recordedState P mpO i) dt)
            (signedSlice a z i P.size)) := by
      apply MultiPath.increments_eq mpO P.size i _ hO
      · simp [arrayMul, hP.drift_length t _ hlen, hP.stdDeviation_length t _ dt hlen, hsl]
      · intro j hj
        obtain ⟨d, f, a1, a2, a3, a4⟩ := r j hj
        refine ⟨dt * d, f, a3, a4, ?_⟩
        rw [List.getElem?_zipWith, List.getElem?_map, a1, a2]
        simp [mul_comm]
    have hstate : Old.recordedState P mpO (i + 1) = mpN.column (i + 1) := by
      simp only [Old.recordedState]
      rw [c, hcol, hE, hinc]
    refine ⟨hstate.symm, ?_⟩
    simp only [Old.recordedState]
    refine hP.apply_length _ _ hlen ?_
    rw [hinc]
    simp [arrayMul, hP.drift_length t _ hlen, hP.stdDeviation_length t _ dt hlen, hsl]

/-- C15. Strategy equivalence under an Euler-consistent process: for every well-formed
process with `evolve(t, x, dt, z) = apply(x, drift(t, x) * dt + stdDeviation(t, x, dt) * z)`
for all arguments, every grid and every draw of `n * (m - 1)` components, a call on a
valid generator of each strategy with that draw (`a = false` for `next()`, `a = true` for
`antithetic()`) succeeds, the state sequence of the decomposed strategy equals the values
written by the fused strategy, and for every step `i` in `0 .. m-2` the fused values at
index `i+1` equal `apply` of the fused values at index `i` and of the sum of the
decomposed drift record and the decomposed diffusion record at `i`. -/
theorem strategies_agree {σ τ R : Type} [CommRing R] (GO : GSG σ R) (GN : GSG τ R)
    (P : GenericStochasticProcess R) (hP : P.WellFormed) (hE : P.EulerConsistent)
    (grid : TimeGrid R) (hm : 1 ≤ grid.size)
    (gO : MultiPathGenerator σ R) (gN : MultiPathGenerator τ R)
    (hO : gO.Valid P grid) (hN : gN.Valid P grid) (a : Bool) (z : Sample (List R) R)
    (hdO : GO.drawFor gO.generator_ a = z) (hdN : GN.drawFor gN.generator_ a = z)
    (hz : z.value.length = P.size * (grid.size - 1)) :
    ∃ sO sN, (Old.nextWith GO gO a).result = .ok sO ∧
      (New.nextWith GN gN a).result = .ok sN ∧
      (∀ i, i < grid.size → sN.value.column i = Old.recordedState P sO.value i) ∧
      ∀ i, i + 1 < grid.size →
        sN.value.column (i + 1) = P.apply (sN.value.column i) (sO.value.increments i) := by
  obtain ⟨sO, gO1, _, shO, rO⟩ := Old.decomposed_generate_spec P hP grid
    gO.next_.value hO.shaped z hz a
  obtain ⟨sN, gN1, _, shN, eN⟩ := New.fused_generate_spec P hP grid hm
    gN.next_.value hN.shaped z hz a
  have eO : Old.generate P gO.next_.value (GO.drawFor gO.generator_ a) a = .ok sO := by
    rw [hdO]; exact gO1
  have eN1 : New.generate P gN.next_.value (GN.drawFor gN.generator_ a) a = .ok sN := by
    rw [hdN]; exact gN1
  have hres1 : (Old.nextWith GO gO a).result = .ok sO := by
    rw [Old.decomposed_nextWith_of_generate GO gO a sO hO.flag
      (by rw [hO.process]; exact eO)]
  have hres2 : (New.nextWith GN gN a).result = .ok sN := by
    rw [New.fused_nextWith_of_generate GN gN a sN hN.flag
      (by rw [hN.process]; exact eN1)]
  have key := fused_values_eq_decomposed_states P hP hE grid z.value hz a sO.value sN.value
    shO.1 rO eN
  refine ⟨sO, sN, hres1, hres2, fun i hi => (key i hi).1, ?_⟩
  intro i hi
  rw [(key (i + 1) hi).1, (key i (by omega)).1]
  rfl

theorem Example.linear_eulerConsistent (n : Nat) : (Example.linear n).EulerConsistent :=
  fun _ _ _ _ => rfl

/-- Instance of C15: the first `next()` of both strategies for `linear 1` over the grid
`0, 1, 2` with the draw `[1, 1]`. -/
theorem strategies_agree_witness :
    ∃ sO sN, (Old.nextWith Example.source2 Example.generator2 false).result = .ok sO ∧
      (New.nextWith Example.source2 Example.generator2 false).result = .ok sN ∧
      (∀ i, i < Example.grid3.size →
        sN.value.column i = Old.recordedState (Example.linear 1) sO.value i) ∧
      ∀ i, i + 1 < Example.grid3.size →
        sN.value.column (i + 1) =
          (Example.linear 1).apply (sN.value.column i) (sO.value.increments i) :=
  strategies_agree Example.source2 Example.source2 (Example.linear 1)
    (Example.linear_wellFormed 1 (by decide)) (Example.linear_eulerConsistent 1)
    Example.grid3 (by decide) Example.generator2 Example.generator2
    ⟨rfl, rfl, MultiPath.ofGrid_shaped 1 Example.grid3⟩
    ⟨rfl, rfl, MultiPath.ofGrid_shaped 1 Example.grid3⟩ false ⟨[1, 1], 5⟩
    (by decide) (by decide) (by decide)

/-! ## How the source is used -/

/-- With the flag off, the source of the decomposed strategy has advanced by as many draws
as there were calls of `next()`, whatever calls of `antithetic()` were interleaved. -/
theorem Old.decomposed_run_source {σ R : Type} [Zero R] [Add R] [Sub R] [Mul R] [Neg R]
    (G : GSG σ R) :
    ∀ (calls : List Bool) (g : MultiPathGenerator σ R), g.brownianBridge_ = false →
      (Old.run G calls g).generator_ = G.stateAfter (calls.count false) g.generator_ := by
  intro calls
  induction calls with
  | nil => intro g _; rfl
  | cons a calls ih =>
    intro g hb
    obtain ⟨m1, m2, _⟩ := Old.decomposed_nextWith_members G g a
    simp only [Old.run]
    rw [ih _ (m2.trans hb), m1]
    cases a with
    | true => simp [hb]
    | false => simp [hb, GSG.stateAfter]

/-- With the flag off, the source of the fused strategy has advanced by as many draws as
there were calls of `next()`, whatever calls of `antithetic()` were interleaved. -/
theorem New.fused_run_source {σ R : Type} [Sub R] [Neg R] (G : GSG σ R) :
    ∀ (calls : List Bool) (g : MultiPathGenerator σ R), g.brownianBridge_ = false →
      (New.run G calls g).generator_ = G.stateAfter (calls.count false) g.generator_ := by
  intro calls
  induction calls with
  | nil => intro g _; rfl
  | cons a calls ih =>
    intro g hb
    obtain ⟨m1, m2, _⟩ := New.fused_nextWith_members G g a
    simp only [New.run]
    rw [ih _ (m2.trans hb), m1]
    cases a with
    | true => simp [hb]
    | false => simp [hb, GSG.stateAfter]

/-- Successful calls of the decomposed strategy never change the values of the buffer. -/
theorem Old.decomposed_run_frame {σ R : Type} [Zero R] [Add R] [Sub R] [Mul R] [Neg R]
    (G : GSG σ R) :
    ∀ (calls : List Bool) (g : MultiPathGenerator σ R), Old.Succeeds G calls g →
      (Old.run G calls g).next_.value.multiPath_.map Old.frameKey =
        g.next_.value.multiPath_.map Old.frameKey := by
  intro calls
  induction calls with
  | nil => intro g _; rfl
  | cons a calls ih =>
    intro g hs
    obtain ⟨s, hr⟩ := (isOk_iff _).1 hs.1
    obtain ⟨_, hg, he⟩ := Old.decomposed_nextWith_ok G g a s hr
    simp only [Old.run]
    rw [ih _ hs.2, he]
    exact Old.decomposed_generate_frame _ _ _ _ _ hg

/-- Successful calls of the fused strategy never change the records of the buffer. -/
theorem New.fused_run_frame {σ R : Type} [Sub R] [Neg R] (G : GSG σ R) :
    ∀ (calls : List Bool) (g : MultiPathGenerator σ R), New.Succeeds G calls g →
      (New.run G calls g).next_.value.multiPath_.map New.frameKey =
        g.next_.value.multiPath_.map New.frameKey := by
  intro calls
  induction calls with
  | nil => intro g _; rfl
  | cons a calls ih =>
    intro g hs
    obtain ⟨s, hr⟩ := (isOk_iff _).1 hs.1
    obtain ⟨_, hg, he⟩ := New.fused_nextWith_ok G g a s hr
    simp only [New.run]
    rw [ih _ hs.2, he]
    exact New.fused_generate_frame _ _ _ _ _ hg

/-- Two consecutive calls of `Old::antithetic()` return the same sample. -/
theorem Old.decomposed_antithetic_twice {σ R : Type} [Zero R] [Add R] [Sub R] [Mul R] [Neg R]
    (G : GSG σ R) (P : GenericStochasticProcess R) (hP : P.WellFormed) (grid : TimeGrid R)
    (g : MultiPathGenerator σ R) (hvalid : g.Valid P grid)
    (hz : (G.lastSequence g.generator_).value.length = P.size * (grid.size - 1)) :
    ∃ s, (Old.antithetic G g).result = .ok s ∧
      (Old.antithetic G (Old.antithetic G g).self).result = .ok s := by
  obtain ⟨s, g1, _, sh, _⟩ := Old.decomposed_generate_spec P hP grid g.next_.value
    hvalid.shaped (G.lastSequence g.generator_) hz true
  have hval := map_eq_of_map_eq Old.frameKey (fun k => k.2.1) _ _
    (Old.decomposed_generate_frame _ _ _ _ _ g1)
  obtain ⟨s2, e1, e2⟩ := Old.decomposed_generate_independent P hP grid s.value g.next_.value
    sh hvalid.shaped hval (G.lastSequence g.generator_) hz true
  rw [g1] at e2
  cases e2
  have h1 := Old.decomposed_nextWith_of_generate G g true s hvalid.flag
    (by rw [hvalid.process]; exact g1)
  simp only [if_true] at h1
  refine ⟨s, by rw [Old.antithetic, h1], ?_⟩
  simp only [Old.antithetic]
  rw [h1]
  have h2 := Old.decomposed_nextWith_of_generate G
    { g with generator_ := g.generator_, next_ := s } true s hvalid.flag
    (by simp only [if_true]; rw [hvalid.process]; exact e1)
  rw [h2]

/-- Two consecutive calls of `New::antithetic()` return the same sample. -/
theorem New.fused_antithetic_twice {σ R : Type} [Zero R] [Sub R] [Neg R]
    (G : GSG σ R) (P : GenericStochasticProcess R) (hP : P.WellFormed) (grid : TimeGrid R)
    (hm : 1 ≤ grid.size) (g : MultiPathGenerator σ R) (hvalid : g.Valid P grid)
    (hz : (G.lastSequence g.generator_).value.length = P.size * (grid.size - 1)) :
    ∃ s, (New.antithetic G g).result = .ok s ∧
      (New.antithetic G (New.antithetic G g).self).result = .ok s := by
  obtain ⟨s, g1, _, sh, _⟩ := New.fused_generate_spec P hP grid hm g.next_.value
    hvalid.shaped (G.lastSequence g.generator_) hz true
  have hd := map_eq_of_map_eq New.frameKey (fun k => k.2.2.1) _ _
    (New.fused_generate_frame _ _ _ _ _ g1)
  have hf := map_eq_of_map_eq New.frameKey (fun k => k.2.2.2) _ _
    (New.fused_generate_frame _ _ _ _ _ g1)
  obtain ⟨s2, e1, e2⟩ := New.fused_generate_independent P hP grid hm s.value g.next_.value
    sh hvalid.shaped hd hf (G.lastSequence g.generator_) hz true
  rw [g1] at e2
  cases e2
  have h1 := New.fused_nextWith_of_generate G g true s hvalid.flag
    (by rw [hvalid.process]; exact g1)
  simp only [if_true] at h1
  refine ⟨s, by rw [New.antithetic, h1], ?_⟩
  simp only [New.antithetic]
  rw [h1]
  have h2 := New.fused_nextWith_of_generate G
    { g with generator_ := g.generator_, next_ := s } true s hvalid.flag
    (by simp only [if_true]; rw [hvalid.process]; exact e1)
  rw [h2]

/-- A call of the decomposed strategy that returns a sample found the flag unset. -/
theorem Old.decomposed_flag_of_ok {σ R : Type} [Zero R] [Add R] [Sub R] [Mul R] [Neg R]
    (G : GSG σ R) (g : MultiPathGenerator σ R) (a : Bool) (s : Sample (MultiPath R) R)
    (h : (Old.nextWith G g a).result = .ok s) : g.brownianBridge_ = false := by
  cases hb : g.brownianBridge_ with
  | false => rfl
  | true =>
    rw [Old.decomposed_nextWith_bridge G g a hb] at h
    cases h

/-- A call of the fused strategy that returns a sample found the flag unset. -/
theorem New.fused_flag_of_ok {σ R : Type} [Sub R] [Neg R]
    (G : GSG σ R) (g : MultiPathGenerator σ R) (a : Bool) (s : Sample (MultiPath R) R)
    (h : (New.nextWith G g a).result = .ok s) : g.brownianBridge_ = false := by
  cases hb : g.brownianBridge_ with
  | false => rfl
  | true =>
    rw [New.fused_nextWith_bridge G g a hb] at h
    cases h

/-- After any successful history of a generator built by the decomposed constructor, the
sample of `next()` is the one generated on the constructor's buffer from the draw of the
source whose index is the number of earlier calls of `next()`. -/
theorem Old.decomposed_next_from_draw {σ R : Type} [Zero R] [One R] [Add R] [Sub R] [Mul R]
    [Neg R] (G : GSG σ R) (P : GenericStochasticProcess R) (hP : P.WellFormed)
    (grid : TimeGrid R) (generator : σ) (g0 : MultiPathGenerator σ R)
    (hc : Old.construct G P grid generator false = .ok g0)
    (calls : List Bool) (hs : Old.Succeeds G calls g0)
    (hz : (G.drawAt generator (calls.count false)).value.length =
      P.size * (grid.size - 1)) :
    ∃ s, (Old.next G (Old.run G calls g0)).result = .ok s ∧
      Old.generate P (MultiPath.ofGrid P.size grid)
        (G.drawAt generator (calls.count false)) false = .ok s := by
  obtain ⟨hvalid, _⟩ := Old.decomposed_valid_of_construct G P grid generator g0 hc calls hs
  obtain ⟨_, hg0⟩ := Old.decomposed_construct_ok G P grid generator false g0 hc
  have hsrc := Old.decomposed_run_source G calls g0 (by rw [hg0])
  have hfr := map_eq_of_map_eq Old.frameKey (fun k => k.2.1) _ _
    (Old.decomposed_run_frame G calls g0 hs)
  rw [hg0] at hsrc hfr
  rw [hg0] at hvalid
  obtain ⟨s, e1, e2⟩ := Old.decomposed_generate_independent P hP grid _
    (MultiPath.ofGrid P.size grid) hvalid.shaped (MultiPath.ofGrid_shaped _ _) hfr
    (G.drawAt generator (calls.count false)) hz false
  have h1 := Old.decomposed_nextWith_of_generate G _ false s hvalid.flag
    (by
      simp only [Bool.false_eq_true, if_false]
      rw [hvalid.process, hsrc]
      exact e1)
  rw [hg0]
  exact ⟨s, by rw [Old.next, h1], e2⟩

/-- After any successful history of a generator built by the fused constructor, the sample
of `next()` is the one generated on the constructor's buffer from the draw of the source
whose index is the number of earlier calls of `next()`. -/
theorem New.fused_next_from_draw {σ R : Type} [Zero R] [One R] [Sub R] [Neg R]
    (G : GSG σ R) (P : GenericStochasticProcess R) (hP : P.WellFormed)
    (grid : TimeGrid R) (generator : σ) (g0 : MultiPathGenerator σ R)
    (hc : New.construct G P grid generator false = .ok g0)
    (calls : List Bool) (hs : New.Succeeds G calls g0)
    (hz : (G.drawAt generator (calls.count false)).value.length =
      P.size * (grid.size - 1)) :
    ∃ s, (New.next G (New.run G calls g0)).result = .ok s ∧
      New.generate P (MultiPath.ofGrid P.size grid)
        (G.drawAt generator (calls.count false)) false = .ok s := by
  obtain ⟨hvalid, hm⟩ := New.fused_valid_of_construct G P grid generator g0 hc calls hs
  obtain ⟨_, hg0⟩ := New.fused_construct_ok G P grid generator false g0 hc
  have hsrc := New.fused_run_source G calls g0 (by rw [hg0])
  have hd := map_eq_of_map_eq New.frameKey (fun k => k.2.2.1) _ _
    (New.fused_run_frame G calls g0 hs)
  have hf := map_eq_of_map_eq New.frameKey (fun k => k.2.2.2) _ _
    (New.fused_run_frame G calls g0 hs)
  rw [hg0] at hsrc hd hf
  rw [hg0] at hvalid
  obtain ⟨s, e1, e2⟩ := New.fused_generate_independent P hP grid (by omega) _
    (MultiPath.ofGrid P.size grid) hvalid.shaped (MultiPath.ofGrid_shaped _ _) hd hf
    (G.drawAt generator (calls.count false)) hz false
  have h1 := New.fused_nextWith_of_generate G _ false s hvalid.flag
    (by
      simp only [Bool.false_eq_true, if_false]
      rw [hvalid.process, hsrc]
      exact e1)
  rw [hg0]
  exact ⟨s, by rw [New.next, h1], e2⟩

/-- C16. Source usage, for both strategies.  A call of `next()` that returns a sample makes
exactly one call on the source, `nextSequence()`, and leaves the source in the state after
that draw; a call of `antithetic()` that returns a sample makes exactly one call,
`lastSequence()`; `antithetic()` never changes the state of the source.  On a generator
built by the constructor (flag off) for a well-formed process, after any history of
successful calls: the source has advanced by exactly the number of `next()` calls in the
history, whatever `antithetic()` calls were interleaved; the next `next()` returns the
sample generated from the draw of the source with that index (the sample that generation
on the constructor's buffer yields from that draw alone); and two consecutive calls of
`antithetic()` return the same sample. Draws are assumed to have `n * (m - 1)`
components. -/
theorem source_usage {σ R : Type} [Zero R] [One R] [Add R] [Sub R] [Mul R] [Neg R]
    (G : GSG σ R) (P : GenericStochasticProcess R) (hP : P.WellFormed) (grid : TimeGrid R)
    (generator : σ) :
    (∀ (g : MultiPathGenerator σ R) (a : Bool),
      (Old.nextWithTraced G g a).1 = Old.nextWith G g a ∧
      (New.nextWithTraced G g a).1 = New.nextWith G g a) ∧
    (∀ (g : MultiPathGenerator σ R) (s : Sample (MultiPath R) R),
      ((Old.next G g).result = .ok s →
        (Old.nextWithTraced G g false).2 = [SourceCall.nextSequence] ∧
        (Old.next G g).self.generator_ = (G.nextSequence g.generator_).1) ∧
      ((Old.antithetic G g).result = .ok s →
        (Old.nextWithTraced G g true).2 = [SourceCall.lastSequence]) ∧
      ((New.next G g).result = .ok s →
        (New.nextWithTraced G g false).2 = [SourceCall.nextSequence] ∧
        (New.next G g).self.generator_ = (G.nextSequence g.generator_).1) ∧
      ((New.antithetic G g).result = .ok s →
        (New.nextWithTraced G g true).2 = [SourceCall.lastSequence])) ∧
    (∀ g : MultiPathGenerator σ R,
      (Old.antithetic G g).self.generator_ = g.generator_ ∧
      (New.antithetic G g).self.generator_ = g.generator_) ∧
    (∀ g0, Old.construct G P grid generator false = .ok g0 →
      ∀ calls, Old.Succeeds G calls g0 →
        (Old.run G calls g0).generator_ = G.stateAfter (calls.count false) generator ∧
        ((G.drawAt generator (calls.count false)).value.length = P.size * (grid.size - 1) →
          ∃ s, (Old.next G (Old.run G calls g0)).result = .ok s ∧
            Old.generate P (MultiPath.ofGrid P.size grid)
              (G.drawAt generator (calls.count false)) false = .ok s) ∧
        ((G.lastSequence (Old.run G calls g0).generator_).value.length =
            P.size * (grid.size - 1) →
          ∃ s, (Old.antithetic G (Old.run G calls g0)).result = .ok s ∧
            (Old.antithetic G (Old.antithetic G (Old.run G calls g0)).self).result
              = .ok s)) ∧
    (∀ g0, New.construct G P grid generator false = .ok g0 →
      ∀ calls, New.Succeeds G calls g0 →
        (New.run G calls g0).generator_ = G.stateAfter (calls.count false) generator ∧
        ((G.drawAt generator (calls.count false)).value.length = P.size * (grid.size - 1) →
          ∃ s, (New.next G (New.run G calls g0)).result = .ok s ∧
            New.generate P (MultiPath.ofGrid P.size grid)
              (G.drawAt generator (calls.count false)) false = .ok s) ∧
        ((G.lastSequence (New.run G calls g0).generator_).value.length =
            P.size * (grid.size - 1) →
          ∃ s, (New.antithetic G (New.run G calls g0)).result = .ok s ∧
            (New.antithetic G (New.antithetic G (New.run G calls g0)).self).result
              = .ok s)) := by
  refine ⟨fun g a => ⟨Old.decomposed_traced_call G g a, New.fused_traced_call G g a⟩,
    fun g s => ⟨?_, ?_, ?_, ?_⟩, fun g => ⟨?_, ?_⟩, ?_, ?_⟩
  · intro h
    have hb := Old.decomposed_flag_of_ok G g false s h
    refine ⟨by rw [Old.decomposed_traced_calls]; simp [hb], ?_⟩
    rw [Old.next, (Old.decomposed_nextWith_members G g false).1]
    simp [hb]
  · intro h
    have hb := Old.decomposed_flag_of_ok G g true s h
    rw [Old.decomposed_traced_calls]
    simp [hb]
  · intro h
    have hb := New.fused_flag_of_ok G g false s h
    refine ⟨by rw [New.fused_traced_calls]; simp [hb], ?_⟩
    rw [New.next, (New.fused_nextWith_members G g false).1]
    simp [hb]
  · intro h
    have hb := New.fused_flag_of_ok G g true s h
    rw [New.fused_traced_calls]
    simp [hb]
  · rw [Old.antithetic, (Old.decomposed_nextWith_members G g true).1]
    simp
  · rw [New.antithetic, (New.fused_nextWith_members G g true).1]
    simp
  · intro g0 hc calls hs
    obtain ⟨hvalid, _⟩ := Old.decomposed_valid_of_construct G P grid generator g0 hc calls hs
    obtain ⟨_, hg0⟩ := Old.decomposed_construct_ok G P grid generator false g0 hc
    refine ⟨?_, Old.decomposed_next_from_draw G P hP grid generator g0 hc calls hs,
      Old.decomposed_antithetic_twice G P hP grid _ hvalid⟩
    rw [Old.decomposed_run_source G calls g0 (by rw [hg0]), hg0]
  · intro g0 hc calls hs
    obtain ⟨hvalid, hm⟩ := New.fused_valid_of_construct G P grid generator g0 hc calls hs
    obtain ⟨_, hg0⟩ := New.fused_construct_ok G P grid generator false g0 hc
    refine ⟨?_, New.fused_next_from_draw G P hP grid generator g0 hc calls hs,
      New.fused_antithetic_twice G P hP grid (by omega) _ hvalid⟩
    rw [New.fused_run_source G calls g0 (by rw [hg0]), hg0]

/-- Instance of C16 on `linear 1` over the grid `0, 1, 2`: after the history `next()`,
`antithetic()`, `antithetic()`, `next()` the source has advanced by two draws, the next
`next()` returns the sample generated from the draw of index 2, and two further calls of
`antithetic()` agree, for both strategies. -/
theorem source_usage_witness :
    ((Old.run Example.source2 [false, true, true, false] Example.generator2).generator_ =
        Example.source2.stateAfter 2 0 ∧
      (∃ s, (Old.next Example.source2
          (Old.run Example.source2 [false, true, true, false] Example.generator2)).result
            = .ok s ∧
        Old.generate (Example.linear 1) (MultiPath.ofGrid 1 Example.grid3)
          (Example.source2.drawAt 0 2) false = .ok s) ∧
      ∃ s, (Old.antithetic Example.source2
          (Old.run Example.source2 [false, true, true, false] Example.generator2)).result
            = .ok s ∧
        (Old.antithetic Example.source2 (Old.antithetic Example.source2
          (Old.run Example.source2 [false, true, true, false]
            Example.generator2)).self).result = .ok s) ∧
    ((New.run Example.source2 [false, true, true, false] Example.generator2).generator_ =
        Example.source2.stateAfter 2 0 ∧
      (∃ s, (New.next Example.source2
          (New.run Example.source2 [false, true, true, false] Example.generator2)).result
            = .ok s ∧
        New.generate (Example.linear 1) (MultiPath.ofGrid 1 Example.grid3)
          (Example.source2.drawAt 0 2) false = .ok s) ∧
      ∃ s, (New.antithetic Example.source2
          (New.run Example.source2 [false, true, true, false] Example.generator2)).result
            = .ok s ∧
        (New.antithetic Example.source2 (New.antithetic Example.source2
          (New.run Example.source2 [false, true, true, false]
            Example.generator2)).self).result = .ok s) :=
  ⟨⟨((source_usage Example.source2 (Example.linear 1)
        (Example.linear_wellFormed 1 (by decide)) Example.grid3 0).2.2.2.1
        Example.generator2 rfl [false, true, true, false]
        ⟨by decide, by decide, by decide, by decide, trivial⟩).1,
      ((source_usage Example.source2 (Example.linear 1)
        (Example.linear_wellFormed 1 (by decide)) Example.grid3 0).2.2.2.1
        Example.generator2 rfl [false, true, true, false]
        ⟨by decide, by decide, by decide, by decide, trivial⟩).2.1 (by decide),
      ((source_usage Example.source2 (Example.linear 1)
        (Example.linear_wellFormed 1 (by decide)) Example.grid3 0).2.2.2.1
        Example.generator2 rfl [false, true, true, false]
        ⟨by decide, by decide, by decide, by decide, trivial⟩).2.2 (by decide)⟩,
    ⟨((source_usage Example.source2 (Example.linear 1)
        (Example.linear_wellFormed 1 (by decide)) Example.grid3 0).2.2.2.2
        Example.generator2 rfl [false, true, true, false]
        ⟨by decide, by decide, by decide, by decide, trivial⟩).1,
      ((source_usage Example.source2 (Example.linear 1)
        (Example.linear_wellFormed 1 (by decide)) Example.grid3 0).2.2.2.2
        Example.generator2 rfl [false, true, true, false]
        ⟨by decide, by decide, by decide, by decide, trivial⟩).2.1 (by decide),
      ((source_usage Example.source2 (Example.linear 1)
        (Example.linear_wellFormed 1 (by decide)) Example.grid3 0).2.2.2.2
        Example.generator2 rfl [false, true, true, false]
        ⟨by decide, by decide, by decide, by decide, trivial⟩).2.2 (by decide)⟩⟩

/-! ## The list-based constructor -/

/-- C18. Implied-volatility objective: for every pricer `value()`, option, target price `p`
and argument `x`, the call `VolatilityFunction(option, p)(x)` evaluates `value()` on the
option whose volatility has been set to `x` and returns that value minus `p` (or raises
what `value()` raises); after the call the volatility of the shared option is `x`, its
other non-mutable members are those of the option given, and the stored target price is
still `p`. -/
theorem Pricers.volatilityFunction_call {T D R : Type} [Sub R]
    (value : Pricers.ValueFunction T D R) (option : Pricers.SingleAssetOption T D R)
    (p x : R) :
    (option.setVolatility x).volatility_ = x ∧
    ((Pricers.VolatilityFunction.construct option p).call value x).result =
      (value (option.setVolatility x)).2.map (fun v => v - p) ∧
    (∀ v, (value (option.setVolatility x)).2 = .ok v →
      ((Pricers.VolatilityFunction.construct option p).call value x).result =
        .ok (v - p)) ∧
    ((Pricers.VolatilityFunction.construct option p).call value x).self.bsm.volatility_
      = x ∧
    ((Pricers.VolatilityFunction.construct option p).call value x).self.bsm =
      (option.setVolatility x).setMutable (value (option.setVolatility x)).1 ∧
    ((Pricers.VolatilityFunction.construct option p).call value x).self.targetPrice_
      = p := by
  refine ⟨rfl, rfl, ?_, rfl, rfl, rfl⟩
  intro v hv
  show (value (option.setVolatility x)).2.map (fun v => v - p) = .ok (v - p)
  rw [hv]
  rfl

/-- Instance of C18: on an option of underlying `10`, strike `4` and volatility `2`, the
objective for the target price `1` called at `3` returns `10 * 3 - 4 - 1 = 25`, the value
at the new volatility and not at the old one, and leaves the volatility `3`. -/
theorem Pricers.volatilityFunction_call_witness :
    ((Pricers.VolatilityFunction.construct Example.option10 1).call
      Example.optionValue 3).result = .ok 25 ∧
    ((Pricers.VolatilityFunction.construct Example.option10 1).call
      Example.optionValue 3).self.bsm.volatility_ = 3 ∧
    ((Pricers.VolatilityFunction.construct Example.option10 1).call
      Example.optionValue 3).self.targetPrice_ = 1 :=
  ⟨(Pricers.volatilityFunction_call Example.optionValue Example.option10 1 3).2.2.1 26 rfl,
    (Pricers.volatilityFunction_call Example.optionValue Example.option10 1 3).2.2.2.1,
    (Pricers.volatilityFunction_call Example.optionValue Example.option10 1 3).2.2.2.2.2⟩

/-! ## What a decomposed generation call leaves in the buffer -/

/-- In a buffer of the constructed shape every Path holds a drift and a diffusion record
at every step, and the vector of increments at a step holds their sums. -/
theorem MultiPath.increments_getElem? {R : Type} [Zero R] [Add R] {mp : MultiPath R}
    {grid : TimeGrid R} {n : Nat} (h : mp.Shaped grid n) {j i : Nat} (hj : j < n)
    (hi : i + 1 < grid.size) :
    ∃ d f, mp.driftAt j i = some d ∧ mp.diffusionAt j i = some f ∧
      (mp.increments i)[j]? = some (d + f) := by
  obtain ⟨p, hp, _, _, hd, hf⟩ := h.getElem? hj
  have h1 : i < p.drift_.length := by omega
  have h2 : i < p.diffusion_.length := by omega
  refine ⟨p.drift_[i], p.diffusion_[i], ?_, ?_, ?_⟩
  · unfold MultiPath.driftAt
    rw [hp]
    exact List.getElem?_eq_getElem h1
  · unfold MultiPath.diffusionAt
    rw [hp]
    exact List.getElem?_eq_getElem h2
  · unfold MultiPath.increments
    rw [List.getElem?_map, hp]
    simp [List.getD_eq_getElem?_getD, List.getElem?_eq_getElem h1,
      List.getElem?_eq_getElem h2]

/-- C7, amended. Decomposed strategy: a successful generation call does not write the
values of the output Paths: after `next()` or `antithetic()` on any generator every Path
holds, at every grid index, the value it held before the call.  What the call writes are
the records and the weight: on a generator built by the constructor with the flag off for
a well-formed process of `n` factors over a grid of `m` instants, after any sequence of
successful calls and for a draw of `n * (m - 1)` components, the call (`a = false` for
`next()`, `a = true` for `antithetic()`) returns a sample whose values are those of the
buffer before the call, whose weight is the weight of the draw, and whose drift and
diffusion records follow the decomposed recursion at every step `i` in `0 .. m-2`
(`Old.Recorded`); every Path holds both records at every step, the increment of factor
`j` at step `i` is their sum, and the state is recomputed from them by
`s_{i+1} = apply(s_i, drift_i + diffusion_i)`. -/
theorem Old.values_untouched {σ R : Type} [Zero R] [One R] [Add R] [Sub R] [Mul R] [Neg R]
    (G : GSG σ R) (P : GenericStochasticProcess R) (hP : P.WellFormed) (grid : TimeGrid R)
    (generator : σ) (g0 : MultiPathGenerator σ R)
    (hc : Old.construct G P grid generator false = .ok g0)
    (calls : List Bool) (hcalls : Old.Succeeds G calls g0) :
    (∀ (g : MultiPathGenerator σ R) (s : Sample (MultiPath R) R),
      ((Old.next G g).result = .ok s ∨ (Old.antithetic G g).result = .ok s) →
      s.value.multiPath_.map Path.values_ = g.next_.value.multiPath_.map Path.values_ ∧
      ∀ j i, s.value.valueAt j i = g.next_.value.valueAt j i) ∧
    ∀ a : Bool,
      (G.drawFor (Old.run G calls g0).generator_ a).value.length
        = P.size * (grid.size - 1) →
      ∃ s, (Old.nextWith G (Old.run G calls g0) a).result = .ok s ∧
        (∀ j i, s.value.valueAt j i = (Old.run G calls g0).next_.value.valueAt j i) ∧
        s.weight = (G.drawFor (Old.run G calls g0).generator_ a).weight ∧
        Old.Recorded P grid (G.drawFor (Old.run G calls g0).generator_ a).value a s.value
          (grid.size - 1) ∧
        (∀ i, i + 1 < grid.size → ∀ j, j < P.size →
          ∃ d f, s.value.driftAt j i = some d ∧ s.value.diffusionAt j i = some f ∧
            (s.value.increments i)[j]? = some (d + f)) ∧
        ∀ i, Old.recordedState P s.value (i + 1) =
          P.apply (Old.recordedState P s.value i) (s.value.increments i) := by
  have key : ∀ (g : MultiPathGenerator σ R) (s : Sample (MultiPath R) R) (a : Bool),
      (Old.nextWith G g a).result = .ok s →
      s.value.multiPath_.map Path.values_ = g.next_.value.multiPath_.map Path.values_ := by
    intro g s a ha
    obtain ⟨_, hg, _⟩ := Old.decomposed_nextWith_ok G g a s ha
    exact map_eq_of_map_eq Old.frameKey (fun k => k.2.1) _ _
      (Old.decomposed_generate_frame _ _ _ _ _ hg)
  refine ⟨?_, ?_⟩
  · intro g s h
    have hmap : s.value.multiPath_.map Path.values_ =
        g.next_.value.multiPath_.map Path.values_ := by
      rcases h with h | h
      · exact key g s false h
      · exact key g s true h
    exact ⟨hmap, MultiPath.valueAt_congr _ _ hmap⟩
  · intro a hz
    obtain ⟨hvalid, _⟩ := Old.decomposed_valid_of_construct G P grid generator g0 hc calls
      hcalls
    obtain ⟨s, hgen, hw, hshape, hrec⟩ := Old.decomposed_generate_spec P hP grid
      (Old.run G calls g0).next_.value hvalid.shaped _ hz a
    have hgen2 : Old.generate (Old.run G calls g0).process_ (Old.run G calls g0).next_.value
        (if a = true then G.lastSequence (Old.run G calls g0).generator_
          else (G.nextSequence (Old.run G calls g0).generator_).2) a = .ok s := by
      rw [hvalid.process]; exact hgen
    have hres : (Old.nextWith G (Old.run G calls g0) a).result = .ok s := by
      rw [Old.decomposed_nextWith_of_generate G _ a s hvalid.flag hgen2]
    exact ⟨s, hres, MultiPath.valueAt_congr _ _ (key _ s a hres), hw, hrec,
      fun i hi j hj => MultiPath.increments_getElem? hshape hj hi, fun _ => rfl⟩

/-- Instance of C7 as amended: the first `next()` of `generator2` leaves the values of
its Path as they were, and the `antithetic()` that follows returns a sample with the
values of the buffer, the weight of the draw and records following the recursion on the
draw `[1, 1]`. -/
theorem Old.values_untouched_witness :
    (Example.sampleNext.value.multiPath_.map Path.values_ =
        Example.generator2.next_.value.multiPath_.map Path.values_ ∧
      ∀ j i, Example.sampleNext.value.valueAt j i =
        Example.generator2.next_.value.valueAt j i) ∧
    ∃ s, (Old.nextWith Example.source2
        (Old.run Example.source2 [false] Example.generator2) true).result = .ok s ∧
      (∀ j i, s.value.valueAt j i =
        (Old.run Example.source2 [false] Example.generator2).next_.value.valueAt j i) ∧
      s.weight = (Example.source2.drawFor
        (Old.run Example.source2 [false] Example.generator2).generator_ true).weight ∧
      Old.Recorded (Example.linear 1) Example.grid3
        (Example.source2.drawFor
          (Old.run Example.source2 [false] Example.generator2).generator_ true).value
        true s.value (Example.grid3.size - 1) ∧
      (∀ i, i + 1 < Example.grid3.size → ∀ j, j < (Example.linear 1).size →
        ∃ d f, s.value.driftAt j i = some d ∧ s.value.diffusionAt j i = some f ∧
          (s.value.increments i)[j]? = some (d + f)) ∧
      ∀ i, Old.recordedState (Example.linear 1) s.value (i + 1) =
        (Example.linear 1).apply (Old.recordedState (Example.linear 1) s.value i)
          (s.value.increments i) :=
  ⟨(Old.values_untouched Example.source2 (Example.linear 1)
      (Example.linear_wellFormed 1 (by decide)) Example.grid3 0 Example.generator2 rfl
      [false] ⟨by decide, trivial⟩).1 Example.generator2 Example.sampleNext (Or.inl rfl),
    (Old.values_untouched Example.source2 (Example.linear 1)
      (Example.linear_wellFormed 1 (by decide)) Example.grid3 0 Example.generator2 rfl
      [false] ⟨by decide, trivial⟩).2 true (by decide)⟩

/-! ## Determinism, and the content of the fresh buffer -/

theorem Old.decomposed_construct_eq_constructWith {σ R : Type} [Zero R] [One R]
    (G : GSG σ R) (process : GenericStochasticProcess R) (times : TimeGrid R)
    (generator : σ) (bb : Bool) :
    Old.construct G process times generator bb =
      Old.constructWith MultiPath.ofGrid G process times generator bb := rfl

theorem New.fused_construct_eq_constructWith {σ R : Type} [Zero R] [One R]
    (G : GSG σ R) (process : GenericStochasticProcess R) (times : TimeGrid R)
    (generator : σ) (bb : Bool) :
    New.construct G process times generator bb =
      New.constructWith MultiPath.ofGrid G process times generator bb := rfl

end QuantLib
